import Mathlib

/-!
The galactic server: the accept and dispatch front-end, the byte buffer and the HTTP/2 frame
codec.

A shallow embedding of `src/server.c`, `src/worker.c` and `src/util/binary_buffer.c`, and of
the frame codec that `src/http/h2/check_h2_frame.c` exercises, with the properties stated
about them.

Conventions. `size_t` values are natural numbers reduced modulo `SIZE_MOD` where the C
arithmetic can wrap. Calls into libuv and into the connection engine are recorded, in order,
in a `calls` field of the state. What the environment decides (the result of `uv_accept`, the
answer of the allocator) is an argument of the function that consumes it. A result of `none`
stands for undefined behaviour of the C code.
-/

namespace Galactic

/-- The modulus of `size_t` arithmetic (a 64-bit platform). -/
def SIZE_MOD : Nat := 2 ^ 64

/-- Increment of a `size_t` lvalue (`x++`). -/
def size_incr (x : Nat) : Nat := (x + 1) % SIZE_MOD

/-- Decrement of a `size_t` lvalue (`x--`); zero wraps to the largest value. -/
def size_decr (x : Nat) : Nat := if x = 0 then SIZE_MOD - 1 else x - 1

/-! ## server.c -/

/-- The handles the master process owns. -/
inductive uv_handle where
  | sigpipe_handler
  | sigint_handler
  | sigterm_handler
  | tcp_listener (index : Nat)
  | worker_process (index : Nat)
  | worker_pipe (index : Nat)
  | client
  deriving DecidableEq, Repr

/-- The libuv calls of server.c that act on the outside world, in call order. -/
inductive uv_call where
  | uv_stop
  | uv_signal_stop (h : uv_handle)
  | uv_close (h : uv_handle)
  | uv_process_kill (worker : Nat) (signum : Nat)
  | uv_write2 (worker : Nat) (payload : List Nat)
  | uv_pipe_init (worker : Nat)
  | uv_spawn (worker : Nat) (args : List (Option (Option String)))
  | uv_signal_start (h : uv_handle) (signum : Nat)
  | uv_tcp_init (index : Nat)
  | uv_tcp_bind (index : Nat)
  | uv_listen (index : Nat)
  | uv_run
  deriving DecidableEq, Repr

/-- The signal number of SIGTERM. -/
def SIGTERM : Nat := 15

/-- The signal number of SIGINT. -/
def SIGINT : Nat := 2

/-- The signal number of SIGPIPE. -/
def SIGPIPE : Nat := 13

/-- The fields of `struct worker_process_t` that server.c reads and writes. -/
structure worker_process_t where
  stopped : Bool
  deriving DecidableEq, Repr

/-- The fields of `struct listen_address_t` that server.c reads and writes; the list nodes
are the elements of `server_config_t.address_list`, in list order. -/
structure listen_address_t where
  hostname : String
  port : Int
  use_tls : Bool
  index : Nat
  deriving DecidableEq, Repr

/-- The fields of `struct server_config_t` that server.c reads. The argument vector is a
list, `argv[0]` first; its length is the field `argc`. -/
structure server_config_t where
  num_workers : Nat
  argv : List String
  address_list : List listen_address_t
  deriving DecidableEq, Repr

/-- The field `argc` of `struct server_config_t`: the number of entries of `argv`. -/
def server_config_t.argc (config : server_config_t) : Nat := config.argv.length

/-- The fields of `struct server_t` used by server.c; `tcp_list` holds the address index of
each listener (most recently added first) and `calls` records the libuv calls made so far. -/
structure server_t where
  config : server_config_t
  workers : List worker_process_t
  tcp_list : List Nat
  stopping : Bool
  round_robin_counter : Nat
  active_handlers : Nat
  active_listeners : Nat
  active_workers : Nat
  calls : List uv_call
  deriving DecidableEq, Repr

/-- Translation of `server_init`: `workers = NULL`, all counters cleared, three signal handles. -/
def server_init (config : server_config_t) : server_t :=
  { config := config
    workers := []
    tcp_list := []
    stopping := false
    round_robin_counter := 0
    active_handlers := (0 + 3) % SIZE_MOD
    active_listeners := 0
    active_workers := 0
    calls := [] }

/-- The `for` loop of `server_stop` over `workers[0 .. n-1]`: the workers as left by the
loop. The array is taken to hold at least `n` workers (the C code reads past its end
otherwise). -/
def kill_workers_state : Nat → List worker_process_t → List worker_process_t
  | 0, ws => ws
  | _ + 1, [] => []
  | n + 1, w :: ws => (if !w.stopped then { w with stopped := true } else w) :: kill_workers_state n ws

/-- The `uv_process_kill` calls of the same loop, `i` being the index of the head of the list. -/
def kill_workers_calls : Nat → Nat → List worker_process_t → List uv_call
  | 0, _, _ => []
  | _ + 1, _, [] => []
  | n + 1, i, w :: ws =>
    (if !w.stopped then [uv_call.uv_process_kill i SIGTERM] else []) ++ kill_workers_calls n (i + 1) ws

/-- The state `server_stop` has built when it reaches its call of `server_stop_continue`. -/
def server_stop_actions (s : server_t) : server_t :=
  { s with
    stopping := true
    workers := if s.active_workers > 0 then kill_workers_state s.config.num_workers s.workers else s.workers
    calls := s.calls ++
      [uv_call.uv_signal_stop uv_handle.sigpipe_handler,
       uv_call.uv_signal_stop uv_handle.sigint_handler,
       uv_call.uv_signal_stop uv_handle.sigterm_handler,
       uv_call.uv_close uv_handle.sigpipe_handler,
       uv_call.uv_close uv_handle.sigint_handler,
       uv_call.uv_close uv_handle.sigterm_handler] ++
      s.tcp_list.map (fun i => uv_call.uv_close (uv_handle.tcp_listener i)) ++
      (if s.active_workers > 0 then kill_workers_calls s.config.num_workers 0 s.workers else []) }

mutual
/-- Translation of `server_stop`. -/
def server_stop (s : server_t) : server_t :=
  if !s.stopping then
    server_stop_continue (server_stop_actions s)
  else
    s
termination_by (if s.stopping then 0 else 2)
decreasing_by simp_all [server_stop_actions]
/-- Translation of `server_stop_continue`. -/
def server_stop_continue (s : server_t) : server_t :=
  if s.active_workers < 1 ∧ s.active_listeners < 1 ∧ s.active_handlers < 1 then
    { s with calls := s.calls ++ [uv_call.uv_stop] }
  else if s.active_workers < 1 then
    server_stop s
  else
    s
termination_by (if s.stopping then 1 else 3)
decreasing_by split <;> simp
end

/-- Translation of `worker_pipe_closed` for the pipe of `workers[i]`. `free(worker_process)`
releases the record while `workers[i]` still points at it: what a later read through that
pointer finds is indeterminate, the input `stale` of the model. -/
def worker_pipe_closed (s : server_t) (i : Nat) (stale : worker_process_t) : server_t :=
  server_stop_continue
    { s with
      workers := s.workers.set i stale
      active_workers := size_decr s.active_workers }

/-- One invocation of the connection callback: the index of the listen address, the `status`
argument, and the value `uv_accept` returns if the callback calls it. -/
structure connection_t where
  addr_index : Nat
  status : Int
  accept_result : Int
  deriving DecidableEq, Repr

/-- Translation of `server_on_new_connection`. `none` stands for undefined behaviour: reading
`workers[round_robin_counter]` outside the array, or a remainder by `num_workers = 0`. -/
def server_on_new_connection (s : server_t) (c : connection_t) : Option server_t :=
  if c.status = -1 then
    some s
  else if c.accept_result = 0 then
    if s.round_robin_counter < s.workers.length ∧ s.config.num_workers ≠ 0 then
      some { s with
        calls := s.calls ++ [uv_call.uv_write2 s.round_robin_counter [c.addr_index % 256]]
        round_robin_counter := size_incr s.round_robin_counter % s.config.num_workers }
    else
      none
  else
    some { s with calls := s.calls ++ [uv_call.uv_close uv_handle.client] }

/-- The connection callback run once per element of a list, in order. -/
def server_connections (s : server_t) : List connection_t → Option server_t
  | [] => some s
  | c :: cs => (server_on_new_connection s c).bind (fun s' => server_connections s' cs)

/-- The worker indexes of the `uv_write2` calls in a call record, in order. -/
def dispatched_workers : List uv_call → List Nat
  | [] => []
  | uv_call.uv_write2 w _ :: cs => w :: dispatched_workers cs
  | _ :: cs => dispatched_workers cs

/-- Whether a call record contains `uv_stop`. -/
def loop_stopped (calls : List uv_call) : Bool := calls.contains uv_call.uv_stop

/-- What the environment decides while `server_run` executes: the path `uv_exepath` reports,
what a read through an uninitialised or dangling worker pointer finds, and the values returned
by `uv_spawn` (per worker index), `uv_ip4_addr` and `uv_listen` (per address position). -/
structure server_run_env where
  worker_path : String
  stale : worker_process_t
  uv_spawn : Nat → Int
  uv_ip4_addr : Nat → Int
  uv_listen : Nat → Int

/-- The `for` loop of `setup_workers`: `args[i+1] = argv[i]` for the entries of `argv` from
position `i` on, given as the first argument. -/
def setup_workers_copy_args :
    List String → Nat → List (Option (Option String)) → List (Option (Option String))
  | [], _, args => args
  | a :: rest, i, args => setup_workers_copy_args rest (i + 1) (args.set (i + 1) (some (some a)))

/-- The array `args` that `setup_workers` builds, slot by slot. A slot is `none` while it is
uninitialised, `some none` when it holds `NULL` and `some (some str)` when it points at a
string. -/
def setup_workers_args (worker_path : String) (argv : List String) :
    List (Option (Option String)) :=
  let args : List (Option (Option String)) := List.replicate (argv.length + 2) none
  let args := args.set 0 (some (some worker_path))
  let args := args.set 1 (some (some "-a"))
  let args := setup_workers_copy_args (argv.drop 1) 1 args
  args.set (argv.length + 1) (some none)

/-- The `while (num_workers--)` loop of `setup_workers`, the first argument being the value of
the `int` variable `num_workers` before the test, which is not negative here (`setup_workers`
deals with a negative value). The allocations are taken to succeed. -/
def setup_workers_loop (env : server_run_env) (args : List (Option (Option String))) :
    Nat → server_t → Bool × server_t
  | 0, s => (true, s)
  | k + 1, s =>
    let s1 := { s with
      workers := s.workers.set k { stopped := false }
      calls := s.calls ++ [uv_call.uv_pipe_init k, uv_call.uv_spawn k args] }
    if env.uv_spawn k < 0 then
      (false, s1)
    else
      setup_workers_loop env args k { s1 with active_workers := size_incr s1.active_workers }

/-- Translation of `setup_workers`: the return value and the server afterwards.
`int num_workers = server->config->num_workers` keeps the low 32 bits of the `size_t` count as
a two's complement number. When that number is not negative, the array has that many slots
and the loop runs that many times. When it is negative, the loop is entered and stores
through `workers[num_workers]` at a negative index: undefined behaviour, `none`. The array
that `malloc` returns holds indeterminate pointers, each modelled by the record
`env.stale`. -/
def setup_workers (env : server_run_env) (s : server_t) : Option (Bool × server_t) :=
  let num_workers := s.config.num_workers % 2 ^ 32
  if num_workers < 2 ^ 31 then
    some (setup_workers_loop env (setup_workers_args env.worker_path s.config.argv) num_workers
      { s with workers := List.replicate num_workers env.stale })
  else
    none

/-- The `while (curr)` loop of `server_run` over the remaining nodes of the address list,
followed by the assignment `active_listeners = index`. The list has fewer than `2^64` nodes,
so `index++` does not wrap. -/
def server_run_listen (env : server_run_env) :
    List listen_address_t → Nat → server_t → Bool × server_t
  | [], index, s => (true, { s with active_listeners := index })
  | curr :: rest, index, s =>
    let s1 := { s with
      config := { s.config with
        address_list := s.config.address_list.set index { curr with index := index } }
      tcp_list := index :: s.tcp_list
      calls := s.calls ++ [uv_call.uv_tcp_init index] }
    if env.uv_ip4_addr index ≠ 0 then
      (false, s1)
    else
      let s2 := { s1 with calls := s1.calls ++ [uv_call.uv_tcp_bind index, uv_call.uv_listen index] }
      if env.uv_listen index ≠ 0 then
        (false, s2)
      else
        server_run_listen env rest (index + 1) s2

/-- Translation of `server_run` up to its call of `uv_run`: the return value, and the server
as the event loop finds it (on `true`) or as it is left (on `false`); `none` when
`setup_workers` has undefined behaviour. The callbacks the loop then runs are separate
functions of the model. -/
def server_run (env : server_run_env) (s : server_t) : Option (Bool × server_t) :=
  match setup_workers env s with
  | none => none
  | some r =>
    if !r.1 then
      some (false, r.2)
    else
      let s1 := { r.2 with
        calls := r.2.calls ++
          [uv_call.uv_signal_start uv_handle.sigpipe_handler SIGPIPE,
           uv_call.uv_signal_start uv_handle.sigint_handler SIGINT,
           uv_call.uv_signal_start uv_handle.sigterm_handler SIGTERM] }
      let r2 := server_run_listen env s1.config.address_list 0 s1
      if !r2.1 then
        some (false, r2.2)
      else
        some (true, { r2.2 with calls := r2.2.calls ++ [uv_call.uv_run] })

/-- The connection callback as libuv invokes it for the listener of the address at position
`i` of the list: `uv_stream->data` is that node, whose `index` field the callback reads. -/
def server_listener_connection (s : server_t) (i : Nat) (status accept_result : Int) :
    Option server_t :=
  match s.config.address_list[i]? with
  | some addr => server_on_new_connection s ⟨addr.index, status, accept_result⟩
  | none => none

/-- The calls the loop of `setup_workers` makes from the value `k` of `num_workers` down when
every spawn succeeds. -/
def setup_workers_calls (args : List (Option (Option String))) : Nat → List uv_call
  | 0 => []
  | k + 1 => [uv_call.uv_pipe_init k, uv_call.uv_spawn k args] ++ setup_workers_calls args k

/-- The nodes of an address list with the `index` field of each set to its position, the
first node being at position `i`. -/
def indexed_addresses : Nat → List listen_address_t → List listen_address_t
  | _, [] => []
  | i, a :: rest => { a with index := i } :: indexed_addresses (i + 1) rest

/-- The calls the loop of `server_run` makes for `n` addresses from position `i` on when every
address is bound and listened on. -/
def server_run_listen_calls : Nat → Nat → List uv_call
  | _, 0 => []
  | i, n + 1 =>
    [uv_call.uv_tcp_init i, uv_call.uv_tcp_bind i, uv_call.uv_listen i] ++
      server_run_listen_calls (i + 1) n

/-- The server as `uv_run` finds it when every spawn and every listen succeeds: the workers
are the `num_workers % 2^32` that the `int` copy of `num_workers` counts. -/
def server_running (env : server_run_env) (config : server_config_t) : server_t :=
  { config := { config with address_list := indexed_addresses 0 config.address_list }
    workers := List.replicate (config.num_workers % 2 ^ 32) { stopped := false }
    tcp_list := (List.range' 0 config.address_list.length).reverse
    stopping := false
    round_robin_counter := 0
    active_handlers := 3
    active_listeners := config.address_list.length
    active_workers := config.num_workers % 2 ^ 32
    calls := setup_workers_calls (setup_workers_args env.worker_path config.argv)
        (config.num_workers % 2 ^ 32) ++
      [uv_call.uv_signal_start uv_handle.sigpipe_handler SIGPIPE,
       uv_call.uv_signal_start uv_handle.sigint_handler SIGINT,
       uv_call.uv_signal_start uv_handle.sigterm_handler SIGTERM] ++
      server_run_listen_calls 0 config.address_list.length ++ [uv_call.uv_run] }

/-- Translation of `server_sigpipe_handler`: a log line only. -/
def server_sigpipe_handler (s : server_t) (_signum : Nat) : server_t := s

/-- Translation of `server_sigint_handler`; `signum` only appears in a log line. -/
def server_sigint_handler (s : server_t) (_signum : Nat) : server_t := server_stop s

/-- Translation of `server_sigterm_handler`; `signum` only appears in a log line. -/
def server_sigterm_handler (s : server_t) (_signum : Nat) : server_t := server_stop s

/-- The worker indexes of the `uv_spawn` calls in a call record, in order. -/
def spawned_workers : List uv_call → List Nat
  | [] => []
  | uv_call.uv_spawn w _ :: cs => w :: spawned_workers cs
  | _ :: cs => spawned_workers cs

/-! ## worker.c -/

/-- The calls of worker.c into the connection engine and libuv that are recorded, in call
order. -/
inductive worker_call where
  | http_finished_writes
  | uv_write (length : Nat)
  | http_connection_eof
  | uv_close_tcp
  | uv_shutdown
  | tls_decrypt_data_and_pass_to_app (length : Nat)
  | http_connection_set_tls_details
  | http_connection_set_protocol
  | http_connection_read (length : Nat)
  deriving DecidableEq, Repr

/-- The fields of `tls_client_ctx_t` that worker.c tests: whether each pointer is set. -/
structure tls_client_ctx_t where
  selected_tls_version : Bool
  selected_protocol : Bool
  deriving DecidableEq, Repr

/-- The fields of `struct client_t` that the write path and read path of worker.c touch;
`tls_ctx = none` is the null pointer. -/
structure client_t where
  pending_writes : Nat
  eof : Bool
  closing : Bool
  selected_protocol : Bool
  tls_ctx : Option tls_client_ctx_t
  calls : List worker_call
  deriving DecidableEq, Repr

/-- Translation of `app_write_finished`; `status` only selects a log line. -/
def app_write_finished (client : client_t) (_status : Int) : client_t :=
  let client1 := { client with pending_writes := size_decr client.pending_writes }
  if client1.pending_writes = 0 then
    { client1 with calls := client1.calls ++ [worker_call.http_finished_writes] }
  else
    client1

/-- Translation of `worker_write_to_network`: the return value and the client afterwards.
The `malloc` of the request is taken to succeed; `buffer` is the `length` bytes passed on to
`uv_write`. -/
def worker_write_to_network (client : client_t) (buffer : List Nat) : Bool × client_t :=
  (true, { client with
            pending_writes := size_incr client.pending_writes
            calls := client.calls ++ [worker_call.uv_write buffer.length] })

/-- A step of the write path: a write is started or a started write completes. -/
inductive write_event where
  | start (buffer : List Nat)
  | finished (status : Int)
  deriving DecidableEq, Repr

/-- One step of the write path. -/
def write_step (client : client_t) : write_event → client_t
  | write_event.start buffer => (worker_write_to_network client buffer).2
  | write_event.finished status => app_write_finished client status

/-- A sequence of steps of the write path. -/
def write_steps (client : client_t) (evs : List write_event) : client_t :=
  evs.foldl write_step client

/-- Whether a step starts a write. -/
def write_event.starts : write_event → Bool
  | write_event.start _ => true
  | write_event.finished _ => false

/-- Whether a step completes a write. -/
def write_event.completes : write_event → Bool
  | write_event.start _ => false
  | write_event.finished _ => true

/-- The number of write starts in a sequence of steps. -/
def write_starts (evs : List write_event) : Nat := evs.countP write_event.starts

/-- The number of write completions in a sequence of steps. -/
def write_completions (evs : List write_event) : Nat := evs.countP write_event.completes

/-- The conjunction tested first by `server_stop_continue`, on `size_t` counters. -/
def all_closed (s : server_t) : Prop :=
  s.active_workers = 0 ∧ s.active_listeners = 0 ∧ s.active_handlers = 0

/-- The value of libuv's `UV_EOF`. -/
def UV_EOF : Int := -4095

/-- Translation of `worker_close`. -/
def worker_close (client : client_t) : client_t :=
  { client with calls := client.calls ++ [worker_call.uv_shutdown] }

/-- Translation of `worker_parse` for a chunk of `length` octets. -/
def worker_parse (client : client_t) (length : Nat) : client_t :=
  let client1 :=
    match client.tls_ctx with
    | some ctx =>
      if ctx.selected_tls_version then
        { client with calls := client.calls ++ [worker_call.http_connection_set_tls_details] }
      else client
    | none => client
  let client2 :=
    match client1.tls_ctx with
    | some ctx =>
      if !client1.selected_protocol && ctx.selected_protocol then
        { client1 with
          selected_protocol := true
          calls := client1.calls ++ [worker_call.http_connection_set_protocol] }
      else client1
    | none => client1
  { client2 with calls := client2.calls ++ [worker_call.http_connection_read length] }

/-- Translation of `worker_notify_eof`. -/
def worker_notify_eof (client : client_t) : client_t :=
  { client with calls := client.calls ++ [worker_call.http_connection_eof] }

/-- Translation of `worker_read_from_network`. `use_tls` is `worker->config->use_tls` and
`tls_ok` is what `tls_decrypt_data_and_pass_to_app` returns if it is called; what the TLS
layer does with the data is not part of this function. -/
def worker_read_from_network (use_tls : Bool) (client : client_t) (nread : Int)
    (tls_ok : Bool) : client_t :=
  if nread < 0 then
    if nread ≠ UV_EOF then
      { client with calls := client.calls ++ [worker_call.uv_close_tcp] }
    else
      worker_notify_eof { client with eof := true }
  else if use_tls then
    let client1 := { client with
      calls := client.calls ++ [worker_call.tls_decrypt_data_and_pass_to_app nread.toNat] }
    if !tls_ok then worker_close client1 else client1
  else
    worker_parse client nread.toNat

/-- The calls of worker.c that act on the worker as a whole, in call order: on its queue
pipe, on a client being set up, on its plugins and on its event loop. -/
inductive worker_loop_call where
  | uv_close_queue
  | http_connection_init
  | tls_client_init
  | uv_tcp_init
  | uv_accept
  | uv_read_start
  | uv_close_client
  | plugin_stop (plugin : Nat)
  | uv_stop
  deriving DecidableEq, Repr

/-- The fields of `struct worker_t` that worker.c reads and writes: `use_tls` is
`config->use_tls`, `plugins` the plugin list in list order, `clients` the client records
that `worker_on_new_connection` has set up, `calls` the record of calls. -/
structure worker_t where
  use_tls : Bool
  terminate : Bool
  plugins : List Nat
  clients : List client_t
  calls : List worker_loop_call
  deriving DecidableEq, Repr

/-- What the environment decides during one run of `worker_on_new_connection`: the `nread`
argument, the pending count and pending type of the queue pipe, whether `malloc` succeeds,
the record `client_init` leaves (`none` when it returns false) and the value `uv_accept`
returns. -/
structure queue_read_t where
  nread : Int
  pending_count : Nat
  pending_is_tcp : Bool
  malloc_ok : Bool
  client_init : Option client_t
  uv_accept : Int
  deriving DecidableEq, Repr

/-- Translation of `worker_on_new_connection`. `none` stands for the failure of
`assert(pending == UV_TCP)`. -/
def worker_on_new_connection (worker : worker_t) (e : queue_read_t) : Option worker_t :=
  if e.nread < 0 then
    some { worker with calls := worker.calls ++ [worker_loop_call.uv_close_queue] }
  else if e.pending_count = 0 then
    some worker
  else if !e.pending_is_tcp then
    none
  else if !e.malloc_ok then
    some worker
  else
    match e.client_init with
    | none => some worker
    | some client =>
      let calls1 := worker.calls ++ [worker_loop_call.http_connection_init] ++
        (if worker.use_tls then [worker_loop_call.tls_client_init] else []) ++
        [worker_loop_call.uv_tcp_init, worker_loop_call.uv_accept]
      if e.uv_accept = 0 then
        some { worker with
          clients := worker.clients ++ [client]
          calls := calls1 ++ [worker_loop_call.uv_read_start] }
      else
        some { worker with
          clients := worker.clients ++ [client]
          calls := calls1 ++ [worker_loop_call.uv_close_client] }

/-- Translation of `worker_stop`. -/
def worker_stop (worker : worker_t) : worker_t :=
  { worker with
    calls := worker.calls ++ worker.plugins.map worker_loop_call.plugin_stop ++
      [worker_loop_call.uv_stop] }

/-- Translation of `worker_sigint_handler`; `signum` only appears in a log line. -/
def worker_sigint_handler (worker : worker_t) (_signum : Nat) : worker_t :=
  if !worker.terminate then
    worker_stop { worker with terminate := true }
  else
    worker

/-- A worker with no plugin and one open connection that has a response write in flight. -/
def worker_with_write_in_flight : worker_t :=
  { use_tls := false
    terminate := false
    plugins := []
    clients := [⟨1, false, false, false, none, [worker_call.http_connection_read 24,
      worker_call.uv_write 9]⟩]
    calls := [] }

/-! ## util/binary_buffer.c -/

/-- The smallest capacity `binary_buffer_grow` asks for. -/
def BINARY_BUFFER_MIN_SIZE : Nat := 128

/-- The `binary_buffer_t` record: `buf` is `none` for a NULL pointer and otherwise the bytes
of the allocated block, `index` is the number of bytes written, `capacity` the recorded size
of the block. -/
structure binary_buffer_t where
  buf : Option (List Nat)
  index : Nat
  capacity : Nat
  deriving DecidableEq, Repr

/-- The C library's `realloc(old, size)` for `size > 0`. The allocator's answer is an input:
`none` when it fails (the result is NULL), else the indeterminate bytes it leaves in the part
of the block that extends past the old contents (padded with zero bytes when too short). -/
def realloc (old : Option (List Nat)) (size : Nat) (answer : Option (List Nat)) :
    Option (List Nat) :=
  match answer with
  | none => none
  | some fresh => some ((old.getD [] ++ fresh ++ List.replicate size 0).take size)

/-- Translation of `binary_buffer_reset`: the return value and the buffer afterwards. -/
def binary_buffer_reset (answer : Option (List Nat)) (buffer : binary_buffer_t)
    (capacity : Nat) : Bool × binary_buffer_t :=
  let buffer1 := { buffer with index := 0, capacity := capacity }
  if capacity > 0 then
    let buffer2 := { buffer1 with buf := realloc buffer1.buf capacity answer }
    if buffer2.buf.isSome then (true, buffer2) else (false, buffer2)
  else
    (true, { buffer1 with buf := none })

/-- Translation of `binary_buffer_init` for a caller-supplied record (`buffer != NULL`, as in
the test fixture): the record the call returns, `none` for a NULL result. The fields of the
record are uninitialised on entry, so they are inputs of the model. -/
def binary_buffer_init (answer : Option (List Nat)) (buffer : binary_buffer_t)
    (capacity : Nat) : Option binary_buffer_t :=
  let buffer1 := { buffer with buf := none }
  let r := binary_buffer_reset answer buffer1 capacity
  if !r.1 then none else some r.2

/-- Translation of `binary_buffer_read_index`. `none` stands for undefined behaviour: a read
through a NULL `buf` or past the end of the allocated block. -/
def binary_buffer_read_index (buffer : binary_buffer_t) (index : Nat) : Option Nat :=
  if index < buffer.capacity then
    match buffer.buf with
    | some bytes => bytes[index]?
    | none => none
  else
    some 0

/-- Translation of `binary_buffer_start`. -/
def binary_buffer_start (buffer : binary_buffer_t) : Option (List Nat) := buffer.buf

/-- Translation of `binary_buffer_size`. -/
def binary_buffer_size (buffer : binary_buffer_t) : Nat := buffer.index

/-- Translation of `binary_buffer_grow`; `roundup_to_power_of_2` (declared in util.h, which is
not among the sources) is a parameter. The return value and the buffer afterwards. -/
def binary_buffer_grow (roundup_to_power_of_2 : Nat → Nat) (answer : Option (List Nat))
    (buffer : binary_buffer_t) (value_length : Nat) : Bool × binary_buffer_t :=
  let new_size0 :=
    roundup_to_power_of_2 (((buffer.capacity + value_length) % SIZE_MOD * 2) % SIZE_MOD) % SIZE_MOD
  let new_size := if new_size0 < BINARY_BUFFER_MIN_SIZE then BINARY_BUFFER_MIN_SIZE else new_size0
  match realloc buffer.buf new_size answer with
  | none => (false, buffer)
  | some new_buf => (true, { buffer with buf := some new_buf, capacity := new_size })

/-- A store of `value` into a block at offset `index` (`buf[index] = *value`, or `memcpy`);
`none` when the store does not lie inside the block. -/
def store_bytes (bytes : List Nat) (index : Nat) (value : List Nat) : Option (List Nat) :=
  if index + value.length ≤ bytes.length then
    some (bytes.take index ++ value ++ bytes.drop (index + value.length))
  else
    none

/-- Translation of `binary_buffer_write`: the return value and the buffer afterwards. `none`
stands for undefined behaviour (a store outside the allocated block or through NULL).
`ASSERT_OR_RETURN_FALSE(e)` returns false from the function when `e` is false or NULL. -/
def binary_buffer_write (roundup_to_power_of_2 : Nat → Nat) (answer : Option (List Nat))
    (buffer : binary_buffer_t) (value : List Nat) : Option (Bool × binary_buffer_t) :=
  let index := buffer.index
  let value_length := value.length
  let grown : Bool × binary_buffer_t :=
    if (index + value_length) % SIZE_MOD > buffer.capacity then
      binary_buffer_grow roundup_to_power_of_2 answer buffer value_length
    else
      (true, buffer)
  if !grown.1 then
    some (false, grown.2)
  else
    let buffer1 := grown.2
    let new_index :=
      if buffer1.index < (buffer1.index + value_length) % SIZE_MOD then
        (buffer1.index + value_length) % SIZE_MOD
      else
        buffer1.index
    if value_length = 1 then
      match buffer1.buf with
      | none => none
      | some bytes =>
        match store_bytes bytes index value with
        | none => none
        | some bytes1 => some (true, { buffer1 with buf := some bytes1, index := new_index })
    else
      match buffer1.buf with
      | none =>
        -- `memcpy(NULL + index, value, value_length)` returns its first argument
        if index = 0 ∧ value_length = 0 then some (false, buffer1) else none
      | some bytes =>
        match store_bytes bytes index value with
        | none => none
        | some bytes1 => some (true, { buffer1 with buf := some bytes1, index := new_index })

/-- Translation of `binary_buffer_write_curr_index`. -/
def binary_buffer_write_curr_index (roundup_to_power_of_2 : Nat → Nat)
    (answer : Option (List Nat)) (buffer : binary_buffer_t) (value : Nat) :
    Option (Bool × binary_buffer_t) :=
  binary_buffer_write roundup_to_power_of_2 answer buffer [value]

/-- The block of a buffer holds exactly `capacity` bytes (and is NULL only at capacity 0), as
`binary_buffer_reset` and `binary_buffer_grow` leave it when they succeed. -/
def binary_buffer_t.allocated (buffer : binary_buffer_t) : Prop :=
  match buffer.buf with
  | none => buffer.capacity = 0
  | some bytes => bytes.length = buffer.capacity

instance (buffer : binary_buffer_t) : Decidable buffer.allocated := by
  unfold binary_buffer_t.allocated
  cases buffer.buf <;> infer_instance

/-- The bytes written so far: the `binary_buffer_size` bytes at `binary_buffer_start`. -/
def binary_buffer_t.written (buffer : binary_buffer_t) : List Nat :=
  (buffer.buf.getD []).take buffer.index

/-- What the buffer code needs of the helper `roundup_to_power_of_2`: on a request that a
power of two below `SIZE_MOD` can cover, the result is at least the request and less than
twice the request. -/
def rounds_up (roundup_to_power_of_2 : Nat → Nat) : Prop :=
  ∀ x, 1 ≤ x → x ≤ 2 ^ 63 → x ≤ roundup_to_power_of_2 x ∧ roundup_to_power_of_2 x < 2 * x

/-- Doubling search for the least power of two that is at least `v`, starting from `p`. -/
def roundup_search : Nat → Nat → Nat → Nat
  | 0, p, _ => p
  | fuel + 1, p, v => if v ≤ p then p else roundup_search fuel (2 * p) v

/-- An instance of the helper, used to run the buffer code on concrete inputs: the least
power of two that is at least `v`, reduced to `size_t`. -/
def roundup_pow2 (v : Nat) : Nat := roundup_search 64 1 v % SIZE_MOD


/-! ## http/h2/h2_frame.c (not among the sources; modelled from the specification and from
the calls and expected values of check_h2_frame.c) -/

/-- Modelled from the spec: the size of the frame header ("the 9-byte header"); the constant
is declared in the missing h2_frame.h. -/
def FRAME_HEADER_SIZE : Nat := 9

/-- Modelled from the spec: the default MAX_FRAME_SIZE (16384), declared in the missing h2.h;
check_h2_frame.c expects the length octets `00 40 00` for a payload of this size. -/
def DEFAULT_MAX_FRAME_SIZE : Nat := 0x4000

/-- Modelled from the spec: the frame type codes (RFC 7540 section 6, in the order of the
variants of section 3), declared in the missing h2_frame.h; the byte sequences of the
specification give PING = 6, SETTINGS = 4 and DATA = 0. -/
def FRAME_TYPE_DATA : Nat := 0
def FRAME_TYPE_HEADERS : Nat := 1
def FRAME_TYPE_PRIORITY : Nat := 2
def FRAME_TYPE_RST_STREAM : Nat := 3
def FRAME_TYPE_SETTINGS : Nat := 4
def FRAME_TYPE_PUSH_PROMISE : Nat := 5
def FRAME_TYPE_PING : Nat := 6
def FRAME_TYPE_GOAWAY : Nat := 7
def FRAME_TYPE_WINDOW_UPDATE : Nat := 8
def FRAME_TYPE_CONTINUATION : Nat := 9

/-- Modelled from the spec: the flag bits (RFC 7540 section 6), declared in the missing
h2_frame.h; the byte sequences of the specification give ACK = 1 and END_STREAM = 1. -/
def FLAG_END_STREAM : Nat := 0x1
def FLAG_ACK : Nat := 0x1
def FLAG_END_HEADERS : Nat := 0x4
def FLAG_PADDED : Nat := 0x8
def FLAG_PRIORITY : Nat := 0x20

/-- Modelled from the spec: the error codes (section 7, "RFC 7540 section 7 codes"), declared in
the missing h2_error.h; check_h2_frame.c expects INTERNAL_ERROR to be emitted as 2. -/
inductive h2_error_code_e where
  | H2_ERROR_NO_ERROR
  | H2_ERROR_PROTOCOL_ERROR
  | H2_ERROR_INTERNAL_ERROR
  | H2_ERROR_FLOW_CONTROL_ERROR
  | H2_ERROR_SETTINGS_TIMEOUT
  | H2_ERROR_STREAM_CLOSED
  | H2_ERROR_FRAME_SIZE_ERROR
  | H2_ERROR_REFUSED_STREAM
  | H2_ERROR_CANCEL
  | H2_ERROR_COMPRESSION_ERROR
  | H2_ERROR_CONNECT_ERROR
  | H2_ERROR_ENHANCE_YOUR_CALM
  | H2_ERROR_INADEQUATE_SECURITY
  | H2_ERROR_HTTP_1_1_REQUIRED
  deriving DecidableEq, Repr

/-- Whether the bit of `flag` is set in the flags octet. -/
def flag_set (flags flag : Nat) : Bool := decide ((flags / flag) % 2 = 1)

/-- Big-endian encodings of 16-, 24- and 32-bit fields. -/
def be16 (n : Nat) : List Nat := [n / 256 % 256, n % 256]
def be24 (n : Nat) : List Nat := [n / 65536 % 256, n / 256 % 256, n % 256]
def be32 (n : Nat) : List Nat := [n / 16777216 % 256, n / 65536 % 256, n / 256 % 256, n % 256]

/-- Big-endian readings of 16-, 24- and 32-bit fields. -/
def rd16 (a b : Nat) : Nat := a * 256 + b
def rd24 (a b c : Nat) : Nat := a * 65536 + b * 256 + c
def rd32 (a b c d : Nat) : Nat := a * 16777216 + b * 65536 + c * 256 + d

/-- Modelled from the spec: the priority fields of HEADERS and PRIORITY frames ("exclusive
flag, dependency stream id, weight"). -/
structure h2_frame_priority_t where
  exclusive : Bool
  stream_dependency : Nat
  weight : Nat
  deriving DecidableEq, Repr

/-- Modelled from the spec: the variant part of a frame record (section 3, "Frame"; the field
names are those check_h2_frame.c assigns), the declarations being in the missing h2_frame.h. -/
inductive h2_frame_body where
  | data (payload : List Nat) (padding_length : Nat)
  | headers (priority : h2_frame_priority_t) (header_block_fragment : List Nat)
      (padding_length : Nat)
  | priority (priority : h2_frame_priority_t)
  | rst_stream (error_code : Nat)
  | settings (settings : List (Nat × Nat))
  | push_promise (promised_stream_id : Nat) (header_block_fragment : List Nat)
      (padding_length : Nat)
  | ping (opaque_data : List Nat)
  | goaway (last_stream_id : Nat) (error_code : Nat) (debug_data : List Nat)
  | window_update (increment : Nat)
  | continuation (header_block_fragment : List Nat)
  deriving DecidableEq, Repr

/-- Modelled from the spec: the frame record `h2_frame_t` of the missing h2_frame.h: the
header fields common to all variants and the variant, whose tag is the frame type. -/
structure h2_frame_t where
  length : Nat
  flags : Nat
  stream_id : Nat
  body : h2_frame_body
  deriving DecidableEq, Repr

/-- The frame type octet of a variant. -/
def h2_frame_body.type : h2_frame_body → Nat
  | data _ _ => FRAME_TYPE_DATA
  | headers _ _ _ => FRAME_TYPE_HEADERS
  | priority _ => FRAME_TYPE_PRIORITY
  | rst_stream _ => FRAME_TYPE_RST_STREAM
  | settings _ => FRAME_TYPE_SETTINGS
  | push_promise _ _ _ => FRAME_TYPE_PUSH_PROMISE
  | ping _ => FRAME_TYPE_PING
  | goaway _ _ _ => FRAME_TYPE_GOAWAY
  | window_update _ => FRAME_TYPE_WINDOW_UPDATE
  | continuation _ => FRAME_TYPE_CONTINUATION

/-- The `type` field of a frame record. -/
def h2_frame_t.type (frame : h2_frame_t) : Nat := frame.body.type

/-- Modelled from the spec: the Pad Length octet of a padded frame (RFC 7540 section 6.1),
absent without the PADDED flag. -/
def pad_length_octet (flags padding_length : Nat) : List Nat :=
  if flag_set flags FLAG_PADDED then [padding_length % 256] else []

/-- Modelled from the spec: the padding octets of a padded frame, all zero. -/
def padding_octets (flags padding_length : Nat) : List Nat :=
  if flag_set flags FLAG_PADDED then List.replicate (padding_length % 256) 0 else []

/-- Modelled from the spec: the exclusive bit, the 31-bit stream dependency and the weight
octet (RFC 7540 section 6.3). -/
def priority_octets (p : h2_frame_priority_t) : List Nat :=
  be32 ((if p.exclusive then 2 ^ 31 else 0) + p.stream_dependency % 2 ^ 31) ++ [p.weight % 256]

/-- Modelled from the spec: the octets of a list of settings ("identifier 16-bit, value
32-bit"). -/
def settings_octets : List (Nat × Nat) → List Nat
  | [] => []
  | (identifier, value) :: rest => be16 identifier ++ be32 value ++ settings_octets rest

/-- Modelled from the spec: the payload octets of a frame, per variant ("Variant payload
serialisation is literal per RFC 7540", section 4.1), the encoder being in the missing
h2_frame.c. -/
def h2_frame_payload_octets (flags : Nat) : h2_frame_body → List Nat
  | h2_frame_body.data payload padding_length =>
    pad_length_octet flags padding_length ++ payload ++ padding_octets flags padding_length
  | h2_frame_body.headers prio fragment padding_length =>
    pad_length_octet flags padding_length ++
      (if flag_set flags FLAG_PRIORITY then priority_octets prio else []) ++
      fragment ++ padding_octets flags padding_length
  | h2_frame_body.priority prio => priority_octets prio
  | h2_frame_body.rst_stream error_code => be32 error_code
  | h2_frame_body.settings entries => settings_octets entries
  | h2_frame_body.push_promise promised_stream_id fragment padding_length =>
    pad_length_octet flags padding_length ++ be32 (promised_stream_id % 2 ^ 31) ++
      fragment ++ padding_octets flags padding_length
  | h2_frame_body.ping opaque_data => opaque_data
  | h2_frame_body.goaway last_stream_id error_code debug_data =>
    be32 (last_stream_id % 2 ^ 31) ++ be32 error_code ++ debug_data
  | h2_frame_body.window_update increment => be32 (increment % 2 ^ 31)
  | h2_frame_body.continuation fragment => fragment

/-- The number of payload octets of a frame record. -/
def h2_frame_t.payload_length (frame : h2_frame_t) : Nat :=
  (h2_frame_payload_octets frame.flags frame.body).length

/-- Modelled from the spec: the 9 header octets ("3-byte big-endian length, 1-byte type,
1-byte flags, 4-byte big-endian stream id with top bit cleared"), the length being computed
from the payload and the record's `length` field ignored. -/
def h2_frame_header_octets (frame : h2_frame_t) : List Nat :=
  be24 frame.payload_length ++ [frame.type] ++ [frame.flags % 256] ++
    be32 (frame.stream_id % 2 ^ 31)

/-- Modelled from the spec: the octets of a frame, header then payload. -/
def h2_frame_octets (frame : h2_frame_t) : List Nat :=
  h2_frame_header_octets frame ++ h2_frame_payload_octets frame.flags frame.body

/-- Modelled from the spec: `h2_frame_emit` of the missing h2_frame.c ("Output: appended bytes
on a growable buffer"): the octets of the frame are appended with `binary_buffer_write`. The
return value and the buffer afterwards; `none` as for `binary_buffer_write`. -/
def h2_frame_emit (roundup_to_power_of_2 : Nat → Nat) (answer : Option (List Nat))
    (bb : binary_buffer_t) (frame : h2_frame_t) : Option (Bool × binary_buffer_t) :=
  binary_buffer_write roundup_to_power_of_2 answer bb (h2_frame_octets frame)

/-- Modelled from the spec: the parser record `h2_frame_parser_t` of the missing h2_frame.h,
reduced to the setting the decoder consults (the current MAX_FRAME_SIZE); its callbacks
`parse_error` and `incoming_frame` are modelled by the record of calls that `h2_frame_parse`
returns. -/
structure h2_frame_parser_t where
  max_frame_size : Nat
  deriving DecidableEq, Repr

/-- One call of the `parse_error` callback, as check_h2_frame.c records it; `error_string` is
`none` where the specification does not give the diagnostic text. -/
structure caught_error_t where
  stream_id : Nat
  error_code : h2_error_code_e
  error_string : Option String
  deriving DecidableEq, Repr

/-- The outcome of one call of `h2_frame_parse`: the cursor afterwards and the calls made to
`incoming_frame` and to `parse_error`. -/
structure h2_frame_parse_result where
  buffer_position : Nat
  frames : List h2_frame_t
  errors : List caught_error_t
  deriving DecidableEq, Repr

/-- Modelled from the spec: removal of the Pad Length octet and the padding of a padded
payload ("Padding length >= remaining payload -> PROTOCOL_ERROR"): the content and the padding
length. -/
def strip_padding (flags : Nat) (payload : List Nat) :
    Except h2_error_code_e (List Nat × Nat) :=
  if flag_set flags FLAG_PADDED then
    match payload with
    | [] => Except.error h2_error_code_e.H2_ERROR_FRAME_SIZE_ERROR
    | pad :: rest =>
      if pad ≥ rest.length then Except.error h2_error_code_e.H2_ERROR_PROTOCOL_ERROR
      else Except.ok (rest.take (rest.length - pad), pad)
  else
    Except.ok (payload, 0)

/-- Modelled from the spec: reading of the exclusive bit, stream dependency and weight. -/
def read_priority (a b c d w : Nat) : h2_frame_priority_t :=
  { exclusive := decide (rd32 a b c d ≥ 2 ^ 31)
    stream_dependency := rd32 a b c d % 2 ^ 31
    weight := w }

/-- Modelled from the spec: reading of a list of settings; `none` when the octets are not a
multiple of six. -/
def read_settings : List Nat → Option (List (Nat × Nat))
  | [] => some []
  | a :: b :: c :: d :: e :: f :: rest =>
    match read_settings rest with
    | some settings => some ((rd16 a b, rd32 c d e f) :: settings)
    | none => none
  | _ => none

/-- Modelled from the spec: construction of the variant from a complete payload, with the
error conditions of section 4.1 and the length and stream-id constraints of RFC 7540
section 6 that the decoder asserts (section 3, "Invariants"). -/
def h2_frame_parse_payload (type flags stream_id : Nat) (payload : List Nat) :
    Except h2_error_code_e h2_frame_body :=
  if type = FRAME_TYPE_DATA then
    if stream_id = 0 then Except.error h2_error_code_e.H2_ERROR_PROTOCOL_ERROR
    else
      match strip_padding flags payload with
      | Except.error e => Except.error e
      | Except.ok (content, pad) => Except.ok (h2_frame_body.data content pad)
  else if type = FRAME_TYPE_HEADERS then
    if stream_id = 0 then Except.error h2_error_code_e.H2_ERROR_PROTOCOL_ERROR
    else
      match strip_padding flags payload with
      | Except.error e => Except.error e
      | Except.ok (content, pad) =>
        if flag_set flags FLAG_PRIORITY then
          match content with
          | a :: b :: c :: d :: w :: fragment =>
            Except.ok (h2_frame_body.headers (read_priority a b c d w) fragment pad)
          | _ => Except.error h2_error_code_e.H2_ERROR_FRAME_SIZE_ERROR
        else
          Except.ok (h2_frame_body.headers ⟨false, 0, 0⟩ content pad)
  else if type = FRAME_TYPE_PRIORITY then
    if stream_id = 0 then Except.error h2_error_code_e.H2_ERROR_PROTOCOL_ERROR
    else
      match payload with
      | [a, b, c, d, w] => Except.ok (h2_frame_body.priority (read_priority a b c d w))
      | _ => Except.error h2_error_code_e.H2_ERROR_FRAME_SIZE_ERROR
  else if type = FRAME_TYPE_RST_STREAM then
    if stream_id = 0 then Except.error h2_error_code_e.H2_ERROR_PROTOCOL_ERROR
    else
      match payload with
      | [a, b, c, d] => Except.ok (h2_frame_body.rst_stream (rd32 a b c d))
      | _ => Except.error h2_error_code_e.H2_ERROR_FRAME_SIZE_ERROR
  else if type = FRAME_TYPE_SETTINGS then
    if flag_set flags FLAG_ACK ∧ payload ≠ [] then
      Except.error h2_error_code_e.H2_ERROR_FRAME_SIZE_ERROR
    else if stream_id ≠ 0 then Except.error h2_error_code_e.H2_ERROR_PROTOCOL_ERROR
    else
      match read_settings payload with
      | some settings => Except.ok (h2_frame_body.settings settings)
      | none => Except.error h2_error_code_e.H2_ERROR_FRAME_SIZE_ERROR
  else if type = FRAME_TYPE_PUSH_PROMISE then
    if stream_id = 0 then Except.error h2_error_code_e.H2_ERROR_PROTOCOL_ERROR
    else
      match strip_padding flags payload with
      | Except.error e => Except.error e
      | Except.ok (content, pad) =>
        match content with
        | a :: b :: c :: d :: fragment =>
          Except.ok (h2_frame_body.push_promise (rd32 a b c d % 2 ^ 31) fragment pad)
        | _ => Except.error h2_error_code_e.H2_ERROR_FRAME_SIZE_ERROR
  else if type = FRAME_TYPE_PING then
    if payload.length ≠ 8 then Except.error h2_error_code_e.H2_ERROR_FRAME_SIZE_ERROR
    else if stream_id ≠ 0 then Except.error h2_error_code_e.H2_ERROR_PROTOCOL_ERROR
    else Except.ok (h2_frame_body.ping payload)
  else if type = FRAME_TYPE_GOAWAY then
    if stream_id ≠ 0 then Except.error h2_error_code_e.H2_ERROR_PROTOCOL_ERROR
    else
      match payload with
      | a :: b :: c :: d :: e :: f :: g :: h :: debug_data =>
        Except.ok (h2_frame_body.goaway (rd32 a b c d % 2 ^ 31) (rd32 e f g h) debug_data)
      | _ => Except.error h2_error_code_e.H2_ERROR_FRAME_SIZE_ERROR
  else if type = FRAME_TYPE_WINDOW_UPDATE then
    match payload with
    | [a, b, c, d] =>
      if rd32 a b c d % 2 ^ 31 = 0 then Except.error h2_error_code_e.H2_ERROR_PROTOCOL_ERROR
      else Except.ok (h2_frame_body.window_update (rd32 a b c d % 2 ^ 31))
    | _ => Except.error h2_error_code_e.H2_ERROR_FRAME_SIZE_ERROR
  else
    if stream_id = 0 then Except.error h2_error_code_e.H2_ERROR_PROTOCOL_ERROR
    else Except.ok (h2_frame_body.continuation payload)

/-- The text `printf` produces for `%x`: lower-case hexadecimal digits without padding. -/
def hex_string (n : Nat) : String := String.mk (Nat.toDigits 16 n)

/-- Modelled from the spec: `h2_frame_parse` of the missing h2_frame.c, on the octets `buffer`
(whose length is `buffer_length`) and the cursor `buffer_position` (section 4.1, "Decode"):
fewer than 9 octets, or fewer than `length` payload octets, are no progress; an undefined type
is reported as check_h2_frame.c expects (PROTOCOL_ERROR, "Invalid frame type: 0x..", cursor
kept); a length above the maximum frame size is a FRAME_SIZE_ERROR; otherwise the variant is
constructed, the cursor moves past the frame and the frame goes to `incoming_frame`. -/
def h2_frame_parse (parser : h2_frame_parser_t) (buffer : List Nat) (buffer_position : Nat) :
    h2_frame_parse_result :=
  match buffer.drop buffer_position with
  | l0 :: l1 :: l2 :: type :: flags :: s0 :: s1 :: s2 :: s3 :: rest =>
    let length := rd24 l0 l1 l2
    let stream_id := rd32 s0 s1 s2 s3 % 2 ^ 31
    if rest.length < length then
      ⟨buffer_position, [], []⟩
    else if type > FRAME_TYPE_CONTINUATION then
      ⟨buffer_position, [],
        [⟨0, h2_error_code_e.H2_ERROR_PROTOCOL_ERROR,
          some ("Invalid frame type: 0x" ++ hex_string type)⟩]⟩
    else if length > parser.max_frame_size then
      ⟨buffer_position, [], [⟨stream_id, h2_error_code_e.H2_ERROR_FRAME_SIZE_ERROR, none⟩]⟩
    else
      match h2_frame_parse_payload type flags stream_id (rest.take length) with
      | Except.error e => ⟨buffer_position, [], [⟨stream_id, e, none⟩]⟩
      | Except.ok body =>
        ⟨buffer_position + FRAME_HEADER_SIZE + length, [⟨length, flags, stream_id, body⟩], []⟩
  | _ => ⟨buffer_position, [], []⟩

/-- The padding of a record agrees with its PADDED flag and can be decoded: with the flag the
padding length fits one octet and the content before the padding is not empty, without it the
padding length is zero. -/
def padding_valid (flags padding_length content_length : Nat) : Prop :=
  if flag_set flags FLAG_PADDED then padding_length < 256 ∧ 0 < content_length
  else padding_length = 0

instance (flags padding_length content_length : Nat) :
    Decidable (padding_valid flags padding_length content_length) := by
  unfold padding_valid; infer_instance

/-- The priority fields fit their wire fields. -/
def h2_frame_priority_t.valid (p : h2_frame_priority_t) : Prop :=
  p.stream_dependency < 2 ^ 31 ∧ p.weight < 256

instance (p : h2_frame_priority_t) : Decidable p.valid := by
  unfold h2_frame_priority_t.valid; infer_instance

/-- The constraints on a variant under which the decoder accepts its encoding and reads back
the same fields: the stream-id and length rules of the decoder, and field values that fit
their wire fields. -/
def h2_frame_body.valid (flags stream_id : Nat) : h2_frame_body → Prop
  | h2_frame_body.data payload padding_length =>
    stream_id ≠ 0 ∧ padding_valid flags padding_length payload.length
  | h2_frame_body.headers prio fragment padding_length =>
    stream_id ≠ 0 ∧
    (if flag_set flags FLAG_PRIORITY then prio.valid else prio = ⟨false, 0, 0⟩) ∧
    padding_valid flags padding_length
      ((if flag_set flags FLAG_PRIORITY then 5 else 0) + fragment.length)
  | h2_frame_body.priority prio => stream_id ≠ 0 ∧ prio.valid
  | h2_frame_body.rst_stream error_code => stream_id ≠ 0 ∧ error_code < 2 ^ 32
  | h2_frame_body.settings entries =>
    stream_id = 0 ∧ (flag_set flags FLAG_ACK = true → entries = []) ∧
    ∀ s ∈ entries, s.1 < 2 ^ 16 ∧ s.2 < 2 ^ 32
  | h2_frame_body.push_promise promised_stream_id fragment padding_length =>
    stream_id ≠ 0 ∧ promised_stream_id < 2 ^ 31 ∧
    padding_valid flags padding_length (4 + fragment.length)
  | h2_frame_body.ping opaque_data => stream_id = 0 ∧ opaque_data.length = 8
  | h2_frame_body.goaway last_stream_id error_code _ =>
    stream_id = 0 ∧ last_stream_id < 2 ^ 31 ∧ error_code < 2 ^ 32
  | h2_frame_body.window_update increment => increment < 2 ^ 31 ∧ increment ≠ 0
  | h2_frame_body.continuation _ => stream_id ≠ 0

instance (flags stream_id : Nat) (body : h2_frame_body) :
    Decidable (body.valid flags stream_id) := by
  cases body <;> unfold h2_frame_body.valid <;> infer_instance

/-- A frame record the decoder of `parser` accepts back: flags and stream id fit their wire
fields, the payload fits the 24-bit length field and the maximum frame size, and the variant
is valid. -/
def h2_frame_t.valid (parser : h2_frame_parser_t) (frame : h2_frame_t) : Prop :=
  frame.flags < 256 ∧ frame.stream_id < 2 ^ 31 ∧ frame.payload_length < 2 ^ 24 ∧
  frame.payload_length ≤ parser.max_frame_size ∧ frame.body.valid frame.flags frame.stream_id

instance (parser : h2_frame_parser_t) (frame : h2_frame_t) : Decidable (frame.valid parser) := by
  unfold h2_frame_t.valid; infer_instance

/-- The buffer is well formed (its block holds `capacity` bytes, of which `index` are written)
and `n` more bytes are far from overflowing `size_t` in `binary_buffer_grow`. -/
def binary_buffer_t.has_room (b : binary_buffer_t) (n : Nat) : Prop :=
  b.allocated ∧ b.index ≤ b.capacity ∧ b.capacity + n ≤ 2 ^ 56

instance (b : binary_buffer_t) (n : Nat) : Decidable (b.has_room n) := by
  unfold binary_buffer_t.has_room; infer_instance

/-! ## Example data -/

/-- An environment in which every spawn, address conversion and listen succeeds. -/
def env_all_ok : server_run_env :=
  { worker_path := "/usr/local/bin/galactic"
    stale := { stopped := false }
    uv_spawn := fun _ => 0
    uv_ip4_addr := fun _ => 0
    uv_listen := fun _ => 0 }

/-- A configuration with two workers and two listen addresses. -/
def config_two_by_two : server_config_t :=
  { num_workers := 2
    argv := ["galactic", "-p", "8443"]
    address_list := [⟨"0.0.0.0", 8443, true, 0⟩, ⟨"0.0.0.0", 8080, false, 0⟩] }

/-- A configuration whose `num_workers` is `2^32`, with one listen address. -/
def config_workers_2_32 : server_config_t :=
  { num_workers := 2 ^ 32
    argv := ["galactic"]
    address_list := [⟨"0.0.0.0", 8080, false, 0⟩] }

/-- A configuration whose `num_workers` is `2^31`, with one listen address. -/
def config_workers_2_31 : server_config_t :=
  { num_workers := 2 ^ 31
    argv := ["galactic"]
    address_list := [⟨"0.0.0.0", 8080, false, 0⟩] }

/-- An environment in which every spawn fails and every other call succeeds. -/
def env_every_spawn_fails : server_run_env :=
  { worker_path := "/usr/local/bin/galactic"
    stale := { stopped := false }
    uv_spawn := fun _ => -12
    uv_ip4_addr := fun _ => 0
    uv_listen := fun _ => 0 }

/-- An environment in which the spawn of worker 0 fails and every other call succeeds. -/
def env_spawn_0_fails : server_run_env :=
  { worker_path := "/usr/local/bin/galactic"
    stale := { stopped := false }
    uv_spawn := fun j => if j = 0 then -12 else 0
    uv_ip4_addr := fun _ => 0
    uv_listen := fun _ => 0 }

/-! ## Proofs: server.c and worker.c -/

theorem size_mod_eq : SIZE_MOD = 2 ^ 64 := rfl


theorem count_stop_kill_workers_calls (n i : Nat) (ws : List worker_process_t) :
    (kill_workers_calls n i ws).count uv_call.uv_stop = 0 := by
  induction n generalizing i ws with
  | zero => simp [kill_workers_calls]
  | succ n ih =>
    cases ws with
    | nil => simp [kill_workers_calls]
    | cons w ws =>
      simp only [kill_workers_calls, List.count_append, ih, Nat.add_zero]
      split <;> simp

theorem count_stop_close_listeners (l : List Nat) :
    (l.map (fun i => uv_call.uv_close (uv_handle.tcp_listener i))).count uv_call.uv_stop = 0 := by
  induction l with
  | nil => simp
  | cons a l ih => simp [List.count_cons, ih]

theorem count_stop_server_stop_actions (s : server_t) :
    (server_stop_actions s).calls.count uv_call.uv_stop = s.calls.count uv_call.uv_stop := by
  simp only [server_stop_actions, List.count_append, count_stop_close_listeners]
  split <;> simp [count_stop_kill_workers_calls]

theorem server_stop_of_stopping (s : server_t) (h : s.stopping = true) : server_stop s = s := by
  rw [server_stop]; simp [h]

/-- C10: `server_stop_continue` makes exactly one `uv_stop` call when `active_workers`,
`active_listeners` and `active_handlers` are all zero, and makes none in every other state. -/
theorem C10_stop_continue_stops_iff_all_closed (s : server_t) :
    ((server_stop_continue s).calls.count uv_call.uv_stop = s.calls.count uv_call.uv_stop + 1
        ↔ all_closed s) ∧
    (¬ all_closed s →
      (server_stop_continue s).calls.count uv_call.uv_stop = s.calls.count uv_call.uv_stop) := by
  have key : ¬ all_closed s →
      (server_stop_continue s).calls.count uv_call.uv_stop = s.calls.count uv_call.uv_stop := by
    intro hn
    have hn' : ¬ (s.active_workers < 1 ∧ s.active_listeners < 1 ∧ s.active_handlers < 1) := by
      simpa [all_closed, Nat.lt_one_iff] using hn
    rw [server_stop_continue, if_neg hn']
    split
    · next hw =>
      rw [server_stop]
      split
      · have hn2 : ¬ ((server_stop_actions s).active_workers < 1 ∧
            (server_stop_actions s).active_listeners < 1 ∧
            (server_stop_actions s).active_handlers < 1) := hn'
        have hw2 : (server_stop_actions s).active_workers < 1 := hw
        rw [server_stop_continue, if_neg hn2, if_pos hw2,
          server_stop_of_stopping _ (by simp [server_stop_actions])]
        exact count_stop_server_stop_actions s
      · rfl
    · rfl
  refine ⟨⟨fun h => ?_, fun h => ?_⟩, key⟩
  · by_contra hn
    have := key hn
    omega
  · have h' : s.active_workers < 1 ∧ s.active_listeners < 1 ∧ s.active_handlers < 1 := by
      simpa [all_closed, Nat.lt_one_iff] using h
    rw [server_stop_continue, if_pos h']
    simp

/-- A run of six calls on three workers: the four accepted connections go to workers 0, 1, 2
and 0. -/
theorem server_connections_run : (server_connections
        { server_init ⟨3, ["galactic"], []⟩ with workers := [⟨false⟩, ⟨false⟩, ⟨false⟩] }
        [⟨0, 0, 0⟩, ⟨0, -1, 0⟩, ⟨1, 0, 0⟩, ⟨0, 0, -11⟩, ⟨0, 0, 0⟩, ⟨0, 0, 0⟩]).map
        (fun s => dispatched_workers s.calls) = some [0, 1, 2, 0] := by decide

theorem write_steps_append (client : client_t) (xs ys : List write_event) :
    write_steps client (xs ++ ys) = write_steps (write_steps client xs) ys := by
  simp [write_steps, List.foldl_append]

theorem app_write_finished_pending (client : client_t) (status : Int) :
    (app_write_finished client status).pending_writes = size_decr client.pending_writes := by
  unfold app_write_finished
  dsimp only
  split <;> rfl

theorem size_incr_eq (x : Nat) (h : x + 1 < SIZE_MOD) : size_incr x = x + 1 :=
  Nat.mod_eq_of_lt h

theorem size_decr_eq (x : Nat) (h : 0 < x) : size_decr x = x - 1 := by
  unfold size_decr
  rw [if_neg (by omega)]

/-- The counter after a run in which completions never outnumber starts and the writes in
flight stay representable. -/
theorem write_steps_pending (client : client_t) (h0 : client.pending_writes = 0)
    (evs : List write_event) :
    (∀ pre, pre <+: evs → write_completions pre ≤ write_starts pre ∧
        write_starts pre - write_completions pre < SIZE_MOD) →
    (write_steps client evs).pending_writes = write_starts evs - write_completions evs := by
  induction evs using List.reverseRecOn with
  | nil => intro _; simpa [write_steps, write_starts, write_completions] using h0
  | append_singleton l e ih =>
    intro h
    have ihl := ih (fun pre hpre => h pre (hpre.trans (List.prefix_append l [e])))
    have hl := h l (List.prefix_append l [e])
    have hle := h (l ++ [e]) (List.prefix_refl _)
    rw [write_steps_append]
    cases e with
    | start buffer =>
      have e1 : write_starts (l ++ [write_event.start buffer]) = write_starts l + 1 := by
        simp [write_starts, List.countP_append, write_event.starts]
      have e2 : write_completions (l ++ [write_event.start buffer]) = write_completions l := by
        simp [write_completions, List.countP_append, write_event.completes]
      rw [e1, e2] at hle ⊢
      have e3 : (write_steps (write_steps client l) [write_event.start buffer]).pending_writes
          = size_incr (write_steps client l).pending_writes := rfl
      rw [e3, ihl, size_incr_eq _ (by omega)]
      omega
    | finished status =>
      have e1 : write_starts (l ++ [write_event.finished status]) = write_starts l := by
        simp [write_starts, List.countP_append, write_event.starts]
      have e2 : write_completions (l ++ [write_event.finished status])
          = write_completions l + 1 := by
        simp [write_completions, List.countP_append, write_event.completes]
      rw [e1, e2] at hle ⊢
      have e3 : (write_steps (write_steps client l) [write_event.finished status]).pending_writes
          = size_decr (write_steps client l).pending_writes :=
        app_write_finished_pending _ status
      rw [e3, ihl, size_decr_eq _ (by omega)]
      omega

/-- C9: for a client whose `pending_writes` starts at zero, along every sequence of write
starts (`worker_write_to_network`) and completions (`app_write_finished`) in which completions
never outnumber starts (and the writes in flight fit `size_t`), `pending_writes` equals starts
minus completions after every prefix, and a completion calls `http_finished_writes` exactly
when it leaves `pending_writes` at zero (a start never calls it). -/
theorem C9_finished_writes_edge (client : client_t) (evs : List write_event)
    (h0 : client.pending_writes = 0)
    (hbal : ∀ pre, pre <+: evs → write_completions pre ≤ write_starts pre)
    (hfit : ∀ pre, pre <+: evs → write_starts pre - write_completions pre < SIZE_MOD) :
    (∀ pre, pre <+: evs →
      (write_steps client pre).pending_writes = write_starts pre - write_completions pre) ∧
    (∀ pre status, pre ++ [write_event.finished status] <+: evs →
      ((write_steps client (pre ++ [write_event.finished status])).calls =
          (write_steps client pre).calls ++ [worker_call.http_finished_writes]
        ↔ (write_steps client (pre ++ [write_event.finished status])).pending_writes = 0) ∧
      ((write_steps client (pre ++ [write_event.finished status])).pending_writes ≠ 0 →
        (write_steps client (pre ++ [write_event.finished status])).calls =
          (write_steps client pre).calls)) ∧
    (∀ pre buffer, pre ++ [write_event.start buffer] <+: evs →
      (write_steps client (pre ++ [write_event.start buffer])).calls =
        (write_steps client pre).calls ++ [worker_call.uv_write buffer.length]) := by
  refine ⟨fun pre hpre => ?_, fun pre status _ => ?_, fun pre buffer _ => ?_⟩
  · exact write_steps_pending client h0 pre
      (fun q hq => ⟨hbal q (hq.trans hpre), hfit q (hq.trans hpre)⟩)
  · rw [write_steps_append]
    generalize write_steps client pre = c
    simp only [write_steps, List.foldl_cons, List.foldl_nil, write_step, app_write_finished]
    by_cases hz : size_decr c.pending_writes = 0
    · simp [hz]
    · simp [hz]
  · rw [write_steps_append]
    simp [write_steps, write_step, worker_write_to_network]


/-- The balance hypotheses of C9 for a concrete run: two starts, two completions, a third
start and its completion. -/
theorem write_run_balanced : ∀ pre, pre <+: [write_event.start [1, 2], write_event.start [3],
      write_event.finished 0, write_event.finished 0, write_event.start [],
      write_event.finished (-32)] →
    write_completions pre ≤ write_starts pre ∧
      write_starts pre - write_completions pre < SIZE_MOD := by
  intro pre hpre
  have hl := hpre.length_le
  have h1 : write_starts pre ≤ pre.length := List.countP_le_length _
  have hS := size_mod_eq
  simp only [List.length_cons, List.length_nil] at hl
  refine ⟨?_, by omega⟩
  obtain ⟨t, ht⟩ := hpre
  rcases pre with _ | ⟨a, _ | ⟨b, _ | ⟨c, _ | ⟨d, _ | ⟨e, _ | ⟨f, _ | ⟨g, r⟩⟩⟩⟩⟩⟩⟩ <;>
    simp_all [write_starts, write_completions, List.countP_cons, write_event.starts,
      write_event.completes]

/-- C9 on a client that starts two writes, completes both, then starts and completes a third:
the counter is balanced at the end, the first completion (one write still pending) does not
call `http_finished_writes`, and the second one does. -/
theorem C9_finished_writes_edge_witness :
    (write_steps ⟨0, false, false, false, none, []⟩ [write_event.start [1, 2], write_event.start [3],
        write_event.finished 0, write_event.finished 0, write_event.start [],
        write_event.finished (-32)]).pending_writes = 3 - 3 ∧
    (write_steps ⟨0, false, false, false, none, []⟩ [write_event.start [1, 2], write_event.start [3],
        write_event.finished 0]).calls =
      (write_steps ⟨0, false, false, false, none, []⟩
        [write_event.start [1, 2], write_event.start [3]]).calls ∧
    (write_steps ⟨0, false, false, false, none, []⟩ [write_event.start [1, 2], write_event.start [3],
        write_event.finished 0, write_event.finished 0]).calls =
      (write_steps ⟨0, false, false, false, none, []⟩ [write_event.start [1, 2], write_event.start [3],
        write_event.finished 0]).calls ++ [worker_call.http_finished_writes] := by
  obtain ⟨h1, h2, _⟩ := C9_finished_writes_edge ⟨0, false, false, false, none, []⟩
    [write_event.start [1, 2], write_event.start [3], write_event.finished 0,
      write_event.finished 0, write_event.start [], write_event.finished (-32)] rfl
    (fun pre hpre => (write_run_balanced pre hpre).1)
    (fun pre hpre => (write_run_balanced pre hpre).2)
  refine ⟨h1 _ (List.prefix_refl _), ?_, ?_⟩
  · exact (h2 [write_event.start [1, 2], write_event.start [3]] 0
      ⟨[write_event.finished 0, write_event.start [], write_event.finished (-32)], rfl⟩).2
      (by decide)
  · exact (h2 [write_event.start [1, 2], write_event.start [3], write_event.finished 0] 0
      ⟨[write_event.start [], write_event.finished (-32)], rfl⟩).1.2 (by decide)

/-! ## Proofs: binary_buffer -/

theorem realloc_some (old : Option (List Nat)) (size : Nat) (fresh : List Nat) :
    ∃ nb, realloc old size (some fresh) = some nb ∧ nb.length = size ∧
      ∀ k, k ≤ (old.getD []).length → k ≤ size → nb.take k = (old.getD []).take k := by
  refine ⟨_, rfl, ?_, ?_⟩
  · simp only [List.length_take, List.length_append, List.length_replicate]
    omega
  · intro k hk hks
    rw [List.take_take, Nat.min_eq_left hks, List.append_assoc,
      List.take_append_of_le_length hk]

/-- A successful allocation in `binary_buffer_grow`, on a request that does not overflow. -/
theorem binary_buffer_grow_ok (roundup : Nat → Nat) (hr : rounds_up roundup)
    (fresh : List Nat) (b : binary_buffer_t) (n : Nat) (hn : 1 ≤ n)
    (hfit : (b.capacity + n) * 2 ≤ 2 ^ 63) :
    ∃ nb size, binary_buffer_grow roundup (some fresh) b n
        = (true, { b with buf := some nb, capacity := size }) ∧
      nb.length = size ∧ 2 * (b.capacity + n) ≤ size ∧
      size ≤ max 128 (4 * (b.capacity + n)) ∧
      ∀ k, k ≤ (b.buf.getD []).length → k ≤ size → nb.take k = (b.buf.getD []).take k := by
  have hM := size_mod_eq
  have e1 : ((b.capacity + n) % SIZE_MOD * 2) % SIZE_MOD = (b.capacity + n) * 2 := by
    have a1 : (b.capacity + n) % SIZE_MOD = b.capacity + n := Nat.mod_eq_of_lt (by omega)
    rw [a1]
    exact Nat.mod_eq_of_lt (by omega)
  obtain ⟨hr1, hr2⟩ := hr ((b.capacity + n) * 2) (by omega) hfit
  have e2 : roundup ((b.capacity + n) * 2) % SIZE_MOD = roundup ((b.capacity + n) * 2) :=
    Nat.mod_eq_of_lt (by omega)
  obtain ⟨nb, hnb, hlen, htake⟩ := realloc_some b.buf
    (if roundup ((b.capacity + n) * 2) < BINARY_BUFFER_MIN_SIZE then BINARY_BUFFER_MIN_SIZE
      else roundup ((b.capacity + n) * 2)) fresh
  refine ⟨nb, _, ?_, hlen, ?_, ?_, htake⟩
  · simp only [binary_buffer_grow, e1, e2, hnb]
  · unfold BINARY_BUFFER_MIN_SIZE; split <;> omega
  · unfold BINARY_BUFFER_MIN_SIZE; split <;> omega

theorem store_bytes_ok (bytes : List Nat) (index : Nat) (value : List Nat)
    (h : index + value.length ≤ bytes.length) :
    ∃ bytes1, store_bytes bytes index value = some bytes1 ∧ bytes1.length = bytes.length ∧
      bytes1.take (index + value.length) = bytes.take index ++ value := by
  refine ⟨_, if_pos h, ?_, ?_⟩
  · simp only [List.length_append, List.length_take, List.length_drop]
    omega
  · have hl : (List.take index bytes ++ value).length = index + value.length := by
      simp only [List.length_append, List.length_take]; omega
    rw [List.take_append_of_le_length (by omega), List.take_of_length_le (by omega)]

/-- The effect of `binary_buffer_write` when the allocator succeeds and the growth request
does not overflow. -/
theorem binary_buffer_write_ok (roundup : Nat → Nat) (hr : rounds_up roundup)
    (fresh : List Nat) (b : binary_buffer_t) (v : List Nat)
    (hal : b.allocated) (hs : b.index ≤ b.capacity) (hsum : b.index + v.length < SIZE_MOD)
    (hfit : b.capacity < b.index + v.length → (b.capacity + v.length) * 2 ≤ 2 ^ 63)
    (hne : 1 ≤ v.length ∨ b.buf ≠ none) :
    ∃ b', binary_buffer_write roundup (some fresh) b v = some (true, b') ∧
      b'.allocated ∧ b'.buf ≠ none ∧ b'.index = b.index + v.length ∧
      b'.index ≤ b'.capacity ∧ b'.written = b.written ++ v ∧
      b.capacity ≤ b'.capacity ∧ b'.capacity ≤ max (max 128 b.capacity) (4 * (b.capacity + v.length)) := by
  have hM := size_mod_eq
  have e1 : (b.index + v.length) % SIZE_MOD = b.index + v.length :=
    Nat.mod_eq_of_lt hsum
  have hidx : (if b.index < b.index + v.length then b.index + v.length else b.index)
      = b.index + v.length := by split <;> omega
  by_cases hg : b.index + v.length > b.capacity
  · -- the value does not fit: grow first
    obtain ⟨nb, size, hgrow, hlen, hsz1, hsz2, htake⟩ :=
      binary_buffer_grow_ok roundup hr fresh b v.length (by omega) (hfit hg)
    have hfit' := hfit hg
    obtain ⟨bytes1, hst, hl1, ht1⟩ := store_bytes_ok nb b.index v (by omega)
    have hcap : (b.buf.getD []).length = b.capacity ∨ (b.buf.getD []).length = 0 ∧ b.index = 0 := by
      unfold binary_buffer_t.allocated at hal
      cases hb : b.buf with
      | none => rw [hb] at hal; right; simp; omega
      | some l => rw [hb] at hal; left; simpa using hal
    refine ⟨{ b with buf := some bytes1, capacity := size, index := b.index + v.length },
      ?_, ?_, ?_, rfl, ?_, ?_, ?_, ?_⟩
    · simp only [binary_buffer_write, e1, hg, if_true, hgrow, Bool.not_true, hidx]
      by_cases h1 : v.length = 1
      · simp [h1, hst]
      · simp [h1, hst]
    · simp only [binary_buffer_t.allocated]; omega
    · simp
    · simp only; omega
    · simp only [binary_buffer_t.written, Option.getD_some, ht1]
      congr 1
      rw [htake b.index (by omega) (by omega)]
    · simp only; omega
    · simp only; omega
  · -- the value fits
    have hb : ∃ l, b.buf = some l ∧ l.length = b.capacity := by
      unfold binary_buffer_t.allocated at hal
      cases hb : b.buf with
      | none =>
        rw [hb] at hal
        rcases hne with h | h
        · omega
        · exact absurd hb h
      | some l => rw [hb] at hal; exact ⟨l, rfl, hal⟩
    obtain ⟨l, hbl, hll⟩ := hb
    obtain ⟨bytes1, hst, hl1, ht1⟩ := store_bytes_ok l b.index v (by omega)
    refine ⟨{ b with buf := some bytes1, index := b.index + v.length },
      ?_, ?_, ?_, rfl, ?_, ?_, ?_, ?_⟩
    · simp only [binary_buffer_write, e1, hg, if_false, Bool.not_true, hidx, hbl]
      by_cases h1 : v.length = 1
      · simp [h1, hst]
      · simp [h1, hst]
    · simp only [binary_buffer_t.allocated]; omega
    · simp
    · simp only; omega
    · simp only [binary_buffer_t.written, Option.getD_some, ht1, hbl]
    · simp only; omega
    · simp only; omega

/-- Below `binary_buffer_size`, `binary_buffer_read_index` returns the written byte. -/
theorem binary_buffer_read_index_written (b : binary_buffer_t) (hal : b.allocated)
    (hs : b.index ≤ b.capacity) (i : Nat) (hi : i < b.index) :
    binary_buffer_read_index b i = b.written[i]? := by
  unfold binary_buffer_t.allocated at hal
  unfold binary_buffer_read_index binary_buffer_t.written
  rw [if_pos (by omega)]
  cases hb : b.buf with
  | none => rw [hb] at hal; omega
  | some l =>
    simp only [Option.getD_some]
    rw [List.getElem?_take_of_lt hi]

theorem roundup_search_spec (fuel : Nat) :
    ∀ p v, 1 ≤ v → p < 2 * v → v ≤ p * 2 ^ fuel →
      v ≤ roundup_search fuel p v ∧ roundup_search fuel p v < 2 * v := by
  induction fuel with
  | zero => intro p v _ h2 h3; simp only [roundup_search]; omega
  | succ fuel ih =>
    intro p v h1 h2 h3
    simp only [roundup_search]
    split
    · omega
    · exact ih (2 * p) v h1 (by omega) (by rw [Nat.pow_succ] at h3; nlinarith)

/-- The instance `roundup_pow2` meets the contract `rounds_up`. -/
theorem rounds_up_roundup_pow2 : rounds_up roundup_pow2 := by
  intro x h1 h2
  have h := roundup_search_spec 64 1 x h1 (by omega) (by omega)
  have hM := size_mod_eq
  unfold roundup_pow2
  rw [Nat.mod_eq_of_lt (by omega)]
  exact h

/-- C2 (amended): for a buffer whose block holds `capacity` bytes, with size `s <= capacity`,
and bytes `v` of length `n`, when the allocator succeeds, `s + n` does not overflow, the growth
request `(capacity + n) * 2` is at most `2^63` whenever the write has to grow, and `n >= 1` or
the block is not NULL: `binary_buffer_write` returns true, `binary_buffer_size` becomes `s + n`,
`binary_buffer_read_index (s + i)` is `v[i]` for `i < n`, and `binary_buffer_read_index j` is
unchanged for `j < s`. -/
theorem C2_buffer_append (roundup : Nat → Nat) (hr : rounds_up roundup)
    (fresh : List Nat) (b : binary_buffer_t) (v : List Nat)
    (hal : b.allocated) (hs : binary_buffer_size b ≤ b.capacity)
    (hsum : binary_buffer_size b + v.length < SIZE_MOD)
    (hfit : b.capacity < binary_buffer_size b + v.length → (b.capacity + v.length) * 2 ≤ 2 ^ 63)
    (hne : 1 ≤ v.length ∨ b.buf ≠ none) :
    ∃ b', binary_buffer_write roundup (some fresh) b v = some (true, b') ∧
      binary_buffer_size b' = binary_buffer_size b + v.length ∧
      (∀ i (h : i < v.length),
        binary_buffer_read_index b' (binary_buffer_size b + i) = some (v.get ⟨i, h⟩)) ∧
      (∀ j, j < binary_buffer_size b →
        binary_buffer_read_index b' j = binary_buffer_read_index b j) := by
  unfold binary_buffer_size at *
  obtain ⟨b', hw, hal', _, hidx, hle, hwr, _, _⟩ :=
    binary_buffer_write_ok roundup hr fresh b v hal hs hsum hfit hne
  refine ⟨b', hw, hidx, ?_, ?_⟩
  · intro i h
    rw [binary_buffer_read_index_written b' hal' hle _ (by omega), hwr]
    have hlen : b.written.length = b.index := by
      unfold binary_buffer_t.written binary_buffer_t.allocated at *
      cases hb : b.buf with
      | none => rw [hb] at hal; simp; omega
      | some l => rw [hb] at hal; simp; omega
    rw [List.getElem?_append_right (by omega), hlen, Nat.add_sub_cancel_left,
      List.getElem?_eq_getElem h]
    rfl
  · intro j hj
    rw [binary_buffer_read_index_written b' hal' hle _ (by omega), hwr,
      binary_buffer_read_index_written b hal hs _ hj]
    have hlen : b.written.length = b.index := by
      unfold binary_buffer_t.written binary_buffer_t.allocated at *
      cases hb : b.buf with
      | none => rw [hb] at hal; simp; omega
      | some l => rw [hb] at hal; simp; omega
    rw [List.getElem?_append_left (by omega)]

/-- C2 (amended) on a 3-byte buffer of capacity 4 that has to grow for a 2-byte write. -/
theorem C2_buffer_append_witness :
    ∃ b', binary_buffer_write roundup_pow2 (some [9, 9]) ⟨some [1, 2, 3, 0], 3, 4⟩ [7, 8]
        = some (true, b') ∧
      binary_buffer_size b' = binary_buffer_size ⟨some [1, 2, 3, 0], 3, 4⟩ + [7, 8].length ∧
      (∀ i (h : i < [7, 8].length),
        binary_buffer_read_index b' (binary_buffer_size ⟨some [1, 2, 3, 0], 3, 4⟩ + i)
          = some ([7, 8].get ⟨i, h⟩)) ∧
      (∀ j, j < binary_buffer_size ⟨some [1, 2, 3, 0], 3, 4⟩ →
        binary_buffer_read_index b' j = binary_buffer_read_index ⟨some [1, 2, 3, 0], 3, 4⟩ j) :=
  C2_buffer_append roundup_pow2 rounds_up_roundup_pow2 [9, 9] ⟨some [1, 2, 3, 0], 3, 4⟩ [7, 8]
    (by decide) (by decide) (by decide) (by decide) (by decide)

/-- A one-byte write to a full buffer of `2^63 - 1` bytes: the growth request wraps to 0, the
block is reallocated at 128 bytes and the store falls outside it. -/
theorem binary_buffer_write_wraps (l : List Nat) (hl : l.length = 2 ^ 63 - 1) :
    binary_buffer_write roundup_pow2 (some []) ⟨some l, 2 ^ 63 - 1, 2 ^ 63 - 1⟩ [7] = none := by
  have hgrow : binary_buffer_grow roundup_pow2 (some []) ⟨some l, 2 ^ 63 - 1, 2 ^ 63 - 1⟩ 1
      = (true, ⟨some ((l ++ [] ++ List.replicate 128 0).take 128), 2 ^ 63 - 1, 128⟩) := by
    have n0 : roundup_pow2 (((2 ^ 63 - 1 + 1) % SIZE_MOD * 2) % SIZE_MOD) % SIZE_MOD = 1 := by
      decide
    have n1 : (if 1 < BINARY_BUFFER_MIN_SIZE then BINARY_BUFFER_MIN_SIZE else 1) = 128 := by
      decide
    unfold binary_buffer_grow
    simp only [n0, n1, realloc, Option.getD_some]
  have hcond : (2 ^ 63 - 1 + 1) % SIZE_MOD > 2 ^ 63 - 1 := by decide
  have e4 : ((l ++ [] ++ List.replicate 128 0).take 128).length = 128 := by
    simp only [List.length_take, List.length_append, List.length_replicate]; omega
  have hst : store_bytes ((l ++ [] ++ List.replicate 128 0).take 128) (2 ^ 63 - 1) [7] = none := by
    unfold store_bytes
    rw [if_neg]
    rw [e4]
    decide
  unfold binary_buffer_write
  simp only [List.length_singleton, hcond, if_true, hgrow, Bool.not_true, hst]
  simp

/-- C2 fails as stated, at two inputs. A zero-length write to a freshly initialised buffer of
capacity 0 (NULL block) satisfies the claim's hypotheses and returns false. A one-byte write to
a full buffer of `2^63 - 1` bytes satisfies them too (`s + n = 2^63`), but the growth request
`(capacity + 1) * 2` wraps to 0, the block is reallocated at 128 bytes and the store falls
outside it. -/
theorem C2_buffer_append_counterexample :
    ((⟨none, 0, 0⟩ : binary_buffer_t).allocated ∧
      binary_buffer_size ⟨none, 0, 0⟩ ≤ (⟨none, 0, 0⟩ : binary_buffer_t).capacity ∧
      binary_buffer_size ⟨none, 0, 0⟩ + ([] : List Nat).length < SIZE_MOD ∧
      binary_buffer_init (some []) ⟨none, 0, 0⟩ 0 = some ⟨none, 0, 0⟩ ∧
      binary_buffer_write roundup_pow2 (some []) ⟨none, 0, 0⟩ [] = some (false, ⟨none, 0, 0⟩)) ∧
    ((⟨some (List.replicate (2 ^ 63 - 1) 0), 2 ^ 63 - 1, 2 ^ 63 - 1⟩ : binary_buffer_t).allocated ∧
      (2 ^ 63 - 1) + [7].length < SIZE_MOD ∧
      binary_buffer_write roundup_pow2 (some [])
        ⟨some (List.replicate (2 ^ 63 - 1) 0), 2 ^ 63 - 1, 2 ^ 63 - 1⟩ [7] = none) :=
  ⟨⟨by decide, by decide, by decide, by decide, by decide⟩,
    List.length_replicate _ _, by decide,
    binary_buffer_write_wraps _ (List.length_replicate _ _)⟩

/-! ## Proofs: frame codec -/

theorem rd16_be16 (n : Nat) (h : n < 2 ^ 16) : rd16 (n / 256 % 256) (n % 256) = n := by
  unfold rd16; omega

theorem rd24_be24 (n : Nat) (h : n < 2 ^ 24) :
    rd24 (n / 65536 % 256) (n / 256 % 256) (n % 256) = n := by
  unfold rd24; omega

theorem rd32_be32 (n : Nat) (h : n < 2 ^ 32) :
    rd32 (n / 16777216 % 256) (n / 65536 % 256) (n / 256 % 256) (n % 256) = n := by
  unfold rd32; omega

theorem rd32_be32_mask (n : Nat) (h : n < 2 ^ 31) :
    rd32 (n % 2147483648 / 16777216 % 256) (n % 2147483648 / 65536 % 256)
      (n % 2147483648 / 256 % 256) (n % 2147483648 % 256) % 2147483648 = n := by
  unfold rd32; omega

theorem strip_padding_unpadded (flags : Nat) (payload : List Nat)
    (h : flag_set flags FLAG_PADDED = false) :
    strip_padding flags payload = Except.ok (payload, 0) := by
  simp [strip_padding, h]

theorem strip_padding_padded (flags pad : Nat) (content : List Nat)
    (h : flag_set flags FLAG_PADDED = true) (hp : pad < 256) (hc : 0 < content.length) :
    strip_padding flags ([pad % 256] ++ content ++ List.replicate (pad % 256) 0)
      = Except.ok (content, pad) := by
  have e : pad % 256 = pad := Nat.mod_eq_of_lt hp
  simp only [strip_padding, h, if_true, e, List.singleton_append, List.cons_append,
    List.length_append, List.length_replicate]
  rw [if_neg (by omega)]
  simp

/-- The padded or unpadded payload is stripped back to its content. -/
theorem strip_padding_octets (flags pad : Nat) (content : List Nat)
    (h : padding_valid flags pad content.length) :
    strip_padding flags (pad_length_octet flags pad ++ content ++ padding_octets flags pad)
      = Except.ok (content, pad) := by
  unfold padding_valid at h
  unfold pad_length_octet padding_octets
  cases hf : flag_set flags FLAG_PADDED with
  | true =>
    rw [hf] at h
    simp only [if_true] at h ⊢
    exact strip_padding_padded flags pad content hf h.1 h.2
  | false =>
    rw [hf] at h
    simp only [Bool.false_eq_true, if_false] at h ⊢
    subst h
    simpa using strip_padding_unpadded flags content hf

theorem read_priority_octets (p : h2_frame_priority_t) (h : p.valid) (rest : List Nat) :
    ∃ a b c d w, priority_octets p ++ rest = a :: b :: c :: d :: w :: rest ∧
      read_priority a b c d w = p := by
  obtain ⟨h1, h2⟩ := h
  refine ⟨_, _, _, _, _, rfl, ?_⟩
  obtain ⟨e, dep, w⟩ := p
  simp only at h1 h2
  cases e <;>
    simp only [read_priority, rd32, h2_frame_priority_t.mk.injEq, decide_eq_true_eq,
      decide_eq_false_iff_not, if_true, if_false, Bool.false_eq_true] <;>
    omega

theorem read_settings_octets (settings : List (Nat × Nat))
    (h : ∀ s ∈ settings, s.1 < 2 ^ 16 ∧ s.2 < 2 ^ 32) :
    read_settings (settings_octets settings) = some settings := by
  induction settings with
  | nil => rfl
  | cons s rest ih =>
    obtain ⟨i, v⟩ := s
    have hs := h (i, v) (List.mem_cons_self _ _)
    have ih' := ih (fun s hs => h s (List.mem_cons_of_mem _ hs))
    simp [settings_octets, be16, be32, read_settings, ih', rd16_be16 i hs.1, rd32_be32 v hs.2]

theorem h2_frame_body_type_le (body : h2_frame_body) : body.type ≤ FRAME_TYPE_CONTINUATION := by
  cases body <;>
    simp [h2_frame_body.type, FRAME_TYPE_HEADERS, FRAME_TYPE_DATA, FRAME_TYPE_PRIORITY,
      FRAME_TYPE_RST_STREAM, FRAME_TYPE_SETTINGS, FRAME_TYPE_PUSH_PROMISE, FRAME_TYPE_PING,
      FRAME_TYPE_GOAWAY, FRAME_TYPE_WINDOW_UPDATE, FRAME_TYPE_CONTINUATION]

/-- The decoder reads a valid variant back from its payload octets. -/
theorem h2_frame_parse_payload_octets (flags stream_id : Nat) (body : h2_frame_body)
    (hv : body.valid flags stream_id) :
    h2_frame_parse_payload body.type flags stream_id (h2_frame_payload_octets flags body)
      = Except.ok body := by
  cases body with
  | data payload pad =>
    obtain ⟨h0, hp⟩ := hv
    simp only [h2_frame_parse_payload, h2_frame_body.type, h2_frame_payload_octets, if_true,
      if_neg h0, strip_padding_octets flags pad payload hp]
  | headers prio fragment pad =>
    obtain ⟨h0, hprio, hp⟩ := hv
    cases hf : flag_set flags FLAG_PRIORITY with
    | true =>
      rw [hf] at hprio hp
      simp only [if_true] at hprio hp
      obtain ⟨a, b, c, d, w, e1, e2⟩ := read_priority_octets prio hprio fragment
      have hlen : (priority_octets prio ++ fragment).length = 5 + fragment.length := by
        simp [priority_octets, be32]; omega
      have hs := strip_padding_octets flags pad (priority_octets prio ++ fragment)
        (by rw [hlen]; exact hp)
      simp only [h2_frame_parse_payload, h2_frame_body.type, h2_frame_payload_octets,
        FRAME_TYPE_HEADERS, FRAME_TYPE_DATA, if_neg h0, hf, if_true, List.append_assoc] at hs ⊢
      simp only [show (1 : Nat) = 0 ↔ False from by decide, if_false, hs, e1, e2]
    | false =>
      rw [hf] at hprio hp
      simp only [Bool.false_eq_true, if_false, Nat.zero_add] at hprio hp
      have hs := strip_padding_octets flags pad fragment hp
      simp only [h2_frame_parse_payload, h2_frame_body.type, h2_frame_payload_octets,
        FRAME_TYPE_HEADERS, FRAME_TYPE_DATA, if_neg h0, hf, if_true, Bool.false_eq_true,
        if_false, List.append_nil, hprio, hs, show (1 : Nat) = 0 ↔ False from by decide]
  | priority prio =>
    obtain ⟨h0, hprio⟩ := hv
    obtain ⟨a, b, c, d, w, e1, e2⟩ := read_priority_octets prio hprio []
    rw [List.append_nil] at e1
    simp [h2_frame_parse_payload, h2_frame_body.type, h2_frame_payload_octets,
      FRAME_TYPE_HEADERS, FRAME_TYPE_DATA, FRAME_TYPE_PRIORITY, h0, e1, e2]
  | rst_stream error_code =>
    obtain ⟨h0, hc⟩ := hv
    simp [h2_frame_parse_payload, h2_frame_body.type, h2_frame_payload_octets,
      FRAME_TYPE_HEADERS, FRAME_TYPE_DATA, FRAME_TYPE_PRIORITY, FRAME_TYPE_RST_STREAM, h0,
      be32, rd32_be32 error_code hc]
  | settings entries =>
    obtain ⟨h0, hack, hs⟩ := hv
    have hne : ¬ (flag_set flags FLAG_ACK = true ∧ settings_octets entries ≠ []) := by
      rintro ⟨ha, hn⟩
      rw [hack ha] at hn
      exact hn rfl
    simp [h2_frame_parse_payload, h2_frame_body.type, h2_frame_payload_octets,
      FRAME_TYPE_HEADERS, FRAME_TYPE_DATA, FRAME_TYPE_PRIORITY, FRAME_TYPE_RST_STREAM,
      FRAME_TYPE_SETTINGS, h0, hne, read_settings_octets entries hs]
  | push_promise promised fragment pad =>
    obtain ⟨h0, hpr, hp⟩ := hv
    have hlen : (be32 (promised % 2 ^ 31) ++ fragment).length = 4 + fragment.length := by
      simp [be32]; omega
    have hs := strip_padding_octets flags pad (be32 (promised % 2 ^ 31) ++ fragment)
      (by rw [hlen]; exact hp)
    have e2 := rd32_be32_mask promised hpr
    simp only [List.append_assoc] at hs
    simp only [h2_frame_parse_payload, h2_frame_body.type, h2_frame_payload_octets,
      List.append_assoc, hs]
    simp [FRAME_TYPE_HEADERS, FRAME_TYPE_DATA, FRAME_TYPE_PRIORITY, FRAME_TYPE_RST_STREAM,
      FRAME_TYPE_SETTINGS, FRAME_TYPE_PUSH_PROMISE, h0, be32, e2]
  | ping opaque_data =>
    obtain ⟨h0, hl⟩ := hv
    simp [h2_frame_parse_payload, h2_frame_body.type, h2_frame_payload_octets,
      FRAME_TYPE_HEADERS, FRAME_TYPE_DATA, FRAME_TYPE_PRIORITY, FRAME_TYPE_RST_STREAM,
      FRAME_TYPE_SETTINGS, FRAME_TYPE_PUSH_PROMISE, FRAME_TYPE_PING, h0, hl]
  | goaway last error_code debug_data =>
    obtain ⟨h0, hl, hc⟩ := hv
    have e2 := rd32_be32_mask last hl
    simp [h2_frame_parse_payload, h2_frame_body.type, h2_frame_payload_octets,
      FRAME_TYPE_HEADERS, FRAME_TYPE_DATA, FRAME_TYPE_PRIORITY, FRAME_TYPE_RST_STREAM,
      FRAME_TYPE_SETTINGS, FRAME_TYPE_PUSH_PROMISE, FRAME_TYPE_PING, FRAME_TYPE_GOAWAY, h0,
      be32, e2, rd32_be32 error_code hc]
  | window_update increment =>
    obtain ⟨hl, hn⟩ := hv
    have e2 := rd32_be32_mask increment hl
    simp [h2_frame_parse_payload, h2_frame_body.type, h2_frame_payload_octets,
      FRAME_TYPE_HEADERS, FRAME_TYPE_DATA, FRAME_TYPE_PRIORITY, FRAME_TYPE_RST_STREAM,
      FRAME_TYPE_SETTINGS, FRAME_TYPE_PUSH_PROMISE, FRAME_TYPE_PING, FRAME_TYPE_GOAWAY,
      FRAME_TYPE_WINDOW_UPDATE, be32, e2, hn]
  | continuation fragment =>
    have h0 : stream_id ≠ 0 := hv
    simp [h2_frame_parse_payload, h2_frame_body.type, h2_frame_payload_octets,
      FRAME_TYPE_HEADERS, FRAME_TYPE_DATA, FRAME_TYPE_PRIORITY, FRAME_TYPE_RST_STREAM,
      FRAME_TYPE_SETTINGS, FRAME_TYPE_PUSH_PROMISE, FRAME_TYPE_PING, FRAME_TYPE_GOAWAY,
      FRAME_TYPE_WINDOW_UPDATE, FRAME_TYPE_CONTINUATION, h0]

theorem h2_frame_header_octets_length (frame : h2_frame_t) :
    (h2_frame_header_octets frame).length = FRAME_HEADER_SIZE := rfl

theorem h2_frame_octets_length (frame : h2_frame_t) :
    (h2_frame_octets frame).length = FRAME_HEADER_SIZE + frame.payload_length := by
  simp [h2_frame_octets, h2_frame_header_octets_length, h2_frame_t.payload_length]

/-- The decoder on a buffer that holds, at the cursor, a header followed by at least the
payload the header announces. -/
theorem h2_frame_parse_complete (parser : h2_frame_parser_t) (pre payload extra : List Nat)
    (l0 l1 l2 type flags s0 s1 s2 s3 : Nat) (hlen : payload.length = rd24 l0 l1 l2) :
    h2_frame_parse parser
        (pre ++ ([l0, l1, l2, type, flags, s0, s1, s2, s3] ++ payload) ++ extra) pre.length =
      if type > FRAME_TYPE_CONTINUATION then
        ⟨pre.length, [],
          [⟨0, h2_error_code_e.H2_ERROR_PROTOCOL_ERROR,
            some ("Invalid frame type: 0x" ++ hex_string type)⟩]⟩
      else if rd24 l0 l1 l2 > parser.max_frame_size then
        ⟨pre.length, [],
          [⟨rd32 s0 s1 s2 s3 % 2 ^ 31, h2_error_code_e.H2_ERROR_FRAME_SIZE_ERROR, none⟩]⟩
      else
        match h2_frame_parse_payload type flags (rd32 s0 s1 s2 s3 % 2 ^ 31) payload with
        | Except.error e => ⟨pre.length, [], [⟨rd32 s0 s1 s2 s3 % 2 ^ 31, e, none⟩]⟩
        | Except.ok body =>
          ⟨pre.length + FRAME_HEADER_SIZE + rd24 l0 l1 l2,
            [⟨rd24 l0 l1 l2, flags, rd32 s0 s1 s2 s3 % 2 ^ 31, body⟩], []⟩ := by
  have hdrop : (pre ++ ([l0, l1, l2, type, flags, s0, s1, s2, s3] ++ payload) ++ extra).drop
      pre.length = l0 :: l1 :: l2 :: type :: flags :: s0 :: s1 :: s2 :: s3 :: (payload ++ extra) := by
    rw [List.append_assoc, List.drop_left]
    simp
  have htake : (payload ++ extra).take (rd24 l0 l1 l2) = payload := by
    rw [← hlen, List.take_left]
  have hnlt : ¬ (payload ++ extra).length < rd24 l0 l1 l2 := by
    rw [List.length_append]; omega
  unfold h2_frame_parse
  rw [hdrop]
  simp only [hnlt, if_false, htake]

/-- The decoder on a buffer that holds the octets of a valid frame record at the cursor. -/
theorem h2_frame_parse_octets (parser : h2_frame_parser_t) (pre extra : List Nat)
    (frame : h2_frame_t) (hv : frame.valid parser) :
    h2_frame_parse parser (pre ++ h2_frame_octets frame ++ extra) pre.length =
      ⟨pre.length + FRAME_HEADER_SIZE + frame.payload_length,
        [{ frame with length := frame.payload_length }], []⟩ := by
  obtain ⟨hfl, hsid, hl24, hmax, hbody⟩ := hv
  have e1 := rd24_be24 frame.payload_length hl24
  have e2 : frame.stream_id % 2 ^ 31 = frame.stream_id := Nat.mod_eq_of_lt hsid
  have e3 := rd32_be32 frame.stream_id (by omega)
  have e4 : frame.flags % 256 = frame.flags := Nat.mod_eq_of_lt hfl
  have hoct : h2_frame_octets frame =
      [frame.payload_length / 65536 % 256, frame.payload_length / 256 % 256,
        frame.payload_length % 256, frame.type, frame.flags,
        frame.stream_id / 16777216 % 256, frame.stream_id / 65536 % 256,
        frame.stream_id / 256 % 256, frame.stream_id % 256] ++
      h2_frame_payload_octets frame.flags frame.body := by
    simp only [h2_frame_octets, h2_frame_header_octets, be24, be32, e2, e4, List.cons_append,
      List.nil_append]
  rw [hoct, h2_frame_parse_complete parser pre _ extra _ _ _ _ _ _ _ _ _
    (by rw [e1]; rfl)]
  rw [if_neg (by have := h2_frame_body_type_le frame.body; unfold h2_frame_t.type; omega),
    e1, if_neg (by omega), e3, e2]
  unfold h2_frame_t.type
  rw [h2_frame_parse_payload_octets frame.flags frame.stream_id frame.body hbody]

theorem binary_buffer_written_length (b : binary_buffer_t) (hal : b.allocated)
    (hs : b.index ≤ b.capacity) : b.written.length = b.index := by
  unfold binary_buffer_t.written binary_buffer_t.allocated at *
  cases hb : b.buf with
  | none => rw [hb] at hal; simp; omega
  | some l => rw [hb] at hal; simp; omega

/-- A successful write: the result, and what one reads back from it. -/
theorem binary_buffer_write_reads (roundup : Nat → Nat) (hr : rounds_up roundup)
    (fresh : List Nat) (b : binary_buffer_t) (v : List Nat) (hv : 1 ≤ v.length)
    (hal : b.allocated) (hs : b.index ≤ b.capacity) (hfit : (b.capacity + v.length) * 2 ≤ 2 ^ 63) :
    ∃ b', binary_buffer_write roundup (some fresh) b v = some (true, b') ∧
      b'.allocated ∧ b'.index = b.index + v.length ∧ b'.index ≤ b'.capacity ∧
      b'.written = b.written ++ v ∧
      b'.capacity ≤ max (max 128 b.capacity) (4 * (b.capacity + v.length)) ∧
      (∀ i, i < v.length → binary_buffer_read_index b' (b.index + i) = v[i]?) ∧
      (∀ j, j < b.index → binary_buffer_read_index b' j = binary_buffer_read_index b j) := by
  have hM := size_mod_eq
  obtain ⟨b', hw, hal', _, hidx, hle, hwr, _, hcap⟩ :=
    binary_buffer_write_ok roundup hr fresh b v hal hs (by omega) (fun _ => hfit)
      (Or.inl hv)
  have hlen := binary_buffer_written_length b hal hs
  refine ⟨b', hw, hal', hidx, hle, hwr, hcap, ?_, ?_⟩
  · intro i h
    rw [binary_buffer_read_index_written b' hal' hle _ (by omega), hwr,
      List.getElem?_append_right (by omega), hlen, Nat.add_sub_cancel_left]
  · intro j hj
    rw [binary_buffer_read_index_written b' hal' hle _ (by omega), hwr,
      binary_buffer_read_index_written b hal hs _ hj, List.getElem?_append_left (by omega)]

/-- The effect of `h2_frame_emit` when the allocator succeeds and the growth request does not
overflow. -/
theorem h2_frame_emit_reads (roundup : Nat → Nat) (hr : rounds_up roundup)
    (fresh : List Nat) (bb : binary_buffer_t) (frame : h2_frame_t)
    (hal : bb.allocated) (hs : bb.index ≤ bb.capacity)
    (hfit : (bb.capacity + (FRAME_HEADER_SIZE + frame.payload_length)) * 2 ≤ 2 ^ 63) :
    ∃ bb', h2_frame_emit roundup (some fresh) bb frame = some (true, bb') ∧
      bb'.allocated ∧ bb'.index = bb.index + FRAME_HEADER_SIZE + frame.payload_length ∧
      bb'.index ≤ bb'.capacity ∧
      bb'.written = bb.written ++ h2_frame_octets frame ∧
      bb'.capacity ≤ max (max 128 bb.capacity)
        (4 * (bb.capacity + (FRAME_HEADER_SIZE + frame.payload_length))) ∧
      (∀ i, i < FRAME_HEADER_SIZE + frame.payload_length →
        binary_buffer_read_index bb' (bb.index + i) = (h2_frame_octets frame)[i]?) ∧
      (∀ j, j < bb.index → binary_buffer_read_index bb' j = binary_buffer_read_index bb j) := by
  have hl := h2_frame_octets_length frame
  have h9 : FRAME_HEADER_SIZE = 9 := rfl
  obtain ⟨bb', hw, hal', hidx, hle, hwr, hcap, hrd, hold⟩ :=
    binary_buffer_write_reads roundup hr fresh bb (h2_frame_octets frame) (by omega) hal hs
      (by rw [hl]; exact hfit)
  rw [hl] at hidx hcap hrd
  exact ⟨bb', hw, hal', by omega, hle, hwr, hcap, hrd, hold⟩

/-- The effect of `h2_frame_emit` into a buffer with room: the octets of the frame are
appended. -/
theorem h2_frame_emit_room (roundup : Nat → Nat) (hr : rounds_up roundup)
    (fresh : List Nat) (bb : binary_buffer_t) (frame : h2_frame_t)
    (hroom : bb.has_room (FRAME_HEADER_SIZE + frame.payload_length)) :
    ∃ bb', h2_frame_emit roundup (some fresh) bb frame = some (true, bb') ∧
      bb'.allocated ∧ bb'.index = bb.index + FRAME_HEADER_SIZE + frame.payload_length ∧
      bb'.index ≤ bb'.capacity ∧
      bb'.written = bb.written ++ h2_frame_octets frame ∧
      bb'.capacity ≤ max (max 128 bb.capacity)
        (4 * (bb.capacity + (FRAME_HEADER_SIZE + frame.payload_length))) ∧
      (∀ i, i < FRAME_HEADER_SIZE + frame.payload_length →
        binary_buffer_read_index bb' (bb.index + i) = (h2_frame_octets frame)[i]?) ∧
      (∀ j, j < bb.index → binary_buffer_read_index bb' j = binary_buffer_read_index bb j) :=
  h2_frame_emit_reads roundup hr fresh bb frame hroom.1 hroom.2.1 (by have := hroom.2.2; omega)

/-! ## The unit tests of check_h2_frame.c on the model

Each test emits one record into the empty buffer of the fixture and compares the bytes read
back with `OUT(i)`; the model appends `h2_frame_octets`, so the expected bytes are compared
with that list. -/

theorem test_h2_frame_emit_ping_ack :
    h2_frame_octets ⟨0, FLAG_ACK, 0,
        h2_frame_body.ping [0xde, 0xad, 0xbe, 0xef, 0xde, 0xad, 0xbe, 0xef]⟩ =
      [0, 0, 8, FRAME_TYPE_PING, FLAG_ACK, 0, 0, 0, 0,
        0xde, 0xad, 0xbe, 0xef, 0xde, 0xad, 0xbe, 0xef] := by
  decide

theorem test_h2_frame_emit_data_empty :
    h2_frame_octets ⟨0, FLAG_END_STREAM, 1, h2_frame_body.data [] 0⟩ =
      [0, 0, 0, FRAME_TYPE_DATA, FLAG_END_STREAM, 0, 0, 0, 1] := by
  decide

theorem test_h2_frame_emit_data_with_payload :
    h2_frame_octets ⟨0, FLAG_END_STREAM, 1, h2_frame_body.data [0xde, 0xad, 0xbe, 0xef] 0⟩ =
      [0, 0, 4, FRAME_TYPE_DATA, FLAG_END_STREAM, 0, 0, 0, 1, 0xde, 0xad, 0xbe, 0xef] := by
  decide

theorem test_h2_frame_emit_data_with_large_payload (d : List Nat)
    (hd : d.length = DEFAULT_MAX_FRAME_SIZE) :
    h2_frame_octets ⟨0, FLAG_END_STREAM, 1, h2_frame_body.data d 0⟩ =
      [0, 0x40, 0x00, FRAME_TYPE_DATA, FLAG_END_STREAM, 0, 0, 0, 1] ++ d := by
  have hp : h2_frame_payload_octets FLAG_END_STREAM (h2_frame_body.data d 0) = d := by
    simp [h2_frame_payload_octets, pad_length_octet, padding_octets, flag_set, FLAG_PADDED,
      FLAG_END_STREAM]
  simp only [h2_frame_octets, h2_frame_header_octets, h2_frame_t.payload_length, hp, hd]
  rfl

theorem test_h2_frame_emit_headers_end_stream :
    h2_frame_octets ⟨0, FLAG_END_STREAM + FLAG_END_HEADERS, 1,
        h2_frame_body.headers ⟨false, 0, 0⟩ [] 0⟩ =
      [0, 0, 0, FRAME_TYPE_HEADERS, 5, 0, 0, 0, 1] := by
  decide

theorem test_h2_frame_emit_headers_with_payload :
    h2_frame_octets ⟨0, FLAG_END_HEADERS, 1,
        h2_frame_body.headers ⟨false, 0, 0⟩ [0xde, 0xad, 0xbe, 0xef] 0⟩ =
      [0, 0, 4, FRAME_TYPE_HEADERS, FLAG_END_HEADERS, 0, 0, 0, 1, 0xde, 0xad, 0xbe, 0xef] := by
  decide

theorem test_h2_frame_emit_rst_stream :
    h2_frame_octets ⟨0, 0, 1, h2_frame_body.rst_stream 2⟩ =
      [0, 0, 4, FRAME_TYPE_RST_STREAM, 0, 0, 0, 0, 1, 0, 0, 0, 2] := by
  decide

theorem test_h2_frame_emit_settings_ack :
    h2_frame_octets ⟨0, FLAG_ACK, 0, h2_frame_body.settings []⟩ =
      [0, 0, 0, FRAME_TYPE_SETTINGS, FLAG_ACK, 0, 0, 0, 0] := by
  decide

theorem test_h2_frame_emit_push_promise_with_payload :
    h2_frame_octets ⟨0, FLAG_END_HEADERS, 1,
        h2_frame_body.push_promise 2 [0xde, 0xad, 0xbe, 0xef] 0⟩ =
      [0, 0, 8, FRAME_TYPE_PUSH_PROMISE, FLAG_END_HEADERS, 0, 0, 0, 1, 0, 0, 0, 2,
        0xde, 0xad, 0xbe, 0xef] := by
  decide

theorem test_h2_frame_emit_goaway :
    h2_frame_octets ⟨0, 0, 0, h2_frame_body.goaway 0 0 []⟩ =
      [0, 0, 8, FRAME_TYPE_GOAWAY, 0, 0, 0, 0, 0, 0, 0, 0, 0, 0, 0, 0, 0] := by
  decide

theorem test_h2_frame_emit_goaway_with_debug_data :
    h2_frame_octets ⟨0, 0, 0, h2_frame_body.goaway 1 2 [0x57, 0x65, 0x6c, 0x6c]⟩ =
      [0, 0, 8 + 4, FRAME_TYPE_GOAWAY, 0, 0, 0, 0, 0, 0, 0, 0, 1, 0, 0, 0, 2,
        0x57, 0x65, 0x6c, 0x6c] := by
  decide

theorem test_h2_frame_emit_window_update_for_stream :
    h2_frame_octets ⟨0, 0, 1, h2_frame_body.window_update 0x4000⟩ =
      [0, 0, 4, FRAME_TYPE_WINDOW_UPDATE, 0, 0, 0, 0, 1, 0, 0, 0x40, 0] := by
  decide

theorem test_h2_frame_emit_continuation :
    h2_frame_octets ⟨0, FLAG_END_HEADERS, 1,
        h2_frame_body.continuation [0xde, 0xad, 0xbe, 0xef]⟩ =
      [0, 0, 4, FRAME_TYPE_CONTINUATION, FLAG_END_HEADERS, 0, 0, 0, 1,
        0xde, 0xad, 0xbe, 0xef] := by
  decide

theorem test_h2_frame_parse_invalid_frame_type :
    h2_frame_parse ⟨DEFAULT_MAX_FRAME_SIZE⟩ [0x0, 0x0, 0x0, 0xff, 0x0, 0x0, 0x0, 0x0, 0x0] 0 =
      ⟨0, [], [⟨0, h2_error_code_e.H2_ERROR_PROTOCOL_ERROR, some "Invalid frame type: 0xff"⟩]⟩ := by
  decide

theorem test_h2_frame_parse_data :
    h2_frame_parse ⟨DEFAULT_MAX_FRAME_SIZE⟩
        [0, 0, 0x4, FRAME_TYPE_DATA, FLAG_END_STREAM, 0, 0, 0, 1, 0xde, 0xad, 0xbe, 0xef] 0 =
      ⟨13, [⟨4, FLAG_END_STREAM, 1, h2_frame_body.data [0xde, 0xad, 0xbe, 0xef] 0⟩], []⟩ := by
  decide

theorem test_h2_frame_parse_data_with_extra_buffer :
    h2_frame_parse ⟨DEFAULT_MAX_FRAME_SIZE⟩
        [0, 0, 0x4, FRAME_TYPE_DATA, FLAG_END_STREAM, 0, 0, 0, 1, 0xde, 0xad, 0xbe, 0xef,
          0x0, 0x0, 0x0, 0x0, 0x0, 0x0, 0x0, 0x0, 0x0] 0 =
      ⟨9 + 4, [⟨4, FLAG_END_STREAM, 1, h2_frame_body.data [0xde, 0xad, 0xbe, 0xef] 0⟩], []⟩ := by
  decide

/-! ## Properties of the frame codec -/

/-- The octets `h2_frame_emit` appends, read back one by one. -/
theorem h2_frame_emit_layout (roundup : Nat → Nat) (hr : rounds_up roundup)
    (fresh : List Nat) (bb : binary_buffer_t) (frame : h2_frame_t)
    (hroom : bb.has_room (FRAME_HEADER_SIZE + frame.payload_length)) :
    ∃ bb', h2_frame_emit roundup (some fresh) bb frame = some (true, bb') ∧
      binary_buffer_read_index bb' (binary_buffer_size bb)
        = some (frame.payload_length / 65536 % 256) ∧
      binary_buffer_read_index bb' (binary_buffer_size bb + 1)
        = some (frame.payload_length / 256 % 256) ∧
      binary_buffer_read_index bb' (binary_buffer_size bb + 2)
        = some (frame.payload_length % 256) ∧
      rd24 (frame.payload_length / 65536 % 256) (frame.payload_length / 256 % 256)
        (frame.payload_length % 256) = frame.payload_length % 2 ^ 24 ∧
      binary_buffer_read_index bb' (binary_buffer_size bb + 3) = some frame.type ∧
      binary_buffer_read_index bb' (binary_buffer_size bb + 4) = some (frame.flags % 256) ∧
      binary_buffer_read_index bb' (binary_buffer_size bb + 5)
        = some (frame.stream_id % 2 ^ 31 / 16777216 % 256) ∧
      binary_buffer_read_index bb' (binary_buffer_size bb + 6)
        = some (frame.stream_id % 2 ^ 31 / 65536 % 256) ∧
      binary_buffer_read_index bb' (binary_buffer_size bb + 7)
        = some (frame.stream_id % 2 ^ 31 / 256 % 256) ∧
      binary_buffer_read_index bb' (binary_buffer_size bb + 8)
        = some (frame.stream_id % 2 ^ 31 % 256) ∧
      rd32 (frame.stream_id % 2 ^ 31 / 16777216 % 256) (frame.stream_id % 2 ^ 31 / 65536 % 256)
        (frame.stream_id % 2 ^ 31 / 256 % 256) (frame.stream_id % 2 ^ 31 % 256)
        = frame.stream_id % 2 ^ 31 ∧
      (∀ i (h : i < frame.payload_length),
        binary_buffer_read_index bb' (binary_buffer_size bb + FRAME_HEADER_SIZE + i)
          = some ((h2_frame_payload_octets frame.flags frame.body).get ⟨i, h⟩)) := by
  obtain ⟨bb', hw, _, _, _, _, _, hrd, _⟩ := h2_frame_emit_room roundup hr fresh bb frame hroom
  have h9 : FRAME_HEADER_SIZE = 9 := rfl
  have hoct : h2_frame_octets frame =
      [frame.payload_length / 65536 % 256, frame.payload_length / 256 % 256,
        frame.payload_length % 256, frame.type, frame.flags % 256,
        frame.stream_id % 2 ^ 31 / 16777216 % 256, frame.stream_id % 2 ^ 31 / 65536 % 256,
        frame.stream_id % 2 ^ 31 / 256 % 256, frame.stream_id % 2 ^ 31 % 256] ++
      h2_frame_payload_octets frame.flags frame.body := by
    simp only [h2_frame_octets, h2_frame_header_octets, be24, be32, List.cons_append,
      List.nil_append]
  rw [hoct] at hrd
  unfold binary_buffer_size
  refine ⟨bb', hw, ?_, ?_, ?_, ?_, ?_, ?_, ?_, ?_, ?_, ?_, ?_, ?_⟩
  · simpa using hrd 0 (by omega)
  · simpa using hrd 1 (by omega)
  · simpa using hrd 2 (by omega)
  · unfold rd24; omega
  · simpa using hrd 3 (by omega)
  · simpa using hrd 4 (by omega)
  · simpa using hrd 5 (by omega)
  · simpa using hrd 6 (by omega)
  · simpa using hrd 7 (by omega)
  · simpa using hrd 8 (by omega)
  · unfold rd32; omega
  · intro i h
    have := hrd (FRAME_HEADER_SIZE + i) (by omega)
    rw [← Nat.add_assoc] at this
    rw [this, h9, List.getElem?_append_right (by simp)]
    simp only [List.length_cons, List.length_nil]
    rw [show 9 + i - (0 + 1 + 1 + 1 + 1 + 1 + 1 + 1 + 1 + 1) = i from by omega]
    exact List.getElem?_eq_getElem h

/-- C3: `h2_frame_emit` (allocator succeeding, buffer with room) appends first the payload
length as three big-endian octets, then the type octet, the flags octet and the stream id
with its top bit cleared as four big-endian octets, and the payload octets of the variant
follow from the tenth appended octet on. -/
theorem C3_frame_header_layout (roundup : Nat → Nat) (hr : rounds_up roundup)
    (fresh : List Nat) (bb : binary_buffer_t) (frame : h2_frame_t)
    (hroom : bb.has_room (FRAME_HEADER_SIZE + frame.payload_length)) :
    ∃ bb', h2_frame_emit roundup (some fresh) bb frame = some (true, bb') ∧
      binary_buffer_read_index bb' (binary_buffer_size bb)
        = some (frame.payload_length / 65536 % 256) ∧
      binary_buffer_read_index bb' (binary_buffer_size bb + 1)
        = some (frame.payload_length / 256 % 256) ∧
      binary_buffer_read_index bb' (binary_buffer_size bb + 2)
        = some (frame.payload_length % 256) ∧
      rd24 (frame.payload_length / 65536 % 256) (frame.payload_length / 256 % 256)
        (frame.payload_length % 256) = frame.payload_length % 2 ^ 24 ∧
      binary_buffer_read_index bb' (binary_buffer_size bb + 3) = some frame.type ∧
      binary_buffer_read_index bb' (binary_buffer_size bb + 4) = some (frame.flags % 256) ∧
      binary_buffer_read_index bb' (binary_buffer_size bb + 5)
        = some (frame.stream_id % 2 ^ 31 / 16777216 % 256) ∧
      binary_buffer_read_index bb' (binary_buffer_size bb + 6)
        = some (frame.stream_id % 2 ^ 31 / 65536 % 256) ∧
      binary_buffer_read_index bb' (binary_buffer_size bb + 7)
        = some (frame.stream_id % 2 ^ 31 / 256 % 256) ∧
      binary_buffer_read_index bb' (binary_buffer_size bb + 8)
        = some (frame.stream_id % 2 ^ 31 % 256) ∧
      rd32 (frame.stream_id % 2 ^ 31 / 16777216 % 256) (frame.stream_id % 2 ^ 31 / 65536 % 256)
        (frame.stream_id % 2 ^ 31 / 256 % 256) (frame.stream_id % 2 ^ 31 % 256)
        = frame.stream_id % 2 ^ 31 ∧
      (∀ i (h : i < frame.payload_length),
        binary_buffer_read_index bb' (binary_buffer_size bb + FRAME_HEADER_SIZE + i)
          = some ((h2_frame_payload_octets frame.flags frame.body).get ⟨i, h⟩)) :=
  h2_frame_emit_layout roundup hr fresh bb frame hroom

/-- C3 on the DATA frame of `test_h2_frame_emit_data_with_payload`, into the empty buffer of
the test fixture. -/
theorem C3_frame_header_layout_witness :
    ∃ bb', h2_frame_emit roundup_pow2 (some []) ⟨none, 0, 0⟩
          ⟨0, FLAG_END_STREAM, 1, h2_frame_body.data [0xde, 0xad, 0xbe, 0xef] 0⟩
        = some (true, bb') ∧
      binary_buffer_read_index bb' 0 = some 0 ∧
      binary_buffer_read_index bb' 1 = some 0 ∧
      binary_buffer_read_index bb' 2 = some 4 ∧
      binary_buffer_read_index bb' 3 = some FRAME_TYPE_DATA ∧
      binary_buffer_read_index bb' 4 = some FLAG_END_STREAM ∧
      binary_buffer_read_index bb' 8 = some 1 ∧
      binary_buffer_read_index bb' 9 = some 0xde := by
  obtain ⟨bb', hw, h0, h1, h2, _, h3, h4, _, _, _, h8, _, hp⟩ :=
    C3_frame_header_layout roundup_pow2 rounds_up_roundup_pow2 [] ⟨none, 0, 0⟩
      ⟨0, FLAG_END_STREAM, 1, h2_frame_body.data [0xde, 0xad, 0xbe, 0xef] 0⟩
      (by decide)
  exact ⟨bb', hw, h0, h1, h2, h3, h4, h8, hp 0 (by decide)⟩

/-- A DATA frame whose payload has `2^24` octets, emitted into the empty buffer: the three
length octets are zero and `9 + 2^24` bytes are appended. -/
theorem h2_frame_emit_data_2_24 (d : List Nat) (hd : d.length = 2 ^ 24) :
    ∃ bb', h2_frame_emit roundup_pow2 (some []) ⟨none, 0, 0⟩
          ⟨0, 0, 1, h2_frame_body.data d 0⟩ = some (true, bb') ∧
      binary_buffer_read_index bb' 0 = some 0 ∧
      binary_buffer_read_index bb' 1 = some 0 ∧
      binary_buffer_read_index bb' 2 = some 0 ∧
      binary_buffer_size bb' = 9 + 2 ^ 24 := by
  have hp : h2_frame_payload_octets 0 (h2_frame_body.data d 0) = d := by
    simp [h2_frame_payload_octets, pad_length_octet, padding_octets, flag_set, FLAG_PADDED]
  have hpl : (⟨0, 0, 1, h2_frame_body.data d 0⟩ : h2_frame_t).payload_length = 16777216 := by
    simp only [h2_frame_t.payload_length, hp, hd]
    rfl
  have hroom : (⟨none, 0, 0⟩ : binary_buffer_t).has_room
      (FRAME_HEADER_SIZE + (⟨0, 0, 1, h2_frame_body.data d 0⟩ : h2_frame_t).payload_length) := by
    rw [hpl]
    exact ⟨by decide, by decide, by decide⟩
  obtain ⟨bb', hw, h0, h1, h2, _⟩ := h2_frame_emit_layout roundup_pow2 rounds_up_roundup_pow2 []
    ⟨none, 0, 0⟩ ⟨0, 0, 1, h2_frame_body.data d 0⟩ hroom
  obtain ⟨bb'', hw', _, hidx, _⟩ := h2_frame_emit_room roundup_pow2 rounds_up_roundup_pow2 []
    ⟨none, 0, 0⟩ ⟨0, 0, 1, h2_frame_body.data d 0⟩ hroom
  rw [hw] at hw'
  obtain rfl : bb' = bb'' := by simpa using hw'
  rw [hpl] at h0 h1 h2 hidx
  refine ⟨bb', hw, ?_, ?_, ?_, ?_⟩
  · simpa [binary_buffer_size] using h0
  · simpa [binary_buffer_size] using h1
  · simpa [binary_buffer_size] using h2
  · simpa [binary_buffer_size, FRAME_HEADER_SIZE] using hidx

/-- C4 (as given) fails on a DATA frame whose payload has `2^24` octets: `9 + 2^24` bytes are
appended, while the three length octets written are `00 00 00`, the value 0. -/
theorem C4_counterexample :
    ∃ bb', h2_frame_emit roundup_pow2 (some []) ⟨none, 0, 0⟩
          ⟨0, 0, 1, h2_frame_body.data (List.replicate (2 ^ 24) 0) 0⟩ = some (true, bb') ∧
      binary_buffer_read_index bb' 0 = some 0 ∧
      binary_buffer_read_index bb' 1 = some 0 ∧
      binary_buffer_read_index bb' 2 = some 0 ∧
      rd24 0 0 0 = 0 ∧
      binary_buffer_size bb' = 9 + 2 ^ 24 :=
  let ⟨bb', h, h0, h1, h2, hs⟩ :=
    h2_frame_emit_data_2_24 (List.replicate (2 ^ 24) 0) (List.length_replicate _ _)
  ⟨bb', h, h0, h1, h2, rfl, hs⟩

/-- C4 (amended): for a frame record whose payload has fewer than `2^24` octets, whatever its
`length` field holds, `h2_frame_emit` (allocator succeeding, buffer with room) appends exactly
`9 + L` bytes, `L` being the value of the three length octets it wrote, and `L` is the number
of payload octets; the `length` field of the record does not influence the result. -/
theorem C4_encoded_length_is_payload_length (roundup : Nat → Nat) (hr : rounds_up roundup)
    (fresh : List Nat) (bb : binary_buffer_t) (frame : h2_frame_t)
    (hlen : frame.payload_length < 2 ^ 24)
    (hroom : bb.has_room (FRAME_HEADER_SIZE + frame.payload_length)) :
    ∃ bb' l0 l1 l2, h2_frame_emit roundup (some fresh) bb frame = some (true, bb') ∧
      binary_buffer_read_index bb' (binary_buffer_size bb) = some l0 ∧
      binary_buffer_read_index bb' (binary_buffer_size bb + 1) = some l1 ∧
      binary_buffer_read_index bb' (binary_buffer_size bb + 2) = some l2 ∧
      binary_buffer_size bb' = binary_buffer_size bb + 9 + rd24 l0 l1 l2 ∧
      rd24 l0 l1 l2 = (h2_frame_payload_octets frame.flags frame.body).length ∧
      (∀ length, h2_frame_emit roundup (some fresh) bb { frame with length := length }
        = h2_frame_emit roundup (some fresh) bb frame) := by
  obtain ⟨bb', hw, h0, h1, h2, _⟩ := h2_frame_emit_layout roundup hr fresh bb frame hroom
  obtain ⟨bb'', hw', _, hidx, _⟩ := h2_frame_emit_room roundup hr fresh bb frame hroom
  rw [hw] at hw'
  obtain rfl : bb' = bb'' := by simpa using hw'
  have e := rd24_be24 frame.payload_length hlen
  refine ⟨bb', _, _, _, hw, h0, h1, h2, ?_, ?_, fun _ => rfl⟩
  · rw [e]; exact hidx
  · rw [e]; rfl

/-- C4 (amended) on the DATA frame of `test_h2_frame_emit_data_with_payload`, its `length`
field set to an arbitrary 77. -/
theorem C4_encoded_length_is_payload_length_witness :
    ∃ bb' l0 l1 l2, h2_frame_emit roundup_pow2 (some []) ⟨none, 0, 0⟩
          ⟨77, FLAG_END_STREAM, 1, h2_frame_body.data [0xde, 0xad, 0xbe, 0xef] 0⟩
        = some (true, bb') ∧
      binary_buffer_read_index bb' 0 = some l0 ∧
      binary_buffer_read_index bb' 1 = some l1 ∧
      binary_buffer_read_index bb' 2 = some l2 ∧
      binary_buffer_size bb' = 9 + rd24 l0 l1 l2 ∧ rd24 l0 l1 l2 = 4 := by
  obtain ⟨bb', l0, l1, l2, hw, h0, h1, h2, hs, hl, _⟩ :=
    C4_encoded_length_is_payload_length roundup_pow2 rounds_up_roundup_pow2 [] ⟨none, 0, 0⟩
      ⟨77, FLAG_END_STREAM, 1, h2_frame_body.data [0xde, 0xad, 0xbe, 0xef] 0⟩
      (by decide) (by decide)
  exact ⟨bb', l0, l1, l2, hw, h0, h1, h2, by simpa [binary_buffer_size] using hs, hl⟩

/-- C5 (amended): for every frame record that is valid for the decoder (`h2_frame_t.valid`:
flags, stream id and variant fields fit their wire fields, the payload fits the length field
and the maximum frame size, the stream id obeys the rule of the frame type, padding and
priority agree with their flags), `h2_frame_parse` run at the old end of the buffer on the
bytes `h2_frame_emit` produced delivers exactly that record with `length` set to the payload
length, reports no error, and moves the cursor to the end of the emitted bytes. -/
theorem C5_codec_round_trip (parser : h2_frame_parser_t) (roundup : Nat → Nat)
    (hr : rounds_up roundup) (fresh : List Nat) (bb : binary_buffer_t) (frame : h2_frame_t)
    (hv : frame.valid parser)
    (hroom : bb.has_room (FRAME_HEADER_SIZE + frame.payload_length)) :
    ∃ bb', h2_frame_emit roundup (some fresh) bb frame = some (true, bb') ∧
      h2_frame_parse parser bb'.written (binary_buffer_size bb) =
        ⟨binary_buffer_size bb', [{ frame with length := frame.payload_length }], []⟩ := by
  obtain ⟨bb', hw, _, hidx, _, hwr, _⟩ := h2_frame_emit_room roundup hr fresh bb frame hroom
  refine ⟨bb', hw, ?_⟩
  have hlen := binary_buffer_written_length bb hroom.1 hroom.2.1
  have h := h2_frame_parse_octets parser bb.written [] frame hv
  rw [List.append_nil, hlen] at h
  rw [hwr, binary_buffer_size, binary_buffer_size, hidx]
  exact h

/-- Every one of the ten frame types has records that are valid for the decoder, so the round
trip speaks of every frame type. -/
theorem valid_frame_of_every_type (type : Nat) (h : type ≤ FRAME_TYPE_CONTINUATION) :
    ∃ frame : h2_frame_t, frame.type = type ∧ frame.valid ⟨DEFAULT_MAX_FRAME_SIZE⟩ := by
  have h9 : FRAME_TYPE_CONTINUATION = 9 := rfl
  rw [h9] at h
  interval_cases type
  · exact ⟨⟨0, 0x9, 1, h2_frame_body.data [1, 2] 3⟩, by decide, by decide⟩
  · exact ⟨⟨0, 0x4, 1, h2_frame_body.headers ⟨false, 0, 0⟩ [1, 2] 0⟩, by decide, by decide⟩
  · exact ⟨⟨0, 0, 1, h2_frame_body.priority ⟨true, 3, 255⟩⟩, by decide, by decide⟩
  · exact ⟨⟨0, 0, 1, h2_frame_body.rst_stream 8⟩, by decide, by decide⟩
  · exact ⟨⟨0, 0, 0, h2_frame_body.settings [(3, 100), (4, 65535)]⟩, by decide, by decide⟩
  · exact ⟨⟨0, 0xc, 1, h2_frame_body.push_promise 2 [] 7⟩, by decide, by decide⟩
  · exact ⟨⟨0, 1, 0, h2_frame_body.ping [1, 2, 3, 4, 5, 6, 7, 8]⟩, by decide, by decide⟩
  · exact ⟨⟨0, 0, 0, h2_frame_body.goaway 5 2 [0x57]⟩, by decide, by decide⟩
  · exact ⟨⟨0, 0, 0, h2_frame_body.window_update 0x4000⟩, by decide, by decide⟩
  · exact ⟨⟨0, 0x4, 1, h2_frame_body.continuation [1]⟩, by decide, by decide⟩

/-- C5 (amended) on a padded HEADERS frame with priority, emitted into the empty buffer of
the test fixture. -/
theorem C5_codec_round_trip_witness :
    ∃ bb', h2_frame_emit roundup_pow2 (some []) ⟨none, 0, 0⟩
          ⟨0, 0x2c, 3, h2_frame_body.headers ⟨true, 5, 17⟩ [1, 2, 3] 2⟩ = some (true, bb') ∧
      h2_frame_parse ⟨DEFAULT_MAX_FRAME_SIZE⟩ bb'.written 0 =
        ⟨binary_buffer_size bb',
          [⟨11, 0x2c, 3, h2_frame_body.headers ⟨true, 5, 17⟩ [1, 2, 3] 2⟩], []⟩ :=
  C5_codec_round_trip ⟨DEFAULT_MAX_FRAME_SIZE⟩ roundup_pow2 rounds_up_roundup_pow2 []
    ⟨none, 0, 0⟩ ⟨0, 0x2c, 3, h2_frame_body.headers ⟨true, 5, 17⟩ [1, 2, 3] 2⟩
    (by decide) (by decide)

/-- C5 fails as stated: a DATA record on stream 0 is emitted (13 bytes), but the decoder
reports PROTOCOL_ERROR on those bytes, delivers no frame and does not move the cursor. -/
theorem C5_codec_round_trip_counterexample :
    ∃ bb', h2_frame_emit roundup_pow2 (some []) ⟨none, 0, 0⟩
          ⟨0, FLAG_END_STREAM, 0, h2_frame_body.data [0xde, 0xad, 0xbe, 0xef] 0⟩
        = some (true, bb') ∧
      binary_buffer_size bb' = 13 ∧
      h2_frame_parse ⟨DEFAULT_MAX_FRAME_SIZE⟩ bb'.written 0 =
        ⟨0, [], [⟨0, h2_error_code_e.H2_ERROR_PROTOCOL_ERROR, none⟩]⟩ := by
  obtain ⟨bb', hw, _, hidx, _, hwr, _⟩ := h2_frame_emit_room roundup_pow2
    rounds_up_roundup_pow2 [] ⟨none, 0, 0⟩
    ⟨0, FLAG_END_STREAM, 0, h2_frame_body.data [0xde, 0xad, 0xbe, 0xef] 0⟩
    (by decide)
  refine ⟨bb', hw, hidx, ?_⟩
  rw [hwr]
  decide

/-- C6 (amended): when the buffer holds, at the cursor, a 9-byte frame header whose type octet
is not one of the ten defined types, followed by at least the payload bytes the header
announces, `h2_frame_parse` calls the parse-error callback exactly once, with PROTOCOL_ERROR
and the text "Invalid frame type: 0x" followed by the type in hexadecimal, delivers no frame
and leaves the cursor where it was. -/
theorem C6_invalid_frame_type_rejected (parser : h2_frame_parser_t)
    (pre payload extra : List Nat) (l0 l1 l2 type flags s0 s1 s2 s3 : Nat)
    (htype : type > FRAME_TYPE_CONTINUATION) (hlen : payload.length = rd24 l0 l1 l2) :
    h2_frame_parse parser
        (pre ++ ([l0, l1, l2, type, flags, s0, s1, s2, s3] ++ payload) ++ extra) pre.length =
      ⟨pre.length, [],
        [⟨0, h2_error_code_e.H2_ERROR_PROTOCOL_ERROR,
          some ("Invalid frame type: 0x" ++ hex_string type)⟩]⟩ := by
  rw [h2_frame_parse_complete parser pre payload extra _ _ _ _ _ _ _ _ _ hlen, if_pos htype]

/-- C6 (amended) on the header of `test_h2_frame_parse_invalid_frame_type`. -/
theorem C6_invalid_frame_type_rejected_witness :
    h2_frame_parse ⟨DEFAULT_MAX_FRAME_SIZE⟩ [0x0, 0x0, 0x0, 0xff, 0x0, 0x0, 0x0, 0x0, 0x0] 0 =
      ⟨0, [], [⟨0, h2_error_code_e.H2_ERROR_PROTOCOL_ERROR, some "Invalid frame type: 0xff"⟩]⟩ :=
  C6_invalid_frame_type_rejected ⟨DEFAULT_MAX_FRAME_SIZE⟩ [] [] [] 0x0 0x0 0x0 0xff 0x0 0x0 0x0
    0x0 0x0 (by decide) (by decide)

/-- C6 fails as stated: on the 9-byte header `00 00 01 ff 00 00 00 00 00` (undefined type
0xff, announced payload length 1, no payload byte in the buffer) the decoder waits for the
payload: it calls neither callback. -/
theorem C6_invalid_frame_type_rejected_counterexample :
    h2_frame_parse ⟨DEFAULT_MAX_FRAME_SIZE⟩ [0x0, 0x0, 0x1, 0xff, 0x0, 0x0, 0x0, 0x0, 0x0] 0 =
      ⟨0, [], []⟩ := by
  decide

/-- C7: when the buffer holds, at the cursor, a complete frame of payload length `L` that is
valid (parsed on its own it raises no error), followed by any extra bytes, one call of
`h2_frame_parse` delivers exactly one frame, the same as for the frame on its own, with
`length = L` (for an unpadded DATA frame its payload is the `L` payload bytes), reports no
error, and advances the cursor by exactly `9 + L`. -/
theorem C7_parse_consumes_one_frame (parser : h2_frame_parser_t)
    (pre payload extra : List Nat) (l0 l1 l2 type flags s0 s1 s2 s3 : Nat)
    (hlen : payload.length = rd24 l0 l1 l2)
    (hvalid : (h2_frame_parse parser
      ([l0, l1, l2, type, flags, s0, s1, s2, s3] ++ payload) 0).errors = []) :
    ∃ frame, h2_frame_parse parser
        (pre ++ ([l0, l1, l2, type, flags, s0, s1, s2, s3] ++ payload) ++ extra) pre.length =
          ⟨pre.length + 9 + payload.length, [frame], []⟩ ∧
      frame.length = payload.length ∧
      h2_frame_parse parser ([l0, l1, l2, type, flags, s0, s1, s2, s3] ++ payload) 0 =
        ⟨9 + payload.length, [frame], []⟩ ∧
      (type = FRAME_TYPE_DATA → flag_set flags FLAG_PADDED = false →
        frame.body = h2_frame_body.data payload 0) := by
  have h0 := h2_frame_parse_complete parser [] payload [] l0 l1 l2 type flags s0 s1 s2 s3 hlen
  simp only [List.nil_append, List.append_nil, List.length_nil] at h0
  rw [h0] at hvalid ⊢
  rw [h2_frame_parse_complete parser pre payload extra l0 l1 l2 type flags s0 s1 s2 s3 hlen]
  by_cases h1 : type > FRAME_TYPE_CONTINUATION
  · rw [if_pos h1] at hvalid; simp at hvalid
  · by_cases h2 : rd24 l0 l1 l2 > parser.max_frame_size
    · rw [if_neg h1, if_pos h2] at hvalid; simp at hvalid
    · rw [if_neg h1, if_neg h2] at hvalid ⊢
      rw [if_neg h1, if_neg h2]
      cases hb : h2_frame_parse_payload type flags (rd32 s0 s1 s2 s3 % 2 ^ 31) payload with
      | error e => rw [hb] at hvalid; simp at hvalid
      | ok body =>
        refine ⟨⟨rd24 l0 l1 l2, flags, rd32 s0 s1 s2 s3 % 2 ^ 31, body⟩, ?_, hlen.symm, ?_, ?_⟩
        · simp only [hlen]; rfl
        · simp only [hlen, Nat.zero_add]; rfl
        · intro ht hf
          subst ht
          simp only [h2_frame_parse_payload, if_true, strip_padding, hf] at hb
          split at hb
          · simp at hb
          · simpa using hb.symm

/-- C7 on the buffer of `test_h2_frame_parse_data_with_extra_buffer`. -/
theorem C7_parse_consumes_one_frame_witness :
    ∃ frame, h2_frame_parse ⟨DEFAULT_MAX_FRAME_SIZE⟩
        ([] ++ ([0, 0, 0x4, FRAME_TYPE_DATA, FLAG_END_STREAM, 0, 0, 0, 1] ++
          [0xde, 0xad, 0xbe, 0xef]) ++ [0x0, 0x0, 0x0, 0x0, 0x0, 0x0, 0x0, 0x0, 0x0]) 0 =
          ⟨0 + 9 + 4, [frame], []⟩ ∧
      frame.length = 4 ∧
      h2_frame_parse ⟨DEFAULT_MAX_FRAME_SIZE⟩
        ([0, 0, 0x4, FRAME_TYPE_DATA, FLAG_END_STREAM, 0, 0, 0, 1] ++
          [0xde, 0xad, 0xbe, 0xef]) 0 = ⟨9 + 4, [frame], []⟩ ∧
      (FRAME_TYPE_DATA = FRAME_TYPE_DATA → flag_set FLAG_END_STREAM FLAG_PADDED = false →
        frame.body = h2_frame_body.data [0xde, 0xad, 0xbe, 0xef] 0) :=
  C7_parse_consumes_one_frame ⟨DEFAULT_MAX_FRAME_SIZE⟩ [] [0xde, 0xad, 0xbe, 0xef]
    [0x0, 0x0, 0x0, 0x0, 0x0, 0x0, 0x0, 0x0, 0x0] 0 0 0x4 FRAME_TYPE_DATA FLAG_END_STREAM
    0 0 0 1 (by decide) (by decide)

/-- C8: two frame records emitted one after the other into the same buffer (allocator
succeeding, buffer with room) leave it holding the bytes of the first followed by the bytes
of the second: its size grows by the two encoded sizes, the second emit changes no byte of
the first, and the header of the second starts `9 + payload_length` of the first after the
start of the first. -/
theorem C8_emit_appends (roundup : Nat → Nat) (hr : rounds_up roundup)
    (fresh1 fresh2 : List Nat) (bb : binary_buffer_t) (frame1 frame2 : h2_frame_t)
    (hroom : bb.has_room ((FRAME_HEADER_SIZE + frame1.payload_length) +
      (FRAME_HEADER_SIZE + frame2.payload_length))) :
    ∃ bb1 bb2, h2_frame_emit roundup (some fresh1) bb frame1 = some (true, bb1) ∧
      h2_frame_emit roundup (some fresh2) bb1 frame2 = some (true, bb2) ∧
      bb2.written = bb.written ++ h2_frame_octets frame1 ++ h2_frame_octets frame2 ∧
      binary_buffer_size bb2 = binary_buffer_size bb + (9 + frame1.payload_length) +
        (9 + frame2.payload_length) ∧
      (∀ i, i < 9 + frame1.payload_length →
        binary_buffer_read_index bb1 (binary_buffer_size bb + i) = (h2_frame_octets frame1)[i]? ∧
        binary_buffer_read_index bb2 (binary_buffer_size bb + i) =
          binary_buffer_read_index bb1 (binary_buffer_size bb + i)) ∧
      (∀ i, i < 9 →
        binary_buffer_read_index bb2 (binary_buffer_size bb + (9 + frame1.payload_length) + i)
          = (h2_frame_header_octets frame2)[i]?) ∧
      (∀ i, i < frame2.payload_length →
        binary_buffer_read_index bb2
            (binary_buffer_size bb + (9 + frame1.payload_length) + 9 + i)
          = (h2_frame_payload_octets frame2.flags frame2.body)[i]?) := by
  have h9 : FRAME_HEADER_SIZE = 9 := rfl
  obtain ⟨hal, hs, hcap⟩ := hroom
  obtain ⟨bb1, hw1, hal1, hidx1, hle1, hwr1, hcap1, hrd1, _⟩ :=
    h2_frame_emit_reads roundup hr fresh1 bb frame1 hal hs (by omega)
  obtain ⟨bb2, hw2, _, hidx2, _, hwr2, _, hrd2, hold2⟩ :=
    h2_frame_emit_reads roundup hr fresh2 bb1 frame2 hal1 hle1 (by omega)
  unfold binary_buffer_size
  refine ⟨bb1, bb2, hw1, hw2, by rw [hwr2, hwr1], by omega, ?_, ?_, ?_⟩
  · intro i hi
    exact ⟨hrd1 i (by omega), hold2 _ (by omega)⟩
  · intro i hi
    have h := hrd2 i (by omega)
    rw [hidx1, h9] at h
    rw [show bb.index + (9 + frame1.payload_length) + i
      = bb.index + 9 + frame1.payload_length + i from by omega, h, h2_frame_octets,
      List.getElem?_append_left (by rw [h2_frame_header_octets_length]; omega)]
  · intro i hi
    have h := hrd2 (9 + i) (by omega)
    rw [hidx1, h9] at h
    rw [show bb.index + (9 + frame1.payload_length) + 9 + i
      = bb.index + 9 + frame1.payload_length + (9 + i) from by omega, h, h2_frame_octets,
      List.getElem?_append_right (by rw [h2_frame_header_octets_length]; omega),
      h2_frame_header_octets_length, h9, Nat.add_sub_cancel_left]

/-- C8 on two DATA frames as in `test_h2_frame_emit_data_twice` (with a 4-byte first
payload), into the empty buffer of the test fixture. -/
theorem C8_emit_appends_witness :
    ∃ bb1 bb2, h2_frame_emit roundup_pow2 (some []) ⟨none, 0, 0⟩
          ⟨0, 0, 1, h2_frame_body.data [0, 0, 0, 0] 0⟩ = some (true, bb1) ∧
      h2_frame_emit roundup_pow2 (some []) bb1
          ⟨0, FLAG_END_STREAM, 1, h2_frame_body.data [1, 2, 3, 4, 5, 6, 7, 8, 9, 10] 0⟩
        = some (true, bb2) ∧
      binary_buffer_size bb2 = 0 + (9 + 4) + (9 + 10) ∧
      binary_buffer_read_index bb2 (0 + (9 + 4) + 2) = some 0xa ∧
      binary_buffer_read_index bb2 (0 + (9 + 4) + 9 + 9) = some 10 := by
  obtain ⟨bb1, bb2, hw1, hw2, _, hsz, _, hh, hp⟩ :=
    C8_emit_appends roundup_pow2 rounds_up_roundup_pow2 [] [] ⟨none, 0, 0⟩
      ⟨0, 0, 1, h2_frame_body.data [0, 0, 0, 0] 0⟩
      ⟨0, FLAG_END_STREAM, 1, h2_frame_body.data [1, 2, 3, 4, 5, 6, 7, 8, 9, 10] 0⟩
      (by decide)
  exact ⟨bb1, bb2, hw1, hw2, hsz, hh 2 (by decide), hp 9 (by decide)⟩

/-! ## Proofs: set-up of the master (`setup_workers`, `server_run`) -/

theorem setup_workers_copy_args_spec (rest : List String) :
    ∀ (i : Nat) (pre junk : List (Option (Option String))), pre.length = i + 1 →
      rest.length ≤ junk.length →
      setup_workers_copy_args rest i (pre ++ junk) =
        pre ++ rest.map (fun a => some (some a)) ++ junk.drop rest.length := by
  induction rest with
  | nil => intro i pre junk _ _; simp [setup_workers_copy_args]
  | cons a rest ih =>
    intro i pre junk hpre hlen
    cases junk with
    | nil => simp at hlen
    | cons j junk =>
      have hset : (pre ++ j :: junk).set (i + 1) (some (some a)) = (pre ++ [some (some a)]) ++ junk := by
        rw [List.set_append]
        simp [hpre]
      rw [setup_workers_copy_args, hset, ih (i + 1) (pre ++ [some (some a)]) junk (by simp [hpre])
        (by simpa using hlen)]
      simp

theorem setup_workers_args_spec (worker_path : String) (argv : List String)
    (hargc : 1 ≤ argv.length) :
    setup_workers_args worker_path argv =
      some (some worker_path) :: some (some "-a") ::
        ((argv.drop 1).map (fun a => some (some a)) ++ [some none]) := by
  obtain ⟨a0, rest, rfl⟩ : ∃ a0 rest, argv = a0 :: rest := by
    cases argv with
    | nil => simp at hargc
    | cons a0 rest => exact ⟨a0, rest, rfl⟩
  unfold setup_workers_args
  simp only [List.length_cons, List.drop_succ_cons, List.drop_zero]
  have h0 : ((List.replicate (rest.length + 1 + 2) (none : Option (Option String))).set 0
      (some (some worker_path))).set 1 (some (some "-a")) =
      [some (some worker_path), some (some "-a")] ++ List.replicate (rest.length + 1) none := by
    simp [List.replicate_succ]
  rw [h0, setup_workers_copy_args_spec rest 1 _ _ (by simp) (by simp)]
  have h1 : List.drop rest.length (List.replicate (rest.length + 1) (none : Option (Option String))) =
      [none] := by
    rw [List.drop_replicate]; simp
  rw [h1, List.set_append]
  simp

theorem drop_set_self {α : Type} (l : List α) (k : Nat) (x : α) (h : k < l.length) :
    (l.set k x).drop k = x :: l.drop (k + 1) := by
  induction l generalizing k with
  | nil => simp at h
  | cons a l ih =>
    cases k with
    | zero => simp
    | succ k => simpa using ih k (by simpa using h)

theorem setup_workers_loop_ok (env : server_run_env) (args : List (Option (Option String))) :
    ∀ (k : Nat) (s : server_t), (∀ j, j < k → 0 ≤ env.uv_spawn j) → k ≤ s.workers.length →
      s.active_workers + k < SIZE_MOD →
      setup_workers_loop env args k s =
        (true, { s with
          workers := List.replicate k { stopped := false } ++ s.workers.drop k
          active_workers := s.active_workers + k
          calls := s.calls ++ setup_workers_calls args k }) := by
  intro k
  induction k with
  | zero => intro s _ _ _; simp [setup_workers_loop, setup_workers_calls]
  | succ k ih =>
    intro s hsp hlen hact
    have hk : ¬ env.uv_spawn k < 0 := by have := hsp k (by omega); omega
    rw [setup_workers_loop]
    simp only [hk, if_false]
    rw [ih _ (fun j hj => hsp j (by omega)) (by simp; omega)
      (by simp only [size_incr_eq s.active_workers (by omega)]; omega)]
    simp only [size_incr_eq s.active_workers (by omega)]
    rw [drop_set_self s.workers k _ (by omega)]
    simp [setup_workers_calls, List.replicate_succ', Nat.add_assoc, Nat.add_comm 1 k]

theorem setup_workers_loop_calls (env : server_run_env) (args : List (Option (Option String))) :
    ∀ (k : Nat) (s : server_t), ∃ l, (setup_workers_loop env args k s).2.calls = s.calls ++ l ∧
      ∀ c ∈ l, (∃ j, c = uv_call.uv_pipe_init j) ∨ ∃ j, c = uv_call.uv_spawn j args := by
  intro k
  induction k with
  | zero => intro s; exact ⟨[], by simp [setup_workers_loop], by simp⟩
  | succ k ih =>
    intro s
    rw [setup_workers_loop]
    split
    · exact ⟨[uv_call.uv_pipe_init k, uv_call.uv_spawn k args], rfl, by simp⟩
    · obtain ⟨l, h1, h2⟩ := ih { s with
          workers := s.workers.set k { stopped := false }
          calls := s.calls ++ [uv_call.uv_pipe_init k, uv_call.uv_spawn k args]
          active_workers := size_incr s.active_workers }
      refine ⟨[uv_call.uv_pipe_init k, uv_call.uv_spawn k args] ++ l, ?_, ?_⟩
      · rw [h1]; simp
      · intro c hc
        simp only [List.mem_append, List.mem_cons, List.mem_singleton, List.not_mem_nil, or_false] at hc
        rcases hc with (hc | hc) | hc
        · exact Or.inl ⟨k, hc⟩
        · exact Or.inr ⟨k, hc⟩
        · exact h2 c hc

theorem server_run_listen_ok (env : server_run_env) (rest : List listen_address_t) :
    ∀ (index : Nat) (s : server_t) (pre : List listen_address_t),
      s.config.address_list = pre ++ rest → pre.length = index →
      (∀ i, index ≤ i → i < index + rest.length → env.uv_ip4_addr i = 0 ∧ env.uv_listen i = 0) →
      server_run_listen env rest index s =
        (true, { s with
          config := { s.config with address_list := pre ++ indexed_addresses index rest }
          tcp_list := (List.range' index rest.length).reverse ++ s.tcp_list
          active_listeners := index + rest.length
          calls := s.calls ++ server_run_listen_calls index rest.length }) := by
  induction rest with
  | nil =>
    intro index s pre h _ _
    simp [server_run_listen, indexed_addresses, server_run_listen_calls, ← h]
  | cons curr rest ih =>
    intro index s pre h hpre hok
    obtain ⟨h1, h2⟩ := hok index (by omega) (by simp)
    rw [server_run_listen]
    simp only [h1, h2, ne_eq, not_true_eq_false, if_false]
    have hset : s.config.address_list.set index { curr with index := index } =
        (pre ++ [{ curr with index := index }]) ++ rest := by
      rw [h, List.set_append]; simp [hpre]
    rw [ih (index + 1) _ (pre ++ [{ curr with index := index }]) (by simp [hset]) (by simp [hpre])
      (fun i hi1 hi2 => hok i (by omega) (by simp; omega))]
    simp [indexed_addresses, server_run_listen_calls, List.range'_succ, Nat.add_assoc,
      Nat.add_comm 1 rest.length]

theorem indexed_addresses_length (l : List listen_address_t) :
    ∀ k, (indexed_addresses k l).length = l.length := by
  induction l with
  | nil => intro k; rfl
  | cons a l ih => intro k; simp [indexed_addresses, ih]

theorem indexed_addresses_getElem (l : List listen_address_t) :
    ∀ (k i : Nat), (indexed_addresses k l)[i]? = l[i]?.map (fun a => { a with index := k + i }) := by
  induction l with
  | nil => intro k i; simp [indexed_addresses]
  | cons a l ih =>
    intro k i
    cases i with
    | zero => simp [indexed_addresses]
    | succ i => simp [indexed_addresses, ih, Nat.add_assoc, Nat.add_comm 1 i]

theorem setup_workers_ok (env : server_run_env) (s : server_t)
    (hint : s.config.num_workers % 2 ^ 32 < 2 ^ 31)
    (hspawn : ∀ j, j < s.config.num_workers % 2 ^ 32 → 0 ≤ env.uv_spawn j)
    (hsize : s.active_workers + s.config.num_workers % 2 ^ 32 < SIZE_MOD) :
    setup_workers env s =
      some (true, { s with
        workers := List.replicate (s.config.num_workers % 2 ^ 32) { stopped := false }
        active_workers := s.active_workers + s.config.num_workers % 2 ^ 32
        calls := s.calls ++ setup_workers_calls
          (setup_workers_args env.worker_path s.config.argv) (s.config.num_workers % 2 ^ 32) }) := by
  have h := setup_workers_loop_ok env (setup_workers_args env.worker_path s.config.argv)
    (s.config.num_workers % 2 ^ 32)
    { s with workers := List.replicate (s.config.num_workers % 2 ^ 32) env.stale }
    hspawn (by simp) hsize
  unfold setup_workers
  dsimp only
  rw [if_pos hint, h]
  simp

theorem server_run_ok (env : server_run_env) (config : server_config_t)
    (hint : config.num_workers % 2 ^ 32 < 2 ^ 31)
    (hspawn : ∀ j, j < config.num_workers % 2 ^ 32 → 0 ≤ env.uv_spawn j)
    (hlisten : ∀ i, i < config.address_list.length → env.uv_ip4_addr i = 0 ∧ env.uv_listen i = 0) :
    server_run env (server_init config) = some (true, server_running env config) := by
  have hM := size_mod_eq
  have hsetup := setup_workers_ok env (server_init config) hint hspawn
    (by simp only [server_init]; omega)
  unfold server_run
  rw [hsetup]
  dsimp only
  simp only [Bool.not_true, Bool.false_eq_true, if_false]
  rw [server_run_listen_ok env _ 0 _ [] (by simp [server_init]) rfl
    (fun i _ hi => hlisten i (by simpa [server_init] using hi))]
  simp [server_init, server_running, size_mod_eq]

theorem server_stop_continue_stopping (s : server_t) (h : s.stopping = true) :
    server_stop_continue s =
      if s.active_workers = 0 ∧ s.active_listeners = 0 ∧ s.active_handlers = 0 then
        { s with calls := s.calls ++ [uv_call.uv_stop] }
      else s := by
  rw [server_stop_continue]
  simp only [Nat.lt_one_iff]
  split
  · rfl
  · split
    · exact server_stop_of_stopping s h
    · rfl

theorem server_stop_continue_facts (s : server_t) (h : s.stopping = true) :
    (server_stop_continue s).stopping = true ∧
    (server_stop_continue s).active_handlers = s.active_handlers ∧
    (server_stop_continue s).active_listeners = s.active_listeners ∧
    (server_stop_continue s).active_workers = s.active_workers ∧
    (server_stop_continue s).calls.count uv_call.uv_stop = s.calls.count uv_call.uv_stop +
      (if s.active_workers = 0 ∧ s.active_listeners = 0 ∧ s.active_handlers = 0 then 1 else 0) := by
  rw [server_stop_continue_stopping s h]
  split <;> simp [h]

theorem count_stop_setup_workers_calls (args : List (Option (Option String))) (k : Nat) :
    (setup_workers_calls args k).count uv_call.uv_stop = 0 := by
  induction k with
  | zero => simp [setup_workers_calls]
  | succ k ih => simp [setup_workers_calls, List.count_cons, ih]

theorem count_stop_server_run_listen_calls (n : Nat) :
    ∀ i, (server_run_listen_calls i n).count uv_call.uv_stop = 0 := by
  induction n with
  | zero => intro i; simp [server_run_listen_calls]
  | succ n ih => intro i; simp [server_run_listen_calls, List.count_cons, ih]

theorem count_stop_server_running (env : server_run_env) (config : server_config_t) :
    (server_running env config).calls.count uv_call.uv_stop = 0 := by
  simp [server_running, List.count_append, count_stop_setup_workers_calls,
    count_stop_server_run_listen_calls, List.count_cons]

theorem spawned_workers_append (xs ys : List uv_call) :
    spawned_workers (xs ++ ys) = spawned_workers xs ++ spawned_workers ys := by
  induction xs with
  | nil => rfl
  | cons x xs ih => cases x <;> simp [spawned_workers, ih]

theorem setup_workers_loop_true (env : server_run_env) (args : List (Option (Option String))) :
    ∀ (m : Nat) (s : server_t), (setup_workers_loop env args m s).1 = true →
      ∀ j, j < m → 0 ≤ env.uv_spawn j := by
  intro m
  induction m with
  | zero => intro s _ j hj; omega
  | succ m ih =>
    intro s h j hj
    rw [setup_workers_loop] at h
    split at h
    · simp at h
    · rename_i hm
      rcases Nat.lt_succ_iff_lt_or_eq.mp hj with hlt | heq
      · exact ih _ h j hlt
      · subst heq; omega

theorem server_run_listen_true (env : server_run_env) (rest : List listen_address_t) :
    ∀ (index : Nat) (s : server_t), (server_run_listen env rest index s).1 = true →
      ∀ i, index ≤ i → i < index + rest.length → env.uv_ip4_addr i = 0 ∧ env.uv_listen i = 0 := by
  induction rest with
  | nil => intro index s _ i h1 h2; simp at h2; omega
  | cons curr rest ih =>
    intro index s h i h1 h2
    rw [server_run_listen] at h
    dsimp only at h
    by_cases ha : env.uv_ip4_addr index = 0
    · by_cases hb : env.uv_listen index = 0
      · simp only [ha, hb, ne_eq, not_true_eq_false, if_false] at h
        rcases Nat.eq_or_lt_of_le h1 with heq | hlt
        · subst heq; exact ⟨ha, hb⟩
        · exact ih _ _ h i hlt (by simp at h2; omega)
      · simp [ha, hb] at h
    · simp [ha] at h

/-- A run of `server_run` that returns true went through a run of `setup_workers` that returned
true and a run of the listen loop that returned true. -/
theorem server_run_some_true (env : server_run_env) (s s1 : server_t)
    (h : server_run env s = some (true, s1)) :
    ∃ r, setup_workers env s = some (true, r) ∧
      (server_run_listen env r.config.address_list 0
        { r with calls := r.calls ++ [uv_call.uv_signal_start uv_handle.sigpipe_handler SIGPIPE,
          uv_call.uv_signal_start uv_handle.sigint_handler SIGINT,
          uv_call.uv_signal_start uv_handle.sigterm_handler SIGTERM] }).1 = true := by
  unfold server_run at h
  cases hsw : setup_workers env s with
  | none => rw [hsw] at h; cases h
  | some r =>
    rw [hsw] at h
    obtain ⟨b, r⟩ := r
    cases b with
    | false => cases h
    | true =>
      refine ⟨r, rfl, ?_⟩
      dsimp only at h
      by_contra hc
      rw [Bool.not_eq_true] at hc
      rw [hc] at h
      cases h

/-- A run of `server_run` from `server_init` returns true only when the `int` copy of
`num_workers` is not negative and every spawn, address conversion and listen succeeds, and
the server is then `server_running`. -/
theorem server_run_true (env : server_run_env) (config : server_config_t) (s1 : server_t)
    (h : server_run env (server_init config) = some (true, s1)) :
    config.num_workers % 2 ^ 32 < 2 ^ 31 ∧
    (∀ j, j < config.num_workers % 2 ^ 32 → 0 ≤ env.uv_spawn j) ∧
    (∀ i, i < config.address_list.length → env.uv_ip4_addr i = 0 ∧ env.uv_listen i = 0) ∧
    s1 = server_running env config := by
  obtain ⟨r, hr, hl⟩ := server_run_some_true env _ _ h
  have hint : config.num_workers % 2 ^ 32 < 2 ^ 31 := by
    by_contra hc
    have : setup_workers env (server_init config) = none := by
      unfold setup_workers
      dsimp only
      exact if_neg hc
    rw [this] at hr
    cases hr
  have hsetup : setup_workers env (server_init config) = some (setup_workers_loop env
      (setup_workers_args env.worker_path config.argv) (config.num_workers % 2 ^ 32)
      { server_init config with
        workers := List.replicate (config.num_workers % 2 ^ 32) env.stale }) := by
    unfold setup_workers
    dsimp only
    exact if_pos hint
  have hspawn : ∀ j, j < config.num_workers % 2 ^ 32 → 0 ≤ env.uv_spawn j := by
    apply setup_workers_loop_true env (setup_workers_args env.worker_path config.argv)
      (config.num_workers % 2 ^ 32)
      { server_init config with
        workers := List.replicate (config.num_workers % 2 ^ 32) env.stale }
    rw [hsetup] at hr
    have := Option.some.inj hr
    rw [this]
  have hM := size_mod_eq
  have hok := setup_workers_ok env (server_init config) hint hspawn
    (by simp only [server_init]; omega)
  have hlisten : ∀ i, i < config.address_list.length →
      env.uv_ip4_addr i = 0 ∧ env.uv_listen i = 0 := by
    rw [hok] at hr
    have hr2 := (Prod.mk.inj (Option.some.inj hr)).2
    have hcfg : r.config = config := by rw [← hr2]; rfl
    intro i hi
    refine server_run_listen_true env _ 0 _ hl i (Nat.zero_le _) ?_
    rw [hcfg]
    omega
  refine ⟨hint, hspawn, hlisten, ?_⟩
  have := server_run_ok env config hint hspawn hlisten
  rw [h] at this
  exact (Prod.mk.inj (Option.some.inj this)).2

/-- Where the `int` copy of `num_workers` is negative, `server_run` has no defined result. -/
theorem server_run_undefined (env : server_run_env) (s : server_t)
    (h : 2 ^ 31 ≤ s.config.num_workers % 2 ^ 32) : server_run env s = none := by
  have : setup_workers env s = none := by
    unfold setup_workers
    dsimp only
    rw [if_neg (by omega)]
  unfold server_run
  rw [this]

/-- At `num_workers = 2^31` the `int` copy is negative: `server_run` has no defined result. -/
theorem server_run_config_workers_2_31 (env : server_run_env) :
    server_run env (server_init config_workers_2_31) = none :=
  server_run_undefined env _ (by decide)

/-! ## The claims about set-up and shutdown of the master -/

/-- C11: for an argument vector with `argc >= 1` entries, the array `setup_workers` hands to
every spawned worker is the executable path, then "-a", then `argv[1] .. argv[argc-1]` in
order, then `NULL`: `argc + 1` entries before the terminator, "-a" the second, and every
original argument after `argv[0]` one position later than in `argv`. -/
theorem C11_worker_argument_vector (env : server_run_env) (config : server_config_t)
    (hargc : 1 ≤ config.argc) :
    setup_workers_args env.worker_path config.argv =
        some (some env.worker_path) :: some (some "-a") ::
          ((config.argv.drop 1).map (fun a => some (some a)) ++ [some none]) ∧
    (setup_workers_args env.worker_path config.argv).length = config.argc + 2 ∧
    (setup_workers_args env.worker_path config.argv)[1]? = some (some (some "-a")) ∧
    (setup_workers_args env.worker_path config.argv)[config.argc + 1]? = some (some none) ∧
    (∀ i, 1 ≤ i → i < config.argc →
      (setup_workers_args env.worker_path config.argv)[i + 1]? =
        (config.argv[i]?).map (fun a => some (some a))) ∧
    (∀ r, setup_workers env (server_init config) = some r →
      ∀ j args, uv_call.uv_spawn j args ∈ r.2.calls →
        args = setup_workers_args env.worker_path config.argv) ∧
    ∀ (k : Nat) (s : server_t) j args,
      uv_call.uv_spawn j args ∈
        (setup_workers_loop env (setup_workers_args env.worker_path config.argv) k s).2.calls →
      uv_call.uv_spawn j args ∈ s.calls ∨
        args = setup_workers_args env.worker_path config.argv := by
  have hspec := setup_workers_args_spec env.worker_path config.argv hargc
  have hloop : ∀ (k : Nat) (s : server_t) j args,
      uv_call.uv_spawn j args ∈
        (setup_workers_loop env (setup_workers_args env.worker_path config.argv) k s).2.calls →
      uv_call.uv_spawn j args ∈ s.calls ∨
        args = setup_workers_args env.worker_path config.argv := by
    intro k s j args hmem
    obtain ⟨l, h1, h2⟩ := setup_workers_loop_calls env
      (setup_workers_args env.worker_path config.argv) k s
    rw [h1, List.mem_append] at hmem
    rcases hmem with hmem | hmem
    · exact Or.inl hmem
    · rcases h2 _ hmem with ⟨i, hi⟩ | ⟨i, hi⟩
      · cases hi
      · cases hi; exact Or.inr rfl
  unfold server_config_t.argc at hargc ⊢
  refine ⟨hspec, ?_, ?_, ?_, ?_, ?_, hloop⟩
  · rw [hspec]; simp; omega
  · rw [hspec]; simp
  · rw [hspec]
    have : config.argv.length + 1 = (config.argv.length - 1) + 1 + 1 := by omega
    rw [this]
    simp only [List.getElem?_cons_succ]
    rw [List.getElem?_append_right (by simp)]
    simp
  · intro i h1 h2
    rw [hspec]
    obtain ⟨k, rfl⟩ : ∃ k, i = k + 1 := ⟨i - 1, by omega⟩
    simp only [List.getElem?_cons_succ]
    rw [List.getElem?_append_left (by simp; omega)]
    simp [List.getElem?_map, List.getElem?_drop, Nat.add_comm 1 k]
  · intro r hr j args hmem
    unfold setup_workers at hr
    dsimp only at hr
    split at hr
    · simp only [Option.some.injEq] at hr
      subst hr
      rcases hloop _ _ j args hmem with h | h
      · simp [server_init] at h
      · exact h
    · simp at hr

/-- C11 at the invocation `galactic -p 8443`. -/
theorem C11_worker_argument_vector_witness :
    1 ≤ config_two_by_two.argc ∧
    setup_workers_args env_all_ok.worker_path config_two_by_two.argv =
      [some (some "/usr/local/bin/galactic"), some (some "-a"), some (some "-p"),
       some (some "8443"), some none] ∧
    ∃ r, setup_workers env_all_ok (server_init config_two_by_two) = some r ∧
      uv_call.uv_spawn 1 [some (some "/usr/local/bin/galactic"), some (some "-a"),
          some (some "-p"), some (some "8443"), some none] ∈ r.2.calls :=
  ⟨by decide, (C11_worker_argument_vector env_all_ok config_two_by_two (by decide)).1,
    _, rfl, by decide⟩

/-- C12: `server_run` returns true when the `int` copy of `num_workers` is not negative and
every worker is spawned and every address listened on; and whenever `server_run` returns true,
the address at position `i` of the list carries `index = i`, and a connection accepted on its
listener is handed over with a payload of exactly one byte, the low 8 bits of `i`. -/
theorem C12_listen_address_index (env : server_run_env) (config : server_config_t) :
    (config.num_workers % 2 ^ 32 < 2 ^ 31 →
      (∀ j, j < config.num_workers % 2 ^ 32 → 0 ≤ env.uv_spawn j) →
      (∀ i, i < config.address_list.length → env.uv_ip4_addr i = 0 ∧ env.uv_listen i = 0) →
      ∃ s1, server_run env (server_init config) = some (true, s1)) ∧
    ∀ s1, server_run env (server_init config) = some (true, s1) →
    ∀ i, i < config.address_list.length →
      (s1.config.address_list[i]?).map listen_address_t.index = some i ∧
      ∀ (s : server_t) (status accept_result : Int),
        s.config = s1.config →
        status ≠ -1 → accept_result = 0 →
        s.round_robin_counter < s.workers.length → s.config.num_workers ≠ 0 →
        ∃ s', server_listener_connection s i status accept_result = some s' ∧
          s'.calls = s.calls ++ [uv_call.uv_write2 s.round_robin_counter [i % 256]] := by
  refine ⟨fun hint hspawn hlisten => ⟨_, server_run_ok env config hint hspawn hlisten⟩, ?_⟩
  intro s1 hrun i hi
  obtain ⟨_, _, _, hs1⟩ := server_run_true env config s1 hrun
  subst hs1
  have hget : (server_running env config).config.address_list[i]? =
      (config.address_list[i]?).map (fun a => { a with index := i }) := by
    simp [server_running, indexed_addresses_getElem]
  obtain ⟨a, ha⟩ : ∃ a, config.address_list[i]? = some a :=
    ⟨config.address_list[i], List.getElem?_eq_getElem hi⟩
  rw [ha] at hget
  refine ⟨by rw [hget]; rfl, ?_⟩
  intro s status accept_result hcfg hstatus haccept hrr hnw
  unfold server_listener_connection
  rw [hcfg, hget]
  simp only [Option.map_some', server_on_new_connection, hstatus, haccept, if_false, if_true]
  rw [if_pos ⟨hrr, hnw⟩]
  exact ⟨_, rfl, rfl⟩

/-- C12 at two listen addresses: `server_run` returns true, and the connection accepted on the
second address is announced to the worker by the single byte 1. -/
theorem C12_listen_address_index_witness :
    ∃ s1, server_run env_all_ok (server_init config_two_by_two) = some (true, s1) ∧
      (s1.config.address_list[1]?).map listen_address_t.index = some 1 ∧
      ∃ s', server_listener_connection s1 1 0 0 = some s' ∧
        s'.calls = s1.calls ++ [uv_call.uv_write2 0 [1]] := by
  have h := C12_listen_address_index env_all_ok config_two_by_two
  obtain ⟨s1, hrun⟩ := h.1 (by decide) (fun _ _ => le_refl _) (fun _ _ => ⟨rfl, rfl⟩)
  obtain ⟨_, _, _, hs1⟩ := server_run_true env_all_ok config_two_by_two s1 hrun
  have h2 := h.2 s1 hrun 1 (by decide)
  have h3 := h2.2 s1 0 0 rfl (by decide) rfl (by rw [hs1]; decide) (by rw [hs1]; decide)
  refine ⟨s1, hrun, h2.1, ?_⟩
  rw [hs1] at h3 ⊢
  exact h3

/-- C13: when `worker_on_new_connection` is called with `nread < 0` it closes the queue pipe
and sets up no client; when it is called with `nread >= 0` and the pipe has no pending
handle it returns with the worker unchanged: no client record, no connection engine, no
accepted socket. -/
theorem C13_no_client_without_pending_handle (worker : worker_t) (e : queue_read_t) :
    (e.nread < 0 →
      worker_on_new_connection worker e =
        some { worker with calls := worker.calls ++ [worker_loop_call.uv_close_queue] }) ∧
    (0 ≤ e.nread → e.pending_count = 0 → worker_on_new_connection worker e = some worker) := by
  constructor
  · intro h
    simp [worker_on_new_connection, h]
  · intro h1 h2
    have : ¬ e.nread < 0 := by omega
    simp [worker_on_new_connection, this, h2]

/-- C13 at a read error on the queue pipe and at a read with nothing pending. -/
theorem C13_no_client_without_pending_handle_witness :
    worker_on_new_connection worker_with_write_in_flight
        ⟨-32, 1, true, true, some ⟨0, false, false, false, none, []⟩, 0⟩ =
      some { worker_with_write_in_flight with calls := [worker_loop_call.uv_close_queue] } ∧
    worker_on_new_connection worker_with_write_in_flight
        ⟨1, 0, true, true, some ⟨0, false, false, false, none, []⟩, 0⟩ =
      some worker_with_write_in_flight :=
  ⟨(C13_no_client_without_pending_handle worker_with_write_in_flight
      ⟨-32, 1, true, true, some ⟨0, false, false, false, none, []⟩, 0⟩).1 (by decide),
   (C13_no_client_without_pending_handle worker_with_write_in_flight
      ⟨1, 0, true, true, some ⟨0, false, false, false, none, []⟩, 0⟩).2 (by decide) rfl⟩

/-- C17: `worker_read_from_network` called with `nread < 0`: if `nread` is `UV_EOF` it sets
the `eof` flag of the client and calls `http_connection_eof`, and does not close the socket;
for any other negative `nread` it closes the socket, leaves `eof` as it was and does not call
`http_connection_eof`. -/
theorem C17_read_error_or_eof (use_tls tls_ok : Bool) (client : client_t) (nread : Int)
    (hneg : nread < 0) :
    (nread = UV_EOF →
      worker_read_from_network use_tls client nread tls_ok =
        { client with eof := true, calls := client.calls ++ [worker_call.http_connection_eof] }) ∧
    (nread ≠ UV_EOF →
      worker_read_from_network use_tls client nread tls_ok =
        { client with calls := client.calls ++ [worker_call.uv_close_tcp] }) := by
  constructor
  · intro h
    subst h
    simp [worker_read_from_network, worker_notify_eof, hneg]
  · intro h
    simp [worker_read_from_network, hneg, h]

/-- C17 at end of stream and at a connection reset. -/
theorem C17_read_error_or_eof_witness :
    UV_EOF < 0 ∧
    worker_read_from_network false ⟨0, false, false, false, none, []⟩ UV_EOF true =
      ⟨0, true, false, false, none, [worker_call.http_connection_eof]⟩ ∧
    worker_read_from_network false ⟨0, false, false, false, none, []⟩ (-104) true =
      ⟨0, false, false, false, none, [worker_call.uv_close_tcp]⟩ :=
  ⟨by decide,
   (C17_read_error_or_eof false true ⟨0, false, false, false, none, []⟩ UV_EOF (by decide)).1 rfl,
   (C17_read_error_or_eof false true ⟨0, false, false, false, none, []⟩ (-104) (by decide)).2
     (by decide)⟩

/-- C18 (as given) fails: a worker with a response write in flight on an open connection
that receives SIGINT stops its event loop in the handler itself; the only call it makes is
`uv_stop`, the connection gets no write (so no GOAWAY frame) and its write is still in
flight. -/
theorem C18_counterexample :
    (worker_sigint_handler worker_with_write_in_flight SIGINT).calls =
      [worker_loop_call.uv_stop] ∧
    (worker_sigint_handler worker_with_write_in_flight SIGINT).clients =
      [⟨1, false, false, false, none,
        [worker_call.http_connection_read 24, worker_call.uv_write 9]⟩] := by
  decide

/-- C18 (amended): on SIGINT a worker whose `terminate` flag is clear sets the flag, calls
`plugin_stop` on each plugin in list order and then `uv_stop` on its event loop, all within
the handler; it makes no other call and leaves every client record as it was. A worker whose
flag is already set does nothing. -/
theorem C18_sigint_stops_loop_at_once (worker : worker_t) (signum : Nat) :
    worker_sigint_handler worker signum =
      (if worker.terminate then worker
       else { worker with
         terminate := true
         calls := worker.calls ++ worker.plugins.map worker_loop_call.plugin_stop ++
           [worker_loop_call.uv_stop] }) ∧
    (worker_sigint_handler worker signum).clients = worker.clients := by
  unfold worker_sigint_handler worker_stop
  cases h : worker.terminate <;> simp [h]

/-- C18 (amended) at a worker with two plugins and the flag clear: both plugins are stopped,
then the loop. -/
theorem C18_sigint_stops_loop_at_once_witness :
    worker_sigint_handler ⟨false, false, [0, 1], [], []⟩ SIGINT =
      ⟨false, true, [0, 1], [],
        [worker_loop_call.plugin_stop 0, worker_loop_call.plugin_stop 1,
         worker_loop_call.uv_stop]⟩ := by
  simpa using (C18_sigint_stops_loop_at_once ⟨false, false, [0, 1], [], []⟩ SIGINT).1

/-! ## The claims about PING, GOAWAY and the fresh buffer -/

theorem h2_frame_octets_ping (length f : Nat) (d : List Nat) (hd : d.length = 8)
    (hf : f < 256) :
    h2_frame_octets ⟨length, f, 0, h2_frame_body.ping d⟩ = [0, 0, 8, 6, f, 0, 0, 0, 0] ++ d := by
  simp [h2_frame_octets, h2_frame_header_octets, h2_frame_t.payload_length,
    h2_frame_payload_octets, h2_frame_t.type, h2_frame_body.type, FRAME_TYPE_PING, be24, be32,
    hd, Nat.mod_eq_of_lt hf]

theorem h2_frame_octets_goaway (length flags stream_id last_stream_id error_code : Nat)
    (debug_data : List Nat) (hf : flags < 256) (hs : stream_id < 2 ^ 31)
    (hl : last_stream_id < 2 ^ 31) :
    h2_frame_octets ⟨length, flags, stream_id,
        h2_frame_body.goaway last_stream_id error_code debug_data⟩ =
      be24 (8 + debug_data.length) ++ [7, flags] ++ be32 stream_id ++
        (be32 last_stream_id ++ be32 error_code ++ debug_data) := by
  have e1 : stream_id % 2147483648 = stream_id := Nat.mod_eq_of_lt (by omega)
  have e2 : last_stream_id % 2147483648 = last_stream_id := Nat.mod_eq_of_lt (by omega)
  simp [h2_frame_octets, h2_frame_header_octets, h2_frame_t.payload_length,
    h2_frame_payload_octets, h2_frame_t.type, h2_frame_body.type, FRAME_TYPE_GOAWAY, be24, be32,
    Nat.mod_eq_of_lt hf, e1, e2, Nat.add_comm debug_data.length 8]

/-- C15: for every 8-octet opaque data `d` and every flags octet `f`, emitting a PING frame
on stream 0 (allocator succeeding, buffer with room) appends exactly the 17 bytes
`00 00 08 06 f 00 00 00 00` followed by `d`. -/
theorem C15_ping_encoding (roundup : Nat → Nat) (hr : rounds_up roundup)
    (fresh : List Nat) (bb : binary_buffer_t) (length f : Nat) (d : List Nat)
    (hd : d.length = 8) (hf : f < 256) (hroom : bb.has_room 17) :
    ∃ bb', h2_frame_emit roundup (some fresh) bb ⟨length, f, 0, h2_frame_body.ping d⟩ =
        some (true, bb') ∧
      binary_buffer_size bb' = binary_buffer_size bb + 17 ∧
      bb'.written = bb.written ++ ([0, 0, 8, 6, f, 0, 0, 0, 0] ++ d) ∧
      ([0, 0, 8, 6, f, 0, 0, 0, 0] ++ d).length = 17 := by
  have hpl : (⟨length, f, 0, h2_frame_body.ping d⟩ : h2_frame_t).payload_length = 8 := by
    simp [h2_frame_t.payload_length, h2_frame_payload_octets, hd]
  obtain ⟨bb', hw, _, hidx, _, hwr, _⟩ := h2_frame_emit_room roundup hr fresh bb
    ⟨length, f, 0, h2_frame_body.ping d⟩ (by rw [hpl]; exact hroom)
  refine ⟨bb', hw, ?_, ?_, by simp [hd]⟩
  · rw [hpl] at hidx
    simpa [binary_buffer_size, FRAME_HEADER_SIZE, Nat.add_assoc] using hidx
  · rw [hwr, h2_frame_octets_ping length f d hd hf]

/-- C15 on the PING of `test_h2_frame_emit_ping_ack`, into the empty buffer of the test
fixture. -/
theorem C15_ping_encoding_witness :
    ∃ bb', h2_frame_emit roundup_pow2 (some []) ⟨none, 0, 0⟩
        ⟨0, FLAG_ACK, 0, h2_frame_body.ping [0xde, 0xad, 0xbe, 0xef, 0xde, 0xad, 0xbe, 0xef]⟩ =
        some (true, bb') ∧
      binary_buffer_size bb' = 17 ∧
      bb'.written = [0, 0, 8, 6, 1, 0, 0, 0, 0, 0xde, 0xad, 0xbe, 0xef, 0xde, 0xad, 0xbe, 0xef] := by
  obtain ⟨bb', h1, h2, h3, _⟩ := C15_ping_encoding roundup_pow2 rounds_up_roundup_pow2 []
    ⟨none, 0, 0⟩ 0 FLAG_ACK [0xde, 0xad, 0xbe, 0xef, 0xde, 0xad, 0xbe, 0xef] rfl (by decide)
    (by decide)
  exact ⟨bb', h1, by simpa [binary_buffer_size] using h2, by simpa [binary_buffer_t.written] using h3⟩

/-- A GOAWAY frame with `2^24 - 8` octets of debug data, emitted into the empty buffer: the
three length octets are zero and `17 + (2^24 - 8)` bytes are appended. -/
theorem h2_frame_emit_goaway_2_24 (d : List Nat) (hd : d.length = 2 ^ 24 - 8) :
    ∃ bb', h2_frame_emit roundup_pow2 (some []) ⟨none, 0, 0⟩
          ⟨0, 0, 0, h2_frame_body.goaway 1 2 d⟩ = some (true, bb') ∧
      binary_buffer_read_index bb' 0 = some 0 ∧
      binary_buffer_read_index bb' 1 = some 0 ∧
      binary_buffer_read_index bb' 2 = some 0 ∧
      binary_buffer_size bb' = 17 + (2 ^ 24 - 8) := by
  have hpl : (⟨0, 0, 0, h2_frame_body.goaway 1 2 d⟩ : h2_frame_t).payload_length = 16777216 := by
    simp [h2_frame_t.payload_length, h2_frame_payload_octets, be32, hd]
  have hroom : (⟨none, 0, 0⟩ : binary_buffer_t).has_room
      (FRAME_HEADER_SIZE + (⟨0, 0, 0, h2_frame_body.goaway 1 2 d⟩ : h2_frame_t).payload_length) := by
    rw [hpl]
    exact ⟨by decide, by decide, by decide⟩
  obtain ⟨bb', hw, h0, h1, h2, _⟩ := h2_frame_emit_layout roundup_pow2 rounds_up_roundup_pow2 []
    ⟨none, 0, 0⟩ ⟨0, 0, 0, h2_frame_body.goaway 1 2 d⟩ hroom
  obtain ⟨bb'', hw', _, hidx, _⟩ := h2_frame_emit_room roundup_pow2 rounds_up_roundup_pow2 []
    ⟨none, 0, 0⟩ ⟨0, 0, 0, h2_frame_body.goaway 1 2 d⟩ hroom
  rw [hw] at hw'
  obtain rfl : bb' = bb'' := by simpa using hw'
  rw [hpl] at h0 h1 h2 hidx
  refine ⟨bb', hw, ?_, ?_, ?_, ?_⟩
  · simpa [binary_buffer_size] using h0
  · simpa [binary_buffer_size] using h1
  · simpa [binary_buffer_size] using h2
  · simpa [binary_buffer_size, FRAME_HEADER_SIZE] using hidx

/-- C16 (as given) fails in two ways. A last stream id of `2^31 + 5` is written as
`00 00 00 05`, its top bit cleared, where its four big-endian bytes are `80 00 00 05`. And with
`2^24 - 8` octets of debug data the length field holds 0, not `8 + n = 2^24`, while
`17 + n` bytes are appended. -/
theorem C16_counterexample :
    (∃ bb', h2_frame_emit roundup_pow2 (some []) ⟨none, 0, 0⟩
          ⟨0, 0, 0, h2_frame_body.goaway (2 ^ 31 + 5) 0 []⟩ = some (true, bb') ∧
      bb'.written = [0, 0, 8, 7, 0, 0, 0, 0, 0, 0, 0, 0, 5, 0, 0, 0, 0] ∧
      be32 (2 ^ 31 + 5) = [128, 0, 0, 5]) ∧
    ∃ bb', h2_frame_emit roundup_pow2 (some []) ⟨none, 0, 0⟩
          ⟨0, 0, 0, h2_frame_body.goaway 1 2 (List.replicate (2 ^ 24 - 8) 0)⟩ = some (true, bb') ∧
      binary_buffer_read_index bb' 0 = some 0 ∧
      binary_buffer_read_index bb' 1 = some 0 ∧
      binary_buffer_read_index bb' 2 = some 0 ∧
      rd24 0 0 0 = 0 ∧
      binary_buffer_size bb' = 17 + (2 ^ 24 - 8) := by
  refine ⟨?_, ?_⟩
  · obtain ⟨bb', hw, _, _, _, hwr, _⟩ := h2_frame_emit_room roundup_pow2 rounds_up_roundup_pow2 []
      ⟨none, 0, 0⟩ ⟨0, 0, 0, h2_frame_body.goaway (2 ^ 31 + 5) 0 []⟩ (by decide)
    refine ⟨bb', hw, ?_, by decide⟩
    rw [hwr]
    decide
  · obtain ⟨bb', h, h0, h1, h2, hs⟩ :=
      h2_frame_emit_goaway_2_24 (List.replicate (2 ^ 24 - 8) 0) (List.length_replicate _ _)
    exact ⟨bb', h, h0, h1, h2, rfl, hs⟩

/-- C16 (amended): for a last stream id below `2^31`, a 32-bit error code and `n` octets of
debug data with `8 + n` below `2^24`, emitting a GOAWAY frame (allocator succeeding, buffer
with room) appends exactly `17 + n` bytes: a header whose length field holds `8 + n`, then
the last stream id as 4 big-endian bytes, the error code as 4 big-endian bytes, and the
debug data. -/
theorem C16_goaway_encoding (roundup : Nat → Nat) (hr : rounds_up roundup)
    (fresh : List Nat) (bb : binary_buffer_t)
    (length flags stream_id last_stream_id error_code : Nat) (debug_data : List Nat)
    (hf : flags < 256) (hs : stream_id < 2 ^ 31) (hl : last_stream_id < 2 ^ 31)
    (he : error_code < 2 ^ 32) (hn : 8 + debug_data.length < 2 ^ 24)
    (hroom : bb.has_room (17 + debug_data.length)) :
    ∃ bb', h2_frame_emit roundup (some fresh) bb
          ⟨length, flags, stream_id, h2_frame_body.goaway last_stream_id error_code debug_data⟩ =
        some (true, bb') ∧
      binary_buffer_size bb' = binary_buffer_size bb + (17 + debug_data.length) ∧
      bb'.written = bb.written ++
        ([(8 + debug_data.length) / 65536 % 256, (8 + debug_data.length) / 256 % 256,
          (8 + debug_data.length) % 256, 7, flags] ++ be32 stream_id ++
         ([last_stream_id / 16777216 % 256, last_stream_id / 65536 % 256,
           last_stream_id / 256 % 256, last_stream_id % 256] ++
          [error_code / 16777216 % 256, error_code / 65536 % 256,
           error_code / 256 % 256, error_code % 256] ++ debug_data)) ∧
      rd24 ((8 + debug_data.length) / 65536 % 256) ((8 + debug_data.length) / 256 % 256)
        ((8 + debug_data.length) % 256) = 8 + debug_data.length ∧
      rd32 (last_stream_id / 16777216 % 256) (last_stream_id / 65536 % 256)
        (last_stream_id / 256 % 256) (last_stream_id % 256) = last_stream_id ∧
      rd32 (error_code / 16777216 % 256) (error_code / 65536 % 256)
        (error_code / 256 % 256) (error_code % 256) = error_code := by
  have hoct := h2_frame_octets_goaway length flags stream_id last_stream_id error_code
    debug_data hf hs hl
  have hpl : (⟨length, flags, stream_id,
      h2_frame_body.goaway last_stream_id error_code debug_data⟩ : h2_frame_t).payload_length =
      8 + debug_data.length := by
    simp [h2_frame_t.payload_length, h2_frame_payload_octets, be32]; omega
  obtain ⟨bb', hw, _, hidx, _, hwr, _⟩ := h2_frame_emit_room roundup hr fresh bb
    ⟨length, flags, stream_id, h2_frame_body.goaway last_stream_id error_code debug_data⟩
    (by rw [hpl]; simpa [FRAME_HEADER_SIZE, ← Nat.add_assoc] using hroom)
  refine ⟨bb', hw, ?_, ?_, rd24_be24 _ hn, rd32_be32 _ (by omega), rd32_be32 _ he⟩
  · rw [hpl] at hidx
    simp only [binary_buffer_size, FRAME_HEADER_SIZE] at hidx ⊢
    omega
  · rw [hwr, hoct]
    simp [be24, be32]

/-- C16 (amended) on the GOAWAY of `test_h2_frame_emit_goaway_with_debug_data` with four
octets of debug data, into the empty buffer of the test fixture. -/
theorem C16_goaway_encoding_witness :
    ∃ bb', h2_frame_emit roundup_pow2 (some []) ⟨none, 0, 0⟩
        ⟨0, 0, 0, h2_frame_body.goaway 1 2 [0x57, 0x65, 0x6c, 0x6c]⟩ = some (true, bb') ∧
      binary_buffer_size bb' = 21 ∧
      bb'.written = [0, 0, 12, 7, 0, 0, 0, 0, 0, 0, 0, 0, 1, 0, 0, 0, 2, 0x57, 0x65, 0x6c, 0x6c] := by
  obtain ⟨bb', h1, h2, h3, _⟩ := C16_goaway_encoding roundup_pow2 rounds_up_roundup_pow2 []
    ⟨none, 0, 0⟩ 0 0 0 1 2 [0x57, 0x65, 0x6c, 0x6c] (by decide) (by decide) (by decide)
    (by decide) (by decide) (by decide)
  exact ⟨bb', h1, by simpa [binary_buffer_size] using h2,
    by simpa [binary_buffer_t.written, be32] using h3⟩

theorem binary_buffer_reset_ok (answer : Option (List Nat)) (b b' : binary_buffer_t)
    (c : Nat) (h : binary_buffer_reset answer b c = (true, b')) :
    b'.index = 0 ∧ b'.capacity = c ∧ b'.allocated := by
  unfold binary_buffer_reset at h
  by_cases hc : c > 0
  · simp only [hc, if_true] at h
    cases answer with
    | none => simp [realloc] at h
    | some fresh =>
      simp only [realloc, Option.isSome_some, if_true, Prod.mk.injEq, true_and] at h
      subst h
      simp [binary_buffer_t.allocated]
      omega
  · simp only [hc, if_false, Prod.mk.injEq, true_and] at h
    subst h
    simp [binary_buffer_t.allocated]
    omega

/-- C19: a buffer that `binary_buffer_init(b, c)` or `binary_buffer_reset(b, c)` has set up
successfully has size 0 and capacity `c`, whatever the record held before; and the first
write into it (allocator succeeding, at least one byte, sizes far from overflow) leaves a
size equal to the number of bytes written. -/
theorem C19_init_and_reset_empty_the_buffer (answer : Option (List Nat))
    (b b' : binary_buffer_t) (c : Nat)
    (h : binary_buffer_init answer b c = some b' ∨ binary_buffer_reset answer b c = (true, b')) :
    binary_buffer_size b' = 0 ∧ b'.capacity = c ∧ b'.written = [] ∧
    ∀ (roundup : Nat → Nat) (fresh v : List Nat), rounds_up roundup → 1 ≤ v.length →
      (c + v.length) * 2 ≤ 2 ^ 63 →
      ∃ b'', binary_buffer_write roundup (some fresh) b' v = some (true, b'') ∧
        binary_buffer_size b'' = v.length ∧ b''.written = v := by
  have hreset : ∃ b0, binary_buffer_reset answer b0 c = (true, b') := by
    rcases h with h | h
    · refine ⟨{ b with buf := none }, ?_⟩
      unfold binary_buffer_init at h
      dsimp only at h
      cases hr : (binary_buffer_reset answer { b with buf := none } c) with
      | mk r1 r2 =>
        rw [hr] at h
        cases r1 <;> simp at h
        rw [h]
    · exact ⟨b, h⟩
  obtain ⟨b0, h0⟩ := hreset
  obtain ⟨h1, h2, h3⟩ := binary_buffer_reset_ok answer b0 b' c h0
  have hwr : b'.written = [] := by simp [binary_buffer_t.written, h1]
  refine ⟨h1, h2, hwr, ?_⟩
  intro roundup fresh v hr hv hfit
  have hM := size_mod_eq
  obtain ⟨b'', hw, _, _, hidx, _, hwritten, _⟩ := binary_buffer_write_ok roundup hr fresh b' v h3
    (by omega) (by omega) (fun _ => by rw [h2]; exact hfit) (Or.inl hv)
  exact ⟨b'', hw, by simp [binary_buffer_size, hidx, h1], by rw [hwritten, hwr]; rfl⟩

/-- C19 on the fixture of check_h2_frame.c (`binary_buffer_init(&bb, 0)` on a record holding
leftovers) followed by a write of three bytes. -/
theorem C19_init_and_reset_empty_the_buffer_witness :
    binary_buffer_init (some []) ⟨some [9, 9], 2, 2⟩ 0 = some ⟨none, 0, 0⟩ ∧
    binary_buffer_size ⟨none, 0, 0⟩ = 0 ∧
    ∃ b'', binary_buffer_write roundup_pow2 (some []) ⟨none, 0, 0⟩ [1, 2, 3] = some (true, b'') ∧
      binary_buffer_size b'' = 3 := by
  have h0 : binary_buffer_init (some []) ⟨some [9, 9], 2, 2⟩ 0 = some ⟨none, 0, 0⟩ := by decide
  obtain ⟨h1, _, _, h4⟩ := C19_init_and_reset_empty_the_buffer (some []) ⟨some [9, 9], 2, 2⟩
    ⟨none, 0, 0⟩ 0 (Or.inl h0)
  obtain ⟨b'', h5, h6, _⟩ := h4 roundup_pow2 [] [1, 2, 3] rounds_up_roundup_pow2 (by decide)
    (by decide)
  exact ⟨h0, h1, b'', h5, h6⟩

/-! ## The claims about the round-robin counter, repeated stops and the last worker -/

theorem server_stop_stopping (s : server_t) : (server_stop s).stopping = true := by
  cases h : s.stopping with
  | true => rw [server_stop_of_stopping s h]; exact h
  | false =>
    rw [server_stop]
    simp only [h, Bool.not_false, if_true]
    exact (server_stop_continue_facts (server_stop_actions s) (by simp [server_stop_actions])).1

/-- C25: in a state with `stopping = true`, `server_stop`, and so each of the SIGINT and
SIGTERM handlers, returns the server exactly as it was: no field of the server or of a worker
changes and no call is made. Whatever the state `server_stop` is first called in, it leaves
`stopping = true`, so any number of further signals changes nothing. -/
theorem C25_server_stop_idempotent (s : server_t) (signum : Nat) (hstop : s.stopping = true) :
    server_stop s = s ∧
    server_sigint_handler s signum = s ∧
    server_sigterm_handler s signum = s ∧
    ∀ (s0 : server_t) (signals : List Nat),
      (server_stop s0).stopping = true ∧
      signals.foldl server_sigint_handler (server_stop s0) = server_stop s0 ∧
      signals.foldl server_sigterm_handler (server_stop s0) = server_stop s0 := by
  refine ⟨server_stop_of_stopping s hstop, server_stop_of_stopping s hstop,
    server_stop_of_stopping s hstop, ?_⟩
  intro s0 signals
  have h := server_stop_stopping s0
  refine ⟨h, ?_, ?_⟩
  · induction signals with
    | nil => rfl
    | cons x xs ih =>
      rw [List.foldl_cons]
      unfold server_sigint_handler at ih ⊢
      rw [server_stop_of_stopping _ h]; exact ih
  · induction signals with
    | nil => rfl
    | cons x xs ih =>
      rw [List.foldl_cons]
      unfold server_sigterm_handler at ih ⊢
      rw [server_stop_of_stopping _ h]; exact ih

/-- C25 at the master of two workers and two listeners after its first SIGINT: a SIGTERM
that follows leaves it as it is. -/
theorem C25_server_stop_idempotent_witness :
    (server_stop (server_running env_all_ok config_two_by_two)).stopping = true ∧
    server_sigterm_handler (server_stop (server_running env_all_ok config_two_by_two)) SIGTERM =
      server_stop (server_running env_all_ok config_two_by_two) :=
  ⟨server_stop_stopping _,
   (C25_server_stop_idempotent (server_stop (server_running env_all_ok config_two_by_two))
      SIGTERM (server_stop_stopping _)).2.2.1⟩

theorem server_stop_not_closed (s : server_t) (hstop : s.stopping = false)
    (hopen : 0 < s.active_workers ∨ 0 < s.active_listeners ∨ 0 < s.active_handlers) :
    server_stop s = server_stop_actions s := by
  rw [server_stop]
  simp only [hstop, Bool.not_false, if_true]
  rw [server_stop_continue_stopping _ (by simp [server_stop_actions])]
  rw [if_neg]
  simp only [server_stop_actions]
  omega

/-- C26: when `worker_pipe_closed` runs in a state with `stopping = false`, one active worker
left and a listener or signal handle still open, `server_stop_continue` goes through
`server_stop`: `stopping` becomes true, the three signal handles are stopped and closed and
every listener is closed; no worker is signalled and `uv_stop` is not called. -/
theorem C26_last_worker_lost_stops_server (s : server_t) (i : Nat) (stale : worker_process_t)
    (hstop : s.stopping = false) (hlast : s.active_workers = 1)
    (hopen : 0 < s.active_listeners ∨ 0 < s.active_handlers) :
    worker_pipe_closed s i stale =
      { s with
        workers := s.workers.set i stale
        active_workers := 0
        stopping := true
        calls := s.calls ++
          [uv_call.uv_signal_stop uv_handle.sigpipe_handler,
           uv_call.uv_signal_stop uv_handle.sigint_handler,
           uv_call.uv_signal_stop uv_handle.sigterm_handler,
           uv_call.uv_close uv_handle.sigpipe_handler,
           uv_call.uv_close uv_handle.sigint_handler,
           uv_call.uv_close uv_handle.sigterm_handler] ++
          s.tcp_list.map (fun i => uv_call.uv_close (uv_handle.tcp_listener i)) } ∧
    (worker_pipe_closed s i stale).calls.count uv_call.uv_stop = s.calls.count uv_call.uv_stop := by
  have hres : worker_pipe_closed s i stale = server_stop_actions
      { s with workers := s.workers.set i stale, active_workers := 0 } := by
    unfold worker_pipe_closed
    rw [size_decr_eq _ (by omega), show s.active_workers - 1 = 0 from by omega]
    rw [server_stop_continue]
    dsimp only
    rw [if_neg (by omega), if_pos (by omega)]
    exact server_stop_not_closed _ hstop (by dsimp only; omega)
  rw [hres]
  constructor
  · simp [server_stop_actions]
  · rw [count_stop_server_stop_actions]

/-- C26 at a master with one worker left, two listeners and its signal handles open. -/
theorem C26_last_worker_lost_stops_server_witness :
    (worker_pipe_closed
        { server_running env_all_ok config_two_by_two with active_workers := 1 } 0 ⟨true⟩).stopping
      = true ∧
    (worker_pipe_closed
        { server_running env_all_ok config_two_by_two with active_workers := 1 } 0 ⟨true⟩).calls.count
      uv_call.uv_stop = 0 ∧
    uv_call.uv_close (uv_handle.tcp_listener 1) ∈
      (worker_pipe_closed
        { server_running env_all_ok config_two_by_two with active_workers := 1 } 0 ⟨true⟩).calls := by
  obtain ⟨h1, h2⟩ := C26_last_worker_lost_stops_server
    { server_running env_all_ok config_two_by_two with active_workers := 1 } 0 ⟨true⟩ rfl rfl
    (Or.inl (by decide))
  refine ⟨by rw [h1], ?_, ?_⟩
  · rw [h2]; exact count_stop_server_running env_all_ok config_two_by_two
  · rw [h1]; decide

/-! ## The claim about spawn accounting -/

theorem setup_workers_loop_frame (env : server_run_env) (args : List (Option (Option String))) :
    ∀ (m : Nat) (s : server_t),
      (setup_workers_loop env args m s).2.config = s.config ∧
      (setup_workers_loop env args m s).2.tcp_list = s.tcp_list ∧
      (setup_workers_loop env args m s).2.active_listeners = s.active_listeners ∧
      (setup_workers_loop env args m s).2.active_handlers = s.active_handlers ∧
      (setup_workers_loop env args m s).2.stopping = s.stopping := by
  intro m
  induction m with
  | zero => intro s; simp [setup_workers_loop]
  | succ m ih =>
    intro s
    rw [setup_workers_loop]
    split
    · simp
    · have h := ih { s with
          workers := s.workers.set m { stopped := false }
          calls := s.calls ++ [uv_call.uv_pipe_init m, uv_call.uv_spawn m args]
          active_workers := size_incr s.active_workers }
      simpa using h

theorem setup_workers_loop_fails (env : server_run_env) (args : List (Option (Option String)))
    (k : Nat) (hk : env.uv_spawn k < 0) :
    ∀ (m : Nat) (s : server_t), k < m → (∀ j, k < j → j < m → 0 ≤ env.uv_spawn j) →
      s.active_workers + m < SIZE_MOD →
      (setup_workers_loop env args m s).1 = false ∧
      (setup_workers_loop env args m s).2.active_workers = s.active_workers + (m - 1 - k) ∧
      spawned_workers (setup_workers_loop env args m s).2.calls =
        spawned_workers s.calls ++ (List.range' k (m - k)).reverse := by
  intro m
  induction m with
  | zero => intro s h; omega
  | succ m ih =>
    intro s hkm hok hsize
    rw [setup_workers_loop]
    rcases Nat.lt_succ_iff_lt_or_eq.mp hkm with hlt | heq
    · have hm : ¬ env.uv_spawn m < 0 := by have := hok m hlt (by omega); omega
      simp only [hm, if_false]
      obtain ⟨h1, h2, h3⟩ := ih { s with
          workers := s.workers.set m { stopped := false }
          calls := s.calls ++ [uv_call.uv_pipe_init m, uv_call.uv_spawn m args]
          active_workers := size_incr s.active_workers } hlt
        (fun j hj1 hj2 => hok j hj1 (by omega))
        (by simp only [size_incr_eq s.active_workers (by omega)]; omega)
      refine ⟨h1, ?_, ?_⟩
      · rw [h2]; simp only [size_incr_eq s.active_workers (by omega)]; omega
      · rw [h3, spawned_workers_append]
        have e : m + 1 - k = (m - k) + 1 := by omega
        have e2 : k + (m - k) = m := by omega
        rw [e, List.range'_concat, List.reverse_append]
        simp [spawned_workers, e2]
    · subst heq
      simp only [hk, if_true]
      refine ⟨trivial, by simp, ?_⟩
      rw [spawned_workers_append]
      have e : k + 1 - k = 1 := by omega
      simp [spawned_workers, e]

theorem setup_workers_fits (env : server_run_env) (s : server_t)
    (hint : s.config.num_workers < 2 ^ 31) :
    setup_workers env s =
      some (setup_workers_loop env (setup_workers_args env.worker_path s.config.argv)
        s.config.num_workers
        { s with workers := List.replicate s.config.num_workers env.stale }) := by
  have e : s.config.num_workers % 2 ^ 32 = s.config.num_workers := Nat.mod_eq_of_lt (by omega)
  unfold setup_workers
  dsimp only
  rw [e, if_pos hint]

theorem server_run_of_setup_failed (env : server_run_env) (s : server_t) (r : Bool × server_t)
    (h : setup_workers env s = some r) (hr : r.1 = false) :
    server_run env s = some (false, r.2) := by
  unfold server_run
  rw [h]
  simp [hr]

/-- C27 (as given) fails: with `num_workers = 2^32` the `int` copy is 0, so `setup_workers`
spawns nothing and returns true with `active_workers` still 0, also when every spawn would
fail, and `server_run` goes on to listen and returns true. -/
theorem C27_counterexample :
    env_every_spawn_fails.uv_spawn 0 < 0 ∧
    0 < config_workers_2_32.num_workers ∧
    setup_workers env_every_spawn_fails (server_init config_workers_2_32) =
      some (true, server_init config_workers_2_32) ∧
    (server_init config_workers_2_32).active_workers = 0 ∧
    spawned_workers (server_init config_workers_2_32).calls = [] ∧
    ∃ s1, server_run env_every_spawn_fails (server_init config_workers_2_32) = some (true, s1) ∧
      s1.active_workers = 0 ∧ s1.active_listeners = 1 ∧
      uv_call.uv_listen 0 ∈ s1.calls := by
  refine ⟨by decide, by decide, by decide, rfl, rfl, _, server_run_ok env_every_spawn_fails
    config_workers_2_32 (by decide) (fun j hj => ?_) (fun _ _ => ⟨rfl, rfl⟩), by decide,
    by decide, by decide⟩
  have h0 : config_workers_2_32.num_workers % 2 ^ 32 = 0 := by decide
  omega

/-- C27 (amended): for `num_workers` at most `2^31 - 1`, the range of the `int` it is copied
to, `setup_workers` returns true exactly when every one of the `num_workers` spawns succeeds,
and `active_workers` has then grown by `num_workers`. The spawns run from worker
`num_workers - 1` down; if worker `k` is the first whose spawn fails, `setup_workers` returns
false with that spawn as its last, `active_workers` has grown by the `num_workers - 1 - k`
spawns that succeeded, and `server_run` returns false in that same state: no listener is
created, bound or listened on. -/
theorem C27_spawn_accounting (env : server_run_env) (s : server_t)
    (hint : s.config.num_workers < 2 ^ 31)
    (hsize : s.active_workers + s.config.num_workers < SIZE_MOD) :
    ∃ r, setup_workers env s = some r ∧
    (r.1 = true ↔ ∀ j, j < s.config.num_workers → 0 ≤ env.uv_spawn j) ∧
    (r.1 = true → r.2.active_workers = s.active_workers + s.config.num_workers) ∧
    (∀ k, k < s.config.num_workers → env.uv_spawn k < 0 →
      (∀ j, k < j → j < s.config.num_workers → 0 ≤ env.uv_spawn j) →
      r.1 = false ∧
      r.2.active_workers = s.active_workers + (s.config.num_workers - 1 - k) ∧
      spawned_workers r.2.calls =
        spawned_workers s.calls ++ (List.range' k (s.config.num_workers - k)).reverse ∧
      server_run env s = some (false, r.2) ∧
      r.2.tcp_list = s.tcp_list ∧
      r.2.active_listeners = s.active_listeners ∧
      ∀ c ∈ r.2.calls,
        c ∈ s.calls ∨ (∃ j, c = uv_call.uv_pipe_init j) ∨ ∃ j args, c = uv_call.uv_spawn j args) := by
  have hfits := setup_workers_fits env s hint
  have hok : (∀ j, j < s.config.num_workers → 0 ≤ env.uv_spawn j) →
      setup_workers_loop env (setup_workers_args env.worker_path s.config.argv)
        s.config.num_workers
        { s with workers := List.replicate s.config.num_workers env.stale } = (true, _) :=
    fun h =>
    setup_workers_loop_ok env (setup_workers_args env.worker_path s.config.argv)
      s.config.num_workers { s with workers := List.replicate s.config.num_workers env.stale }
      h (by simp) hsize
  refine ⟨_, hfits, ?_, ?_, ?_⟩
  · constructor
    · intro h
      exact setup_workers_loop_true env _ _ _ h
    · intro h
      rw [hok h]
  · intro h
    rw [hok (setup_workers_loop_true env _ _ _ h)]
  · intro k hk hfail hbefore
    obtain ⟨h1, h2, h3⟩ := setup_workers_loop_fails env
      (setup_workers_args env.worker_path s.config.argv) k hfail s.config.num_workers
      { s with workers := List.replicate s.config.num_workers env.stale } hk hbefore hsize
    obtain ⟨_, f2, f3, _, _⟩ := setup_workers_loop_frame env
      (setup_workers_args env.worker_path s.config.argv) s.config.num_workers
      { s with workers := List.replicate s.config.num_workers env.stale }
    refine ⟨h1, h2, h3, server_run_of_setup_failed env s _ hfits h1, f2, f3, ?_⟩
    intro c hc
    obtain ⟨l, e1, e2⟩ := setup_workers_loop_calls env
      (setup_workers_args env.worker_path s.config.argv) s.config.num_workers
      { s with workers := List.replicate s.config.num_workers env.stale }
    rw [e1, List.mem_append] at hc
    rcases hc with hc | hc
    · exact Or.inl hc
    · rcases e2 c hc with ⟨j, hj⟩ | ⟨j, hj⟩
      · exact Or.inr (Or.inl ⟨j, hj⟩)
      · exact Or.inr (Or.inr ⟨j, _, hj⟩)

/-- C27 (amended) at two workers when the spawn of worker 0 fails: worker 1 is spawned, then
worker 0 fails; one worker is counted and `server_run` gives up before the listeners. -/
theorem C27_spawn_accounting_witness :
    config_two_by_two.num_workers < 2 ^ 31 ∧
    (server_init config_two_by_two).active_workers + config_two_by_two.num_workers < SIZE_MOD ∧
    ∃ r, setup_workers env_spawn_0_fails (server_init config_two_by_two) = some r ∧
      r.1 = false ∧ r.2.active_workers = 1 ∧ spawned_workers r.2.calls = [1, 0] ∧
      server_run env_spawn_0_fails (server_init config_two_by_two) = some (false, r.2) ∧
      r.2.tcp_list = [] := by
  have hi : (server_init config_two_by_two).config.num_workers < 2 ^ 31 := by decide
  have hs : (server_init config_two_by_two).active_workers +
      (server_init config_two_by_two).config.num_workers < SIZE_MOD := by decide
  obtain ⟨r, hr, _, _, h⟩ := C27_spawn_accounting env_spawn_0_fails
    (server_init config_two_by_two) hi hs
  obtain ⟨h1, h2, h3, h4, h5, _⟩ := h 0 (by decide) (by decide)
    (fun j hj1 hj2 => by
      have hj : j = 1 := by
        have : j < 2 := hj2
        omega
      subst hj; decide)
  exact ⟨hi, hs, r, hr, h1, h2, h3, h4, h5⟩

/-! ## The claims about the buffer invariant, composed writes and reads -/

theorem binary_buffer_init_reset (answer : Option (List Nat)) (b b' : binary_buffer_t)
    (c : Nat) (h : binary_buffer_init answer b c = some b') :
    binary_buffer_reset answer { b with buf := none } c = (true, b') := by
  unfold binary_buffer_init at h
  dsimp only at h
  cases hr : (binary_buffer_reset answer { b with buf := none } c) with
  | mk r1 r2 =>
    rw [hr] at h
    cases r1 <;> simp at h
    rw [h]

/-- A write that has to grow, on a request that does not overflow: the new capacity covers
twice the old capacity plus the length written. -/
theorem binary_buffer_write_grows (roundup : Nat → Nat) (hr : rounds_up roundup)
    (fresh : List Nat) (b : binary_buffer_t) (v : List Nat)
    (hs : b.index ≤ b.capacity) (hg : b.capacity < b.index + v.length)
    (hfit : (b.capacity + v.length) * 2 ≤ 2 ^ 63) :
    ∃ b', binary_buffer_write roundup (some fresh) b v = some (true, b') ∧
      2 * (b.capacity + v.length) ≤ b'.capacity := by
  have hM := size_mod_eq
  have e1 : (b.index + v.length) % SIZE_MOD = b.index + v.length :=
    Nat.mod_eq_of_lt (by omega)
  have hidx : (if b.index < b.index + v.length then b.index + v.length else b.index)
      = b.index + v.length := by split <;> omega
  have hg' : b.index + v.length > b.capacity := hg
  obtain ⟨nb, size, hgrow, hlen, hsz1, _, _⟩ :=
    binary_buffer_grow_ok roundup hr fresh b v.length (by omega) hfit
  obtain ⟨bytes1, hst, _, _⟩ := store_bytes_ok nb b.index v (by omega)
  refine ⟨{ b with buf := some bytes1, capacity := size, index := b.index + v.length }, ?_, hsz1⟩
  simp only [binary_buffer_write, e1, hg', if_true, hgrow, Bool.not_true, hidx]
  by_cases h1 : v.length = 1
  · simp [h1, hst]
  · simp [h1, hst]

/-- Every call of `binary_buffer_write` on a well-formed buffer whose growth request does not
overflow is defined; a call that returns false leaves the buffer as it was, and a call that
returns true leaves a well-formed buffer that holds the stored bytes inside its block. -/
theorem binary_buffer_write_defined (roundup : Nat → Nat) (hr : rounds_up roundup)
    (answer : Option (List Nat)) (b : binary_buffer_t) (v : List Nat)
    (hal : b.allocated) (hs : b.index ≤ b.capacity)
    (hfit : b.capacity < b.index + v.length → (b.capacity + v.length) * 2 ≤ 2 ^ 63) :
    ∃ r b', binary_buffer_write roundup answer b v = some (r, b') ∧
      (r = false → b' = b) ∧
      (r = true → b'.allocated ∧ b'.index ≤ b'.capacity ∧
        b.index + v.length ≤ b'.capacity ∧
        (b.capacity < b.index + v.length → b.capacity + v.length ≤ b'.capacity)) := by
  have hM := size_mod_eq
  by_cases hg : b.capacity < b.index + v.length
  · have hf := hfit hg
    cases answer with
    | none =>
      refine ⟨false, b, ?_, fun _ => rfl, by simp⟩
      have e1 : (b.index + v.length) % SIZE_MOD = b.index + v.length :=
        Nat.mod_eq_of_lt (by omega)
      have hg' : b.index + v.length > b.capacity := hg
      simp [binary_buffer_write, binary_buffer_grow, realloc, e1, hg']
    | some fresh =>
      obtain ⟨b', hw, hcap⟩ := binary_buffer_write_grows roundup hr fresh b v hs hg hf
      obtain ⟨b'', hw', hal', _, hidx, hle, _⟩ := binary_buffer_write_ok roundup hr fresh b v
        hal hs (by omega) hfit (Or.inl (by omega))
      rw [hw] at hw'
      obtain rfl : b' = b'' := by simpa using hw'
      refine ⟨true, b', hw, by simp, fun _ => ⟨hal', hle, by omega, fun _ => by omega⟩⟩
  · have hle : (b.index + v.length) % SIZE_MOD ≤ b.index + v.length := Nat.mod_le _ _
    have hng : ¬ (b.index + v.length) % SIZE_MOD > b.capacity := by omega
    cases hb : b.buf with
    | none =>
      have hc : b.capacity = 0 := by
        unfold binary_buffer_t.allocated at hal; rw [hb] at hal; exact hal
      have h0 : v.length = 0 := by omega
      have hi : b.index = 0 := by omega
      refine ⟨false, b, ?_, fun _ => rfl, by simp⟩
      simp [binary_buffer_write, hng, hb, h0, hi]
    | some l =>
      have hl : l.length = b.capacity := by
        unfold binary_buffer_t.allocated at hal; rw [hb] at hal; exact hal
      obtain ⟨bytes1, hst, hl1, _⟩ := store_bytes_ok l b.index v (by omega)
      refine ⟨true, { b with buf := some bytes1, index :=
          if b.index < (b.index + v.length) % SIZE_MOD then (b.index + v.length) % SIZE_MOD
          else b.index }, ?_, by simp, fun _ => ⟨?_, ?_, ?_, fun h => absurd h hg⟩⟩
      · simp only [binary_buffer_write, hng, if_false, Bool.not_true, hb]
        by_cases h1 : v.length = 1
        · simp [h1, hst]
        · simp [h1, hst]
      · simp only [binary_buffer_t.allocated]; omega
      · simp only; split <;> omega
      · simp only; omega

/-- The growth of a full buffer of `2^63 - 1` bytes for one more byte: the request
`(capacity + 1) * 2` wraps to 0 and the block is reallocated at 128 bytes. -/
theorem binary_buffer_grow_wraps (l : List Nat) :
    binary_buffer_grow roundup_pow2 (some []) ⟨some l, 2 ^ 63 - 1, 2 ^ 63 - 1⟩ 1 =
      (true, ⟨some ((l ++ [] ++ List.replicate 128 0).take 128), 2 ^ 63 - 1, 128⟩) := by
  have n0 : roundup_pow2 (((2 ^ 63 - 1 + 1) % SIZE_MOD * 2) % SIZE_MOD) % SIZE_MOD = 1 := by
    decide
  have n1 : (if 1 < BINARY_BUFFER_MIN_SIZE then BINARY_BUFFER_MIN_SIZE else 1) = 128 := by
    decide
  unfold binary_buffer_grow
  simp only [n0, n1, realloc, Option.getD_some]

/-- C21 (as given) fails: a full buffer of `2^63 - 1` bytes has size `<=` capacity, and a
write of one more byte does not fit; `binary_buffer_grow` then succeeds with a capacity of
128, far below the old capacity plus one, and the byte is stored outside the block. -/
theorem C21_counterexample :
    (⟨some (List.replicate (2 ^ 63 - 1) 0), 2 ^ 63 - 1, 2 ^ 63 - 1⟩ : binary_buffer_t).allocated ∧
    binary_buffer_size ⟨some (List.replicate (2 ^ 63 - 1) 0), 2 ^ 63 - 1, 2 ^ 63 - 1⟩ ≤
      (⟨some (List.replicate (2 ^ 63 - 1) 0), 2 ^ 63 - 1, 2 ^ 63 - 1⟩ : binary_buffer_t).capacity ∧
    (binary_buffer_grow roundup_pow2 (some [])
      ⟨some (List.replicate (2 ^ 63 - 1) 0), 2 ^ 63 - 1, 2 ^ 63 - 1⟩ 1).1 = true ∧
    (binary_buffer_grow roundup_pow2 (some [])
      ⟨some (List.replicate (2 ^ 63 - 1) 0), 2 ^ 63 - 1, 2 ^ 63 - 1⟩ 1).2.capacity = 128 ∧
    binary_buffer_write roundup_pow2 (some [])
      ⟨some (List.replicate (2 ^ 63 - 1) 0), 2 ^ 63 - 1, 2 ^ 63 - 1⟩ [7] = none := by
  refine ⟨List.length_replicate _ _, le_refl _, ?_, ?_,
    binary_buffer_write_wraps _ (List.length_replicate _ _)⟩
  · rw [binary_buffer_grow_wraps]
  · rw [binary_buffer_grow_wraps]

/-- C21 (amended): a buffer set up by a successful `binary_buffer_init` or
`binary_buffer_reset` is well formed with size `<=` capacity; and on a well-formed buffer with
size `<=` capacity every `binary_buffer_write` and `binary_buffer_write_curr_index` whose
growth request does not overflow (`(capacity + n) * 2 <= 2^63` when the `n` bytes do not fit)
is defined, leaves the buffer as it was when it returns false, and when it returns true
leaves a well-formed buffer with size `<=` capacity whose block contains the stored bytes,
the capacity being at least the old capacity plus `n` if the bytes did not fit. -/
theorem C21_size_within_capacity (roundup : Nat → Nat) (hr : rounds_up roundup)
    (answer : Option (List Nat)) (b : binary_buffer_t) (v : List Nat)
    (hal : b.allocated) (hs : binary_buffer_size b ≤ b.capacity)
    (hfit : b.capacity < binary_buffer_size b + v.length → (b.capacity + v.length) * 2 ≤ 2 ^ 63) :
    (∃ r b', binary_buffer_write roundup answer b v = some (r, b') ∧
      (r = false → b' = b) ∧
      (r = true → b'.allocated ∧ binary_buffer_size b' ≤ b'.capacity ∧
        binary_buffer_size b + v.length ≤ b'.capacity ∧
        (b.capacity < binary_buffer_size b + v.length → b.capacity + v.length ≤ b'.capacity))) ∧
    (∀ value : Nat,
      (b.capacity < binary_buffer_size b + 1 → (b.capacity + 1) * 2 ≤ 2 ^ 63) →
      ∃ r b', binary_buffer_write_curr_index roundup answer b value = some (r, b') ∧
        (r = false → b' = b) ∧
        (r = true → b'.allocated ∧ binary_buffer_size b' ≤ b'.capacity ∧
          binary_buffer_size b + 1 ≤ b'.capacity ∧
          (b.capacity < binary_buffer_size b + 1 → b.capacity + 1 ≤ b'.capacity))) ∧
    (∀ (answer0 : Option (List Nat)) (b0 b1 : binary_buffer_t) (c : Nat),
      binary_buffer_init answer0 b0 c = some b1 ∨ binary_buffer_reset answer0 b0 c = (true, b1) →
      b1.allocated ∧ binary_buffer_size b1 ≤ b1.capacity) := by
  unfold binary_buffer_size at *
  refine ⟨binary_buffer_write_defined roundup hr answer b v hal hs hfit, ?_, ?_⟩
  · intro value hfit1
    exact binary_buffer_write_defined roundup hr answer b [value] hal hs hfit1
  · intro answer0 b0 b1 c h
    rcases h with h | h
    · obtain ⟨h1, _, h3⟩ := binary_buffer_reset_ok answer0 _ b1 c
        (binary_buffer_init_reset answer0 b0 b1 c h)
      exact ⟨h3, by omega⟩
    · obtain ⟨h1, _, h3⟩ := binary_buffer_reset_ok answer0 b0 b1 c h
      exact ⟨h3, by omega⟩

/-- C21 (amended) at a full four-byte buffer that receives two more bytes, which do not
fit. -/
theorem C21_size_within_capacity_witness :
    (⟨some [1, 2, 3, 4], 4, 4⟩ : binary_buffer_t).allocated ∧
    ∃ b', binary_buffer_write roundup_pow2 (some []) ⟨some [1, 2, 3, 4], 4, 4⟩ [5, 6] =
        some (true, b') ∧
      binary_buffer_size b' ≤ b'.capacity ∧ 4 + 2 ≤ b'.capacity := by
  obtain ⟨r, b', h1, _, h3⟩ := (C21_size_within_capacity roundup_pow2 rounds_up_roundup_pow2
    (some []) ⟨some [1, 2, 3, 4], 4, 4⟩ [5, 6] (by decide) (by decide) (by decide)).1
  obtain ⟨b'', hw, _⟩ := binary_buffer_write_ok roundup_pow2 rounds_up_roundup_pow2 []
    ⟨some [1, 2, 3, 4], 4, 4⟩ [5, 6] (by decide) (by decide) (by decide) (by decide) (by decide)
  rw [hw] at h1
  simp only [Option.some.injEq, Prod.mk.injEq] at h1
  obtain ⟨hr, hb⟩ := h1
  subst hr hb
  exact ⟨by decide, b'', hw, (h3 rfl).2.1, (h3 rfl).2.2.2 (by decide)⟩

/-- C23: `binary_buffer_read_index` at an index at or beyond the capacity returns 0 whatever
the block is (the block is not read, even when it is NULL); at an index below the capacity of
a well-formed buffer it returns the byte of the block at that index; and in neither case does
the result depend on `binary_buffer_size`. -/
theorem C23_reads_bounded_by_capacity (b : binary_buffer_t) (i : Nat) :
    (b.capacity ≤ i → binary_buffer_read_index b i = some 0) ∧
    (b.allocated → i < b.capacity →
      ∃ bytes, b.buf = some bytes ∧ ∃ h : i < bytes.length,
        binary_buffer_read_index b i = some (bytes.get ⟨i, h⟩)) ∧
    (∀ size, binary_buffer_read_index { b with index := size } i =
      binary_buffer_read_index b i) := by
  refine ⟨?_, ?_, fun _ => rfl⟩
  · intro h
    unfold binary_buffer_read_index
    rw [if_neg (by omega)]
  · intro hal hi
    unfold binary_buffer_t.allocated at hal
    cases hb : b.buf with
    | none => rw [hb] at hal; omega
    | some bytes =>
      rw [hb] at hal
      have hlt : i < bytes.length := by rw [hal]; exact hi
      refine ⟨bytes, rfl, hlt, ?_⟩
      unfold binary_buffer_read_index
      rw [if_pos hi, hb]
      simp [List.getElem?_eq_getElem hlt]

/-- C23 at a buffer just initialised with capacity 4 in a block that the allocator left
holding 5, 6, 7, 8: its size is 0, index 2 reads the never written 7, and index 4 reads 0. -/
theorem C23_reads_bounded_by_capacity_witness :
    binary_buffer_init (some [5, 6, 7, 8]) ⟨none, 0, 0⟩ 4 = some ⟨some [5, 6, 7, 8], 0, 4⟩ ∧
    binary_buffer_size ⟨some [5, 6, 7, 8], 0, 4⟩ = 0 ∧
    binary_buffer_read_index ⟨some [5, 6, 7, 8], 0, 4⟩ 2 = some 7 ∧
    binary_buffer_read_index ⟨some [5, 6, 7, 8], 0, 4⟩ 4 = some 0 := by
  obtain ⟨bytes, hb, hlt, h⟩ := (C23_reads_bounded_by_capacity ⟨some [5, 6, 7, 8], 0, 4⟩ 2).2.1
    (by decide) (by decide)
  refine ⟨by decide, rfl, ?_, (C23_reads_bounded_by_capacity ⟨some [5, 6, 7, 8], 0, 4⟩ 4).1
    (by decide)⟩
  rw [h]
  simp only [Option.some.injEq] at hb
  subst hb
  rfl

/-- A zero-length write changes nothing: it needs no growth and stores no byte. -/
theorem binary_buffer_write_nil (roundup : Nat → Nat) (answer : Option (List Nat))
    (b : binary_buffer_t) (hal : b.allocated) (hs : b.index ≤ b.capacity) :
    ∃ r, binary_buffer_write roundup answer b [] = some (r, b) := by
  have hng : ¬ (b.index + 0) % SIZE_MOD > b.capacity := by
    have := Nat.mod_le (b.index + 0) SIZE_MOD
    omega
  have hnlt : ¬ b.index < (b.index + 0) % SIZE_MOD := by
    have := Nat.mod_le (b.index + 0) SIZE_MOD
    omega
  cases hb : b.buf with
  | none =>
    have hc : b.capacity = 0 := by
      unfold binary_buffer_t.allocated at hal; rw [hb] at hal; exact hal
    have hi : b.index = 0 := by omega
    exact ⟨false, by simp [binary_buffer_write, hb, hi, hc]⟩
  | some l =>
    have hl : l.length = b.capacity := by
      unfold binary_buffer_t.allocated at hal; rw [hb] at hal; exact hal
    refine ⟨true, ?_⟩
    have hst : store_bytes l b.index [] = some l := by
      unfold store_bytes
      rw [if_pos (by simp; omega)]
      simp
    have hbb : ({ b with buf := some l, index := b.index } : binary_buffer_t) = b := by
      cases b; simp_all
    simp only [binary_buffer_write, List.length_nil, hng, if_false, Bool.not_true, hb, hnlt,
      hst]
    simp [hbb]

/-- A write of any length, zero included, when the allocator succeeds and the growth request
does not overflow: the bytes are appended to those written. -/
theorem binary_buffer_write_appends (roundup : Nat → Nat) (hr : rounds_up roundup)
    (fresh : List Nat) (b : binary_buffer_t) (v : List Nat)
    (hal : b.allocated) (hs : b.index ≤ b.capacity) (hfit : (b.capacity + v.length) * 2 ≤ 2 ^ 63) :
    ∃ r b', binary_buffer_write roundup (some fresh) b v = some (r, b') ∧
      b'.allocated ∧ b'.index = b.index + v.length ∧ b'.index ≤ b'.capacity ∧
      b'.written = b.written ++ v ∧
      b'.capacity ≤ max (max 128 b.capacity) (4 * (b.capacity + v.length)) := by
  have hM := size_mod_eq
  cases v with
  | nil =>
    obtain ⟨r, h⟩ := binary_buffer_write_nil roundup (some fresh) b hal hs
    exact ⟨r, b, h, hal, rfl, hs, by simp, by omega⟩
  | cons x xs =>
    obtain ⟨b', hw, hal', _, hidx, hle, hwr, _, hcap⟩ :=
      binary_buffer_write_ok roundup hr fresh b (x :: xs) hal hs (by omega) (fun _ => hfit)
        (Or.inl (by simp))
    exact ⟨true, b', hw, hal', hidx, hle, hwr, hcap⟩

/-- C22 (amended): on a well-formed buffer with size `<=` capacity, with the allocator
succeeding and room for both sequences (capacity plus the two lengths at most `2^56`, so that
no growth request overflows), writing `a` and then `c` leaves the same size and the same
bytes at every index below it as writing `a ++ c` in one call; and a zero-length write,
whatever the allocator answers, leaves the buffer exactly as it was. -/
theorem C22_writes_compose (roundup : Nat → Nat) (hr : rounds_up roundup)
    (fresh1 fresh2 fresh3 : List Nat) (b : binary_buffer_t) (a c : List Nat)
    (hal : b.allocated) (hs : binary_buffer_size b ≤ b.capacity)
    (hroom : b.capacity + (a.length + c.length) ≤ 2 ^ 56) :
    (∃ r1 b1 r2 b2 r3 b3,
      binary_buffer_write roundup (some fresh1) b a = some (r1, b1) ∧
      binary_buffer_write roundup (some fresh2) b1 c = some (r2, b2) ∧
      binary_buffer_write roundup (some fresh3) b (a ++ c) = some (r3, b3) ∧
      binary_buffer_size b2 = binary_buffer_size b3 ∧
      binary_buffer_size b2 = binary_buffer_size b + a.length + c.length ∧
      ∀ i, i < binary_buffer_size b2 →
        binary_buffer_read_index b2 i = binary_buffer_read_index b3 i) ∧
    ∀ answer, ∃ r, binary_buffer_write roundup answer b [] = some (r, b) := by
  unfold binary_buffer_size at *
  refine ⟨?_, fun answer => binary_buffer_write_nil roundup answer b hal hs⟩
  obtain ⟨r1, b1, h1, hal1, hi1, hle1, hw1, hc1⟩ :=
    binary_buffer_write_appends roundup hr fresh1 b a hal hs (by omega)
  obtain ⟨r2, b2, h2, hal2, hi2, hle2, hw2, _⟩ :=
    binary_buffer_write_appends roundup hr fresh2 b1 c hal1 hle1 (by omega)
  obtain ⟨r3, b3, h3, hal3, hi3, hle3, hw3, _⟩ :=
    binary_buffer_write_appends roundup hr fresh3 b (a ++ c) hal hs
      (by simp only [List.length_append]; omega)
  have hsz : b2.index = b3.index := by
    rw [hi2, hi1, hi3, List.length_append]; omega
  refine ⟨r1, b1, r2, b2, r3, b3, h1, h2, h3, hsz, by omega, ?_⟩
  intro i hi
  rw [binary_buffer_read_index_written b2 hal2 hle2 i hi,
    binary_buffer_read_index_written b3 hal3 hle3 i (by omega), hw2, hw1, hw3,
    List.append_assoc]

/-- C22 (amended) at a four-byte buffer holding one byte, with two bytes and then three
written, against the five written at once. -/
theorem C22_writes_compose_witness :
    ∃ r1 b1 r2 b2 r3 b3,
      binary_buffer_write roundup_pow2 (some []) ⟨some [9, 0, 0, 0], 1, 4⟩ [1, 2] = some (r1, b1) ∧
      binary_buffer_write roundup_pow2 (some [7, 7]) b1 [3, 4, 5] = some (r2, b2) ∧
      binary_buffer_write roundup_pow2 (some [8]) ⟨some [9, 0, 0, 0], 1, 4⟩ [1, 2, 3, 4, 5] =
        some (r3, b3) ∧
      binary_buffer_size b2 = 6 ∧ binary_buffer_size b3 = 6 ∧
      ∀ i, i < 6 → binary_buffer_read_index b2 i = binary_buffer_read_index b3 i := by
  obtain ⟨⟨r1, b1, r2, b2, r3, b3, h1, h2, h3, h4, h5, h6⟩, _⟩ :=
    C22_writes_compose roundup_pow2 rounds_up_roundup_pow2 [] [7, 7] [8]
      ⟨some [9, 0, 0, 0], 1, 4⟩ [1, 2] [3, 4, 5] (by decide) (by decide) (by decide)
  have e2 : binary_buffer_size b2 = 6 := by simpa [binary_buffer_size] using h5
  exact ⟨r1, b1, r2, b2, r3, b3, h1, h2, h3, e2, by rw [← h4]; exact e2,
    fun i hi => h6 i (by rw [e2]; exact hi)⟩

/-- A write of `2^62` bytes into an empty buffer of capacity `2^62 - 1`: the growth request
`(capacity + 2^62) * 2` is `2^64 - 2`, the rounding wraps to 0, the block is reallocated at
128 bytes and the store falls outside it. -/
theorem binary_buffer_write_too_long (l v : List Nat) (hv : v.length = 2 ^ 62) :
    binary_buffer_write roundup_pow2 (some []) ⟨some l, 0, 2 ^ 62 - 1⟩ v = none := by
  have hgrow : binary_buffer_grow roundup_pow2 (some []) ⟨some l, 0, 2 ^ 62 - 1⟩ (2 ^ 62)
      = (true, ⟨some ((l ++ [] ++ List.replicate 128 0).take 128), 0, 128⟩) := by
    have n0 : roundup_pow2 (((2 ^ 62 - 1 + 2 ^ 62) % SIZE_MOD * 2) % SIZE_MOD) % SIZE_MOD = 0 := by
      decide
    have n1 : (if 0 < BINARY_BUFFER_MIN_SIZE then BINARY_BUFFER_MIN_SIZE else 0) = 128 := by
      decide
    unfold binary_buffer_grow
    simp only [n0, n1, realloc, Option.getD_some]
  have hcond : (0 + 2 ^ 62) % SIZE_MOD > 2 ^ 62 - 1 := by decide
  have e4 : ((l ++ [] ++ List.replicate 128 0).take 128).length = 128 := by
    simp only [List.length_take, List.length_append, List.length_replicate]; omega
  have hst : store_bytes ((l ++ [] ++ List.replicate 128 0).take 128) 0 v = none := by
    unfold store_bytes
    rw [if_neg]
    rw [e4, hv]
    decide
  have h1 : ¬ (2 ^ 62 = 1) := by decide
  unfold binary_buffer_write
  simp only [hv, hcond, if_true, hgrow, Bool.not_true, hst, h1, if_false]
  simp

/-- The same bytes written in two calls, `2^62 - 1` that fit and then one more: both calls
return true. -/
theorem binary_buffer_write_in_two (l a : List Nat) (hl : l.length = 2 ^ 62 - 1)
    (ha : a.length = 2 ^ 62 - 1) :
    ∃ b1 b2, binary_buffer_write roundup_pow2 (some []) ⟨some l, 0, 2 ^ 62 - 1⟩ a =
        some (true, b1) ∧
      binary_buffer_write roundup_pow2 (some []) b1 [7] = some (true, b2) ∧
      binary_buffer_size b2 = 2 ^ 62 := by
  have hM := size_mod_eq
  obtain ⟨b1, h1, hal1, _, hi1, hle1, _, hc1, _⟩ :=
    binary_buffer_write_ok roundup_pow2 rounds_up_roundup_pow2 [] ⟨some l, 0, 2 ^ 62 - 1⟩ a
      (by simp [binary_buffer_t.allocated, hl]) (by simp) (by simp only; omega)
      (fun h => by simp only at h; omega) (Or.inl (by omega))
  simp only at hi1 hc1
  obtain ⟨b2, h2, _, _, hi2, _⟩ :=
    binary_buffer_write_ok roundup_pow2 rounds_up_roundup_pow2 [] b1 [7] hal1 hle1
      (by simp only [List.length_singleton]; omega)
      (fun h => by simp only [List.length_singleton] at h ⊢; omega) (Or.inl (by simp))
  refine ⟨b1, b2, h1, h2, ?_⟩
  simp only [binary_buffer_size, hi2, hi1, List.length_singleton]
  omega

/-- C22 (as given) fails, at two inputs. With an allocator that fails, two bytes that fit
followed by three that do not leave a size of 2, while the five written at once leave a size
of 0. With an allocator that succeeds, `2^62 - 1` bytes that fit an empty buffer of that
capacity followed by one more byte are both written (size `2^62`), while the `2^62` bytes
written at once make a growth request that wraps, and the store falls outside the block. -/
theorem C22_counterexample :
    (binary_buffer_write roundup_pow2 none ⟨some [0, 0, 0, 0], 0, 4⟩ [1, 2] =
        some (true, ⟨some [1, 2, 0, 0], 2, 4⟩) ∧
      binary_buffer_write roundup_pow2 none ⟨some [1, 2, 0, 0], 2, 4⟩ [3, 4, 5] =
        some (false, ⟨some [1, 2, 0, 0], 2, 4⟩) ∧
      binary_buffer_write roundup_pow2 none ⟨some [0, 0, 0, 0], 0, 4⟩ ([1, 2] ++ [3, 4, 5]) =
        some (false, ⟨some [0, 0, 0, 0], 0, 4⟩)) ∧
    ((∃ b1 b2,
        binary_buffer_write roundup_pow2 (some [])
          ⟨some (List.replicate (2 ^ 62 - 1) 0), 0, 2 ^ 62 - 1⟩ (List.replicate (2 ^ 62 - 1) 1) =
          some (true, b1) ∧
        binary_buffer_write roundup_pow2 (some []) b1 [7] = some (true, b2) ∧
        binary_buffer_size b2 = 2 ^ 62) ∧
      binary_buffer_write roundup_pow2 (some [])
        ⟨some (List.replicate (2 ^ 62 - 1) 0), 0, 2 ^ 62 - 1⟩
        (List.replicate (2 ^ 62 - 1) 1 ++ [7]) = none) := by
  refine ⟨⟨by decide, by decide, by decide⟩,
    binary_buffer_write_in_two _ _ (List.length_replicate _ _) (List.length_replicate _ _),
    binary_buffer_write_too_long _ _ ?_⟩
  rw [List.length_append, List.length_replicate]
  decide

end Galactic
